import Mathlib

/-!
# dmsample / dmsProcessParallel: sampling-and-aggregation pipeline

A shallow embedding of the two drivers `src/dmotif/dmsample.c` and
`src/dmotif/dmsProcessParallel.c` of PHAST, together with the hash-table
merge they call, and the properties of the pipeline proved about it.

Conventions.
* C `int` values are `Int`; list sizes and loop indices are `Nat`.
* `double` option values are only stored and compared with `0` and `1`;
  they are carried as `double`, a rational or the value NaN, on which both
  comparisons are false.
* A call into a collaborator whose body is not part of the two drivers is
  either a field of `World` (the value that call returned in this run) or,
  for the hash table and the cache merger, a definition modelled from the
  specification and marked as such.
* A run is a `Run`: the ordered trace of externally visible actions and
  collaborator calls, and the way the process ended.
-/

namespace Phast

/-! ## Count tables -/

/-- Modelled from the spec: PathKey, the fixed-length sequence of small
non-negative integers that encodes one sampled state path (the `char *key`
of the hash table, whose implementation `hashtable.c` is not among the
sources).  Two keys are equal iff they are element-wise equal. -/
abbrev PathKey := List Nat

/-- Modelled from the spec: CountVector, an ordered sequence of integers with
at least the occurrence slot (`counts[0]`), optionally followed by further
sub-counts. -/
structure CountVector where
  occ : Int
  extra : List Int
deriving DecidableEq, Repr

/-- Modelled from the spec: CountTable, the mapping PathKey → CountVector
(`Hashtable *path_counts`; `hashtable.c` is not among the sources).  Entries
are kept in insertion order; a key is looked up at its first entry. -/
abbrev CountTable := List (PathKey × CountVector)

/-- Modelled from the spec: `hsh_keys`, the keys of the table in iteration
order. -/
def hsh_keys (t : CountTable) : List PathKey := t.map Prod.fst

/-- Modelled from the spec: `hsh_get`, the count vector stored under a key
(`none` where the C function returns its not-found value). -/
def hsh_get : CountTable → PathKey → Option CountVector
  | [], _ => none
  | (k', v) :: rest, k => if k' = k then some v else hsh_get rest k

/-- Modelled from the spec: element-wise addition of two count vectors. -/
def vec_add (a b : CountVector) : CountVector :=
  ⟨a.occ + b.occ, List.zipWith (fun x y => x + y) a.extra b.extra⟩

/-- Modelled from the spec: the per-entry step of the merger (§4.4): "if the
PathKey is already present in the result, add the CountVectors element-wise;
otherwise insert the CountVector as-is". -/
def hsh_merge_entry : CountTable → PathKey → CountVector → CountTable
  | [], k, v => [(k, v)]
  | (k', v') :: rest, k, v =>
    if k' = k then (k', vec_add v' v) :: rest
    else (k', v') :: hsh_merge_entry rest k v

/-- Modelled from the spec: merging every entry of one deserialized table
into the result table, in the entry order of the file. -/
def dms_combine_hashes (target query : CountTable) : CountTable :=
  query.foldl (fun t e => hsh_merge_entry t e.1 e.2) target

/-- Modelled from the spec: CacheFile, a named container holding a serialized
CountTable plus the sample count it represents. -/
structure CacheFile where
  name : String
  table : CountTable
  nsamples : Int
deriving DecidableEq, Repr

/-- Modelled from the spec: `dms_uncache`, the cache merger of §4.4
(`dmotif_phmm.c` is not among the sources), called as
`dms_uncache(tmp_lst, init_size, nbases, &counter, reset)`.  `nsamples` is
the value the caller's counter holds at the call, `reset_nsamples` the last
argument.  It starts from an empty result table; for each cache file in turn
it merges the file's entries into the result and accumulates the file's
sample count into the counter.  With the reset flag `1` the counter is first
set to zero, with any other flag the accumulation starts from the value the
counter holds: the call sites pass the flag `1` with a counter that was never
assigned (`csamples`, `dmsample.c` lines 39 and 485-487), and zero the
counter by hand before a call that passes the flag `0`
(`dmsProcessParallel.c` lines 171-172).  The first component is the returned
table, the second the value left in the caller's counter through the pointer
argument. -/
def dms_uncache (tmp_lst : List CacheFile) (nsamples : Int) (reset_nsamples : Int) :
    CountTable × Int :=
  tmp_lst.foldl (fun acc f => (dms_combine_hashes acc.1 f.table, acc.2 + f.nsamples))
    ([], if reset_nsamples = 1 then 0 else nsamples)

/-- Modelled from the spec: the Worker's recording step of §4.2: a recorded
sample arrives as its PathKey and the increment it contributes; the entry is
created "with a zero vector if absent" and then incremented, which is the
same per-entry step as the merger's. -/
def dms_record_sample (t : CountTable) (s : PathKey × CountVector) : CountTable :=
  hsh_merge_entry t s.1 s.2

/-- Modelled from the spec: the cache file a Spill Cache Writer produces from
the samples recorded since the last flush: their count table and their
number. -/
def dms_spill (fname : String) (samples : List (PathKey × CountVector)) : CacheFile :=
  ⟨fname, samples.foldl dms_record_sample [], samples.length⟩

/-- The record `GFF_Feature` of `gff.h` (the fields `end` and `attribute` carry
a trailing underscore, both being reserved words here).  The drivers do not
compute with the `double` field `score`; it is carried as the number it
stands for. -/
structure GFF_Feature where
  seqname : String
  source : String
  feature : String
  start : Int
  end_ : Int
  score : Rat
  strand : Char
  frame : Int
  attribute_ : String
  score_is_null : Int
deriving DecidableEq, Repr

/-- The signature of `dms_motif_as_gff_feat` as the drivers call it, with the
model handle, the blocks and the sequence names fixed: key, counts, nsamples,
sample_interval, refidx. -/
abbrev FeatFn := PathKey → Option CountVector → Int → Int → Int → GFF_Feature

/-! ## Runs: traces and outcomes -/

/-- An externally visible action of a driver, or a call it makes into a
collaborator, in program order.  Memory management other than that of the
prior table and of the emission table, and `fclose`, are not traced. -/
inductive Event where
  | fopen (fname mode : String)
  | print_stdout (text : String)
  | print_stderr (text : String)
  | gff_read_set
  | tm_new_from_file
  | mot_read
  | dms_read_alignments
  | priors_alloc (rows : Nat)
  | priors_row_init (i : Nat)
  | dms_read_priors (priors : List (Option (List Int))) (xi_mode : Bool)
  | tm_prune
  | tr_name_ancestors
  | dm_new
  | dm_set_subst_mods
  | thr_pool_init (nthreads : Int)
  | dms_read_tmp_from_file
  | tuple_scores_alloc (nstates ntuples : Nat)
  | dms_compute_emissions
  | dm_handle_missing_data
  | dms_sample_paths_pthr
  | tuple_scores_free
  | dms_uncache (files : List String) (init_size nbases reset : Int)
  | dms_read_hash (nbases : Int)
  | priors_row_free (i : Nat)
  | priors_free
  | dms_write_hash (path_counts : CountTable) (nbases nsamples : Int)
  | gff_new_set
  | dms_motif_as_gff_feat (key : PathKey) (counts : Option CountVector)
      (nsamples sample_interval refidx : Int)
  | gff_print_set (features : List GFF_Feature)
  | system (cmd : String)
deriving DecidableEq, Repr

/-- How a process ended: `return` from `main`, `exit`, `die` with its message,
or a read outside an array (no defined behaviour). -/
inductive Outcome where
  | returned (code : Int)
  | exited (code : Int)
  | died (msg : String)
  | undefined
deriving DecidableEq, Repr

/-- A run of a driver: what it did, in order, and how it ended. -/
structure Run where
  trace : List Event
  outcome : Outcome
deriving DecidableEq, Repr

/-- The run that first performs `evs` and then goes on as `r`. -/
def Run.after (evs : List Event) (r : Run) : Run := ⟨evs ++ r.trace, r.outcome⟩

/-! ## The emit loops -/

/-- The emit loop of `dmsample.c` (lines 528-536):
`for (i = 0; i < lst_size(keys); i++) { key = lst_get_ptr(keys, i);
counts = hsh_get(path_counts, key); f = dms_motif_as_gff_feat(...);
lst_push_ptr(predictions->features, f); }`.
The loop state is the feature list built so far together with the calls of
`dms_motif_as_gff_feat` made so far.  The first argument bounds the number of
iterations; the driver starts it at `lst_size(keys)`. -/
def dmsample_emit_loop (feat : FeatFn) (path_counts : CountTable) (keys : List PathKey)
    (nsamples sample_interval refidx : Int) :
    Nat → Nat → List GFF_Feature × List Event → List GFF_Feature × List Event
  | 0, _, st => st
  | fuel + 1, i, st =>
    if h : i < keys.length then
      let key := keys[i]
      let counts := hsh_get path_counts key
      let f := feat key counts nsamples sample_interval refidx
      dmsample_emit_loop feat path_counts keys nsamples sample_interval refidx fuel (i + 1)
        (st.1 ++ [f],
          st.2 ++ [Event.dms_motif_as_gff_feat key counts nsamples sample_interval refidx])
    else st

/-- Lines 527-536 of `dmsample.c`: the key list and the emit loop over it,
starting from the empty feature set. -/
def dmsample_emit (feat : FeatFn) (path_counts : CountTable)
    (nsamples sample_interval refidx : Int) : List GFF_Feature × List Event :=
  let keys := hsh_keys path_counts
  dmsample_emit_loop feat path_counts keys nsamples sample_interval refidx keys.length 0 ([], [])

/-- The emit loop of `dmsProcessParallel.c` (lines 184-192), the same loop
over `keys`, `hsh_get` and `dms_motif_as_gff_feat`. -/
def dmsProcessParallel_emit_loop (feat : FeatFn) (path_counts : CountTable)
    (keys : List PathKey) (nsamples sample_interval refidx : Int) :
    Nat → Nat → List GFF_Feature × List Event → List GFF_Feature × List Event
  | 0, _, st => st
  | fuel + 1, i, st =>
    if h : i < keys.length then
      let key := keys[i]
      let counts := hsh_get path_counts key
      let f := feat key counts nsamples sample_interval refidx
      dmsProcessParallel_emit_loop feat path_counts keys nsamples sample_interval refidx fuel
        (i + 1)
        (st.1 ++ [f],
          st.2 ++ [Event.dms_motif_as_gff_feat key counts nsamples sample_interval refidx])
    else st

/-- Lines 183-192 of `dmsProcessParallel.c`. -/
def dmsProcessParallel_emit (feat : FeatFn) (path_counts : CountTable)
    (nsamples sample_interval refidx : Int) : List GFF_Feature × List Event :=
  let keys := hsh_keys path_counts
  dmsProcessParallel_emit_loop feat path_counts keys nsamples sample_interval refidx
    keys.length 0 ([], [])

/-! ## Doubles -/

/-- A C `double` as far as the drivers look at one: a number, or the value
NaN.  The drivers only store doubles and compare them with the constants
`0` and `1`; an infinity compares with them as a number beyond them does,
NaN compares false with everything. -/
inductive double where
  | num (x : Rat)
  | nan
  deriving DecidableEq, Repr

/-- The C comparison `x <= c` of a double with a constant: false on NaN. -/
def double.le (x : double) (c : Rat) : Bool :=
  match x with
  | .num v => decide (v ≤ c)
  | .nan => false

/-- The C comparison `x >= c` of a double with a constant: false on NaN. -/
def double.ge (x : double) (c : Rat) : Bool :=
  match x with
  | .num v => decide (v ≥ c)
  | .nan => false

/-! ## Collaborators -/

/-- The enumeration `subst_mod_type` of `subst_mods.h`. -/
inductive subst_mod_type where
  | JC69 | K80 | F81 | HKY85 | HKY85G | REV | SSREV | REV_GC | UNREST | HKY2
  | R2 | U2 | R2S | U2S | R3 | R3S | U3 | U3S | GC | HB | UNDEF_MOD
deriving DecidableEq, Repr

/-- A node of the phylogenetic tree, as far as the drivers read it: its
name. -/
structure TreeNode where
  name : String
deriving DecidableEq, Repr

/-- The tree model handle, as far as the drivers read it: `nratecats`,
`order`, the value `tm_is_reversible(subst_mod)` and the node list
`tree->nodes`, whose size is `tree->nnodes`. -/
structure TreeModel where
  nratecats : Int
  order : Int
  reversible : Bool
  nodes : List TreeNode
deriving DecidableEq, Repr

/-- An alignment, as far as the drivers read it: its sequence names. -/
structure MSA where
  names : List String
deriving DecidableEq, Repr

/-- The result of `dms_read_alignments`, as far as the drivers read it:
block 0 of `pmsa->source_msas`, the number of blocks, the number of distinct
column tuples of the pooled alignment, and the maximal sequence length. -/
structure DMotifPmsaStruct where
  msa0 : MSA
  nblocks : Int
  ntuples : Nat
  max_seqlen : Int
deriving DecidableEq, Repr

/-- What the environment and the collaborators return in one run.  A
collaborator that can abort the process returns `Except.error` with the
message it dies with.  `dms_sample_paths_pthr` is the list of cache files the
sampler returns, each with the content the merger will read from it;
`dms_read_tmp_from_file` is the list read from a temporary-file list, and
`hash_files` the list named by the comma-separated first argument of
`dmsProcessParallel` (the result of `str_split`), with their contents
likewise.  `csamples0` is the indeterminate value the variable `csamples` of
`dmsample.c`, declared at line 39 and never assigned before line 487, holds
when its address is passed to the merger.  `dm_k` and `nstates` are `dm->k` and `dm->phmm->hmm->nstates` of
the model `dm_new` returns. -/
structure World where
  HELP : String
  INFTY : Int
  time0 : Int
  STR_MED_LEN : Nat
  atoi : String → Int
  get_arg_dbl_bounds : String → Rat → Rat → Except String double
  get_arg_int_bounds : String → Int → Int → Except String Int
  get_arg_list_dbl : String → Except String (List double)
  fopen_fname : String → String → Except String Unit
  tm_get_subst_mod_type : String → subst_mod_type
  tm_new_from_file : String → Except String TreeModel
  mot_read : String → Except String Unit
  dms_read_alignments : String → Except String DMotifPmsaStruct
  tm_prune : TreeModel → MSA → List String × List TreeNode
  tr_name_ancestors : List TreeNode → List TreeNode
  dm_k : Int
  nstates : Nat
  dms_read_tmp_from_file : String → Option (List CacheFile)
  dms_sample_paths_pthr : List CacheFile
  csamples0 : Int
  dms_read_hash : Option String → CountTable × Int
  hash_files : String → List CacheFile
  feat : FeatFn

/-! ## `dmsample.c`: options -/

/-- The option variables of `dmsample.c` (lines 95-112).  An open `FILE *` is
the name it was opened under, `NULL` is `none`. -/
structure DmsOptions where
  rho : double
  mu : double
  nu : double
  phi : double
  zeta : double
  xi : double
  alpha_c : double
  beta_c : double
  tau_c : double
  epsilon_c : double
  alpha_n : double
  beta_n : double
  tau_n : double
  epsilon_n : double
  refidx : Int
  bsamples : Int
  nsamples : Int
  sample_interval : Int
  do_ih : Int
  ref_as_prior : Bool
  force_priors : Bool
  precomputed_hash : Bool
  quiet : Bool
  cache_int : Int
  nthreads : Int
  hash_debug : Bool
  revcomp : Bool
  do_zeroed : Bool
  xi_mode : Bool
  scale_by_branch : Bool
  ncm_idl_mode : Int
  fix_params : Bool
  seqname : Option String
  idpref : Option String
  cache_fname : String
  mmod_type : subst_mod_type
  log : Option String
  ref_gff_f : Option String
  hash_f : Option String
  tmp_lst_f : Option String
  cond_spec_f : Option String
  reference : Bool

/-- The text `snprintf(buf, size, ...)` leaves in `buf`: at most `size - 1`
characters of the formatted text. -/
def snprintf (size : Nat) (text : String) : String := String.mk (text.data.take (size - 1))

/-- The defaults of lines 24-35 and 95-114 of `dmsample.c`. -/
def dmsample_defaults (w : World) : DmsOptions where
  rho := .num (3 / 10)
  mu := .num (1 / 100)
  nu := .num (1 / 100)
  phi := .num (1 / 2)
  zeta := .num (1 / 1000)
  xi := .num (1 / 10000)
  alpha_c := .num (-1)
  beta_c := .num (-1)
  tau_c := .num (-1)
  epsilon_c := .num (-1)
  alpha_n := .num (-1)
  beta_n := .num (-1)
  tau_n := .num (-1)
  epsilon_n := .num (-1)
  refidx := 0
  bsamples := 200
  nsamples := 9000
  sample_interval := 1
  do_ih := 0
  ref_as_prior := false
  force_priors := false
  precomputed_hash := false
  quiet := false
  cache_int := 200
  nthreads := 0
  hash_debug := false
  revcomp := false
  do_zeroed := false
  xi_mode := true
  scale_by_branch := false
  ncm_idl_mode := 0
  fix_params := false
  seqname := none
  idpref := none
  cache_fname := snprintf w.STR_MED_LEN ("dmsample_" ++ toString w.time0)
  mmod_type := w.tm_get_subst_mod_type "F81"
  log := none
  ref_gff_f := none
  hash_f := none
  tmp_lst_f := none
  cond_spec_f := none
  reference := false

/-- The result of one pass through the option switch: the actions performed,
and either the updated option variables or the way the process ended. -/
abbrev Step (σ : Type) := List Event × Except Outcome σ

/-- The call `fopen_fname(fname, mode)` followed by `k`: the file is open
when the call returns, and the process dies inside the call otherwise. -/
def with_fopen {σ : Type} (w : World) (fname mode : String) (k : Step σ) : Step σ :=
  match w.fopen_fname fname mode with
  | .error msg => ([], .error (.died msg))
  | .ok _ => (Event.fopen fname mode :: k.1, k.2)

/-- A pass through the switch that performs no traced action. -/
def Step.ok {σ : Type} (o : σ) : Step σ := ([], .ok o)

/-- The call `die(msg)`. -/
def Step.die {σ : Type} (msg : String) : Step σ := ([], .error (.died msg))

/-- Entry `i` of a list of doubles (`lst_get_dbl`); the drivers only read
entries below the size they have checked, except in the unreachable branch
of line 146. -/
def lst_get_dbl (l : List double) (i : Nat) : double := l.getD i (.num 0)

/-- The test of lines 156-159 on one parameter of the indel model:
`x <= 0 || x >= 1`. -/
def indel_out_of_range (x : double) : Bool := x.le 0 || x.ge 1

/-- The body of the option switch of `dmsample.c` (lines 119-250) for one
value `c` returned by `getopt_long` with its argument `optarg`. -/
def dmsample_option (w : World) (o : DmsOptions) (c : Char) (optarg : String) :
    Step DmsOptions :=
  match c with
  | 'R' =>
    match w.get_arg_dbl_bounds optarg 0 1 with
    | .error msg => Step.die msg
    | .ok v => Step.ok { o with rho := v }
  | 'b' => Step.ok { o with bsamples := w.atoi optarg }
  | 's' => Step.ok { o with nsamples := w.atoi optarg }
  | 'r' =>
    match w.get_arg_int_bounds optarg 0 w.INFTY with
    | .error msg => Step.die msg
    | .ok v => Step.ok { o with refidx := v }
  | 'N' => Step.ok { o with seqname := some optarg }
  | 'P' => Step.ok { o with idpref := some optarg }
  | 'I' =>
    match w.get_arg_list_dbl optarg with
    | .error msg => Step.die msg
    | .ok tmpl =>
      if tmpl.length ≠ 4 ∧ tmpl.length ≠ 8 then
        Step.die "ERROR: bad argument to --indel-model.\n"
      else
        let alpha_n := lst_get_dbl tmpl 0
        let beta_n := lst_get_dbl tmpl 1
        let tau_n := lst_get_dbl tmpl 2
        let epsilon_n := lst_get_dbl tmpl 3
        let alpha_c := if tmpl.length = 6 then lst_get_dbl tmpl 4 else alpha_n
        let beta_c := if tmpl.length = 6 then lst_get_dbl tmpl 5 else beta_n
        let tau_c := if tmpl.length = 6 then lst_get_dbl tmpl 6 else tau_n
        let epsilon_c := if tmpl.length = 6 then lst_get_dbl tmpl 7 else epsilon_n
        if indel_out_of_range alpha_c || indel_out_of_range beta_c ||
            indel_out_of_range tau_c || indel_out_of_range epsilon_c ||
            indel_out_of_range alpha_n || indel_out_of_range beta_n ||
            indel_out_of_range tau_n || indel_out_of_range epsilon_n then
          Step.die "ERROR: bad argument to --indel-model.\n"
        else
          Step.ok { o with
            alpha_n := alpha_n, beta_n := beta_n, tau_n := tau_n, epsilon_n := epsilon_n,
            alpha_c := alpha_c, beta_c := beta_c, tau_c := tau_c, epsilon_c := epsilon_c,
            do_ih := 1 }
  | 'l' => with_fopen w optarg "w" (Step.ok { o with log := some optarg })
  | 'v' =>
    match w.get_arg_int_bounds optarg 0 w.INFTY with
    | .error msg => Step.die msg
    | .ok v => Step.ok { o with sample_interval := v }
  | 'g' =>
    with_fopen w optarg "r"
      ([Event.print_stderr ("Reading reference features from " ++ optarg ++ "...\n"),
        Event.gff_read_set],
       .ok { o with ref_gff_f := some optarg, reference := true })
  | 'u' => Step.ok { o with ref_as_prior := true }
  | 'p' => Step.ok { o with force_priors := true }
  | 'D' => with_fopen w optarg "w" (Step.ok { o with hash_f := some optarg })
  | 'd' =>
    with_fopen w optarg "r" (Step.ok { o with precomputed_hash := true, hash_f := some optarg })
  | 'c' => Step.ok { o with cache_fname := snprintf w.STR_MED_LEN optarg }
  | 'i' => Step.ok { o with cache_int := w.atoi optarg }
  | 'q' => Step.ok { o with quiet := true }
  | 't' => Step.ok { o with nthreads := w.atoi optarg }
  | 'm' => Step.ok { o with hash_debug := true }
  | 'T' =>
    with_fopen w optarg "r" (Step.ok { o with tmp_lst_f := some optarg, precomputed_hash := true })
  | 'C' => Step.ok { o with revcomp := true }
  | 'X' => Step.ok { o with do_zeroed := true }
  | 'x' =>
    with_fopen w optarg "r" (Step.ok { o with cond_spec_f := some optarg, do_zeroed := true })
  | 'F' => Step.ok { o with xi_mode := false }
  | 'S' => Step.ok { o with mmod_type := w.tm_get_subst_mod_type optarg }
  | 'B' => Step.ok { o with scale_by_branch := true }
  | 'j' => Step.ok { o with ncm_idl_mode := 1 }
  | 'f' =>
    match w.get_arg_list_dbl optarg with
    | .error msg => Step.die msg
    | .ok tmpl =>
      if tmpl.length ≠ 1 ∧ tmpl.length ≠ 4 ∧ tmpl.length ≠ 5 then
        Step.die "ERROR: bad argument to --fix-params.\n"
      else if tmpl.length = 1 then
        Step.ok { o with fix_params := true }
      else
        Step.ok { o with
          fix_params := true,
          mu := lst_get_dbl tmpl 0, nu := lst_get_dbl tmpl 1,
          phi := lst_get_dbl tmpl 2, zeta := lst_get_dbl tmpl 3,
          xi := if tmpl.length = 5 then lst_get_dbl tmpl 4 else o.xi }
  | 'h' => ([Event.print_stdout w.HELP], .error (.exited 0))
  | '?' => Step.die "Bad argument.  Try 'dmsample -h'.\n"
  | _ => Step.ok o

/-- The option loop of `dmsample.c` (lines 116-251) over the successive
results of `getopt_long`: it stops at the first pass that ends the
process. -/
def dmsample_getopt_loop (w : World) : List (Char × String) → DmsOptions → Step DmsOptions
  | [], o => Step.ok o
  | (c, optarg) :: rest, o =>
    match dmsample_option w o c optarg with
    | (evs, .error e) => (evs, .error e)
    | (evs, .ok o') =>
      let r := dmsample_getopt_loop w rest o'
      (evs ++ r.1, r.2)

/-! ## `dmsample.c`: from the merged table to the end of the run -/

/-- The variables of `dmsample.c` after lines 399-500: the consolidated
table, `nsamples`, `csamples` (`none` while it has not been assigned) and
`cache_files` (`none` for `NULL`). -/
structure Merged where
  path_counts : CountTable
  nsamples : Int
  csamples : Option Int
  cache_files : Option (List CacheFile)
deriving DecidableEq, Repr

/-- The inner loop of lines 556-564 of `dmsample.c`: unless `hash_debug` is
set, each cache file is removed with `system("rm <name>")`. -/
def dmsample_rm_loop (w : World) (hash_debug : Bool) (cache_files : List CacheFile) :
    Nat → Nat → List Event → List Event
  | 0, _, evs => evs
  | fuel + 1, i, evs =>
    if h : i < cache_files.length then
      dmsample_rm_loop w hash_debug cache_files fuel (i + 1)
        (if hash_debug = false then
          evs ++ [Event.system (snprintf w.STR_MED_LEN ("rm " ++ cache_files[i].name))]
         else evs)
    else evs

/-- Lines 548-572 of `dmsample.c`: the temporary files are cleaned up after a
sampling run, then `main` returns 0. -/
def dmsample_cleanup (w : World) (o : DmsOptions) (m : Merged) : Run :=
  let rm :=
    if o.precomputed_hash = false then
      match m.cache_files with
      | some files => dmsample_rm_loop w o.hash_debug files files.length 0 []
      | none => []
    else []
  ⟨rm ++ [Event.print_stderr "Done.\n"], .returned 0⟩

/-- The loop of lines 506-510 of `dmsample.c` releasing the rows of the prior
table. -/
def dmsample_priors_free_loop (xi_mode : Bool) : Nat → Nat → List Event → List Event
  | 0, _, evs => evs
  | fuel + 1, i, evs =>
    if i < 5 then
      if xi_mode = false ∧ i = 4 then dmsample_priors_free_loop xi_mode fuel (i + 1) evs
      else dmsample_priors_free_loop xi_mode fuel (i + 1) (evs ++ [Event.priors_row_free i])
    else evs

/-- Lines 504-546 of `dmsample.c`: the prior table is released, then either
the merged table is dumped or the feature set is built and printed. -/
def dmsample_output (w : World) (o : DmsOptions) (m : Merged) : Run :=
  let free :=
    if o.precomputed_hash = false then
      dmsample_priors_free_loop o.xi_mode 5 0 [] ++ [Event.priors_free]
    else []
  if o.hash_f ≠ none ∧ o.precomputed_hash = false then
    Run.after (free ++ [Event.dms_write_hash m.path_counts (2 * w.dm_k + 2) m.nsamples])
      (dmsample_cleanup w o m)
  else
    let e := dmsample_emit w.feat m.path_counts m.nsamples o.sample_interval o.refidx
    Run.after
      (free ++ [Event.print_stderr "Formatting output as GFF...\n", Event.gff_new_set] ++ e.2 ++
        [Event.print_stderr "Writing GFF to stdout...\n", Event.gff_print_set e.1])
      (dmsample_cleanup w o m)

/-- Lines 399-402 of `dmsample.c`: when a run is recovered from temporary
files (`precomputed_hash == TRUE && tmp_lst_f != NULL`), the cache-file list
is read.  The second component is the variable `cache_files` afterwards. -/
def dmsample_read_tmp (w : World) (o : DmsOptions) : List Event × Option (List CacheFile) :=
  match o.precomputed_hash, o.tmp_lst_f with
  | true, some fname => ([Event.dms_read_tmp_from_file], w.dms_read_tmp_from_file fname)
  | _, _ => ([], none)

/-- Lines 411-484 of `dmsample.c`, the sampling branch up to the merge: the
tuple-wise emission table is allocated, computed and adjusted, the sampler
is called, the table is released. -/
def dmsample_sampling_events (w : World) (dmpmsa : DMotifPmsaStruct) : List Event :=
  [Event.print_stderr ("Computing emission probabilities for " ++ toString dmpmsa.ntuples ++
      " distinct tuples...\n"),
   Event.tuple_scores_alloc w.nstates dmpmsa.ntuples,
   Event.dms_compute_emissions,
   Event.print_stderr "Adjusting emissions for missing data...\n",
   Event.dm_handle_missing_data,
   Event.print_stderr "Sampling state paths...\n",
   Event.dms_sample_paths_pthr,
   Event.tuple_scores_free,
   Event.print_stderr "Reloading cached data from disk...\n"]

/-- Lines 399-500 of `dmsample.c`: after the cache-file list, the count table
is obtained by sampling and merging, by reading one hash dump, or by merging
the listed cache files.  The second test of the source, `precomputed_hash &&
cache_files == NULL`, is reached only with `precomputed_hash` set, so it is
the test of `cache_files` against `NULL`.  The sampling branch calls the
merger on `&csamples` with the reset flag 1 (lines 485-487), the recover
branch on `&nsamples`, which holds the configured sample count, with the
reset flag 0 (lines 497-499). -/
def dmsample_acquire (w : World) (o : DmsOptions) (dmpmsa : DMotifPmsaStruct) :
    List Event × Merged :=
  let init_size : Int := max (10 * dmpmsa.nblocks) 10000
  let nbases : Int := 2 * w.dm_k + 2
  let tmp := dmsample_read_tmp w o
  let cache_files := tmp.2
  if o.precomputed_hash = false then
    let files := w.dms_sample_paths_pthr
    let r := dms_uncache files w.csamples0 1
    (tmp.1 ++ dmsample_sampling_events w dmpmsa ++
      [Event.dms_uncache (files.map CacheFile.name) init_size nbases 1],
     ⟨r.1, o.nsamples, some r.2, some files⟩)
  else
    match cache_files with
    | none =>
      let r := w.dms_read_hash o.hash_f
      (tmp.1 ++ [Event.print_stderr "Reading sampling data from disk...\n"] ++
        [Event.dms_read_hash nbases],
       ⟨r.1, r.2, none, none⟩)
    | some files =>
      let r := dms_uncache files o.nsamples 0
      (tmp.1 ++ [Event.print_stderr "Reloading cached data from disk...\n"] ++
        [Event.dms_uncache (files.map CacheFile.name) init_size nbases 0],
       ⟨r.1, r.2, none, some files⟩)

/-- Lines 366-397 of `dmsample.c`: the motif model is built, its substitution
models prepared, the thread pool created. -/
def dmsample_init_events (o : DmsOptions) : List Event :=
  [Event.dm_new] ++
  (if o.quiet = false ∧ o.precomputed_hash = false then
    [Event.print_stderr "Initializing P-matrices in phylogenetic models...\n"]
   else []) ++
  [Event.dm_set_subst_mods, Event.thr_pool_init o.nthreads]

/-- Lines 366-572 of `dmsample.c`: the motif model is built and prepared, the
thread pool created, and the run goes through acquisition, output and
cleanup. -/
def dmsample_pipeline (w : World) (o : DmsOptions) (dmpmsa : DMotifPmsaStruct) : Run :=
  Run.after (dmsample_init_events o ++ (dmsample_acquire w o dmpmsa).1)
    (dmsample_output w o (dmsample_acquire w o dmpmsa).2)

/-! ## `dmsample.c`: from the arguments to the reference check -/

/-- The loop of lines 358-362 of `dmsample.c` (and 154-159 of
`dmsProcessParallel.c`):
`for (i = 0, found = FALSE; !found && i < nnodes; i++)
   if (!strcmp(nodes[i]->name, names[refidx-1])) found = TRUE;`.
The result is `none` when the body reads `names` outside its bounds. -/
def ref_loop (nodes : List TreeNode) (names : List String) (refidx : Int) :
    Nat → Nat → Bool → Option Bool
  | 0, _, found => some found
  | fuel + 1, i, found =>
    if h : found = false ∧ i < nodes.length then
      match names[(refidx - 1).toNat]? with
      | none => none
      | some refname =>
        ref_loop nodes names refidx fuel (i + 1)
          (if nodes[i].name = refname then true else found)
    else some found

/-- Lines 356-364 of `dmsample.c`: with `refidx > 0` the reference sequence
must name a node of the tree; then the run goes on with the pipeline. -/
def dmsample_refcheck (w : World) (o : DmsOptions) (nodes : List TreeNode)
    (dmpmsa : DMotifPmsaStruct) : Run :=
  if o.refidx > 0 then
    match ref_loop nodes dmpmsa.msa0.names o.refidx nodes.length 0 false with
    | none => ⟨[], .undefined⟩
    | some found =>
      if found = false then ⟨[], .died "ERROR: no match for reference sequence in tree.\n"⟩
      else dmsample_pipeline w o dmpmsa
  else dmsample_pipeline w o dmpmsa

/-- The warning of lines 345-348 of `dmsample.c` (and 142-145 of
`dmsProcessParallel.c`): the pruned names, separated by `", "`. -/
def pruned_warning (pruned_names : List String) : String :=
  "WARNING: pruned away leaves of tree with no match in alignment (" ++
    String.intercalate ", " pruned_names ++ ").\n"

/-- Lines 344-349 of `dmsample.c` (and 141-146 of `dmsProcessParallel.c`): the
warning is written when some leaf was pruned. -/
def pruned_warning_events (pruned_names : List String) : List Event :=
  if pruned_names.length > 0 then [Event.print_stderr (pruned_warning pruned_names)] else []

/-- Lines 338-354 of `dmsample.c`: the tree is pruned to the leaves present
in block 0; the run dies when the number of pruned names is
`(old_nnodes + 1) / 2`, warns when some leaf was pruned, and goes on with the
reference check. -/
def dmsample_prune (w : World) (o : DmsOptions) (source_mod : TreeModel)
    (dmpmsa : DMotifPmsaStruct) : Run :=
  let old_nnodes : Int := source_mod.nodes.length
  let pruned := w.tm_prune source_mod dmpmsa.msa0
  let pruned_names := pruned.1
  if (pruned_names.length : Int) = Int.tdiv (old_nnodes + 1) 2 then
    ⟨[Event.tm_prune],
      .died "ERROR: no match for leaves of tree in alignment (leaf names must match alignment names).\n"⟩
  else
    Run.after
      ([Event.tm_prune] ++
        pruned_warning_events pruned_names ++
        [Event.tr_name_ancestors])
      (dmsample_refcheck w o (w.tr_name_ancestors pruned.2) dmpmsa)

/-- The loop of lines 320-325 of `dmsample.c` allocating and zeroing the rows
of the prior table. -/
def dmsample_priors_init_loop (xi_mode : Bool) :
    Nat → Nat → List (Option (List Int)) × List Event → List (Option (List Int)) × List Event
  | 0, _, st => st
  | fuel + 1, i, st =>
    if i < 5 then
      if xi_mode = false ∧ i = 4 then dmsample_priors_init_loop xi_mode fuel (i + 1) st
      else
        dmsample_priors_init_loop xi_mode fuel (i + 1)
          (st.1.set i (some [0, 0]), st.2 ++ [Event.priors_row_init i])
    else st

/-- Lines 315-327 of `dmsample.c`: unless a precomputed hash is used, the
prior table is allocated, zeroed and read. -/
def dmsample_priors (o : DmsOptions) (prior_fname : String) : List Event :=
  if o.precomputed_hash = false then
    let rows := if o.xi_mode = false then 4 else 5
    let st := dmsample_priors_init_loop o.xi_mode 5 0 (List.replicate rows none, [])
    [Event.print_stderr ("Reading transition parameter priors from " ++ prior_fname ++ "...\n"),
     Event.priors_alloc rows] ++ st.2 ++ [Event.dms_read_priors st.1 o.xi_mode]
  else []

/-- Lines 290-336 of `dmsample.c`: the motif model and the alignments are
read, then the priors; the run goes on with the pruning step. -/
def dmsample_read_data (w : World) (o : DmsOptions) (source_mod : TreeModel)
    (msa_fname motif_fname prior_fname : String) : Run :=
  match w.mot_read motif_fname with
  | .error msg =>
    ⟨[Event.print_stderr ("Reading motif model from " ++ motif_fname ++ "...\n")], .died msg⟩
  | .ok _ =>
    match w.dms_read_alignments msa_fname with
    | .error msg =>
      ⟨[Event.print_stderr ("Reading motif model from " ++ motif_fname ++ "...\n"),
        Event.mot_read,
        Event.print_stderr ("Reading alignments from " ++ msa_fname ++ "...\n")], .died msg⟩
    | .ok dmpmsa =>
      Run.after
        ([Event.print_stderr ("Reading motif model from " ++ motif_fname ++ "...\n"),
          Event.mot_read,
          Event.print_stderr ("Reading alignments from " ++ msa_fname ++ "...\n"),
          Event.dms_read_alignments] ++ dmsample_priors o prior_fname)
        (dmsample_prune w o source_mod dmpmsa)

/-- Lines 287-288 of `dmsample.c` (and 132-133 of `dmsProcessParallel.c`): a
non-reversible substitution model is warned about. -/
def reversibility_warning (source_mod : TreeModel) : List Event :=
  if source_mod.reversible = false then
    [Event.print_stderr
      "WARNING: p-value computation assumes reversibility and your model is non-reversible.\n"]
  else []

/-- Lines 277-288 of `dmsample.c`: the tree model is read and checked: rate
variation and higher-order models are fatal, a non-reversible model is
warned about. -/
def dmsample_read_model (w : World) (o : DmsOptions)
    (msa_fname mod_fname motif_fname prior_fname : String) : Run :=
  match w.tm_new_from_file mod_fname with
  | .error msg =>
    ⟨[Event.print_stderr ("Reading tree model from " ++ mod_fname ++ "...\n")], .died msg⟩
  | .ok source_mod =>
    if source_mod.nratecats > 1 then
      ⟨[Event.print_stderr ("Reading tree model from " ++ mod_fname ++ "...\n"),
        Event.tm_new_from_file], .died "ERROR: rate variation not currently supported.\n"⟩
    else if source_mod.order > 0 then
      ⟨[Event.print_stderr ("Reading tree model from " ++ mod_fname ++ "...\n"),
        Event.tm_new_from_file],
        .died "ERROR: only single nucleotide models are currently supported.\n"⟩
    else
      Run.after
        ([Event.print_stderr ("Reading tree model from " ++ mod_fname ++ "...\n"),
          Event.tm_new_from_file] ++
          reversibility_warning source_mod)
        (dmsample_read_data w o source_mod msa_fname motif_fname prior_fname)

/-- The call `fopen_fname(fname, mode)` followed by the rest of the run. -/
def Run.fopen (w : World) (fname mode : String) (k : Run) : Run :=
  match w.fopen_fname fname mode with
  | .error msg => ⟨[], .died msg⟩
  | .ok _ => Run.after [Event.fopen fname mode] k

/-- Lines 256-259 of `dmsample.c`: a reference feature file that is neither
logged against nor used as a prior is warned about. -/
def dmsample_reference_warning (o : DmsOptions) : List Event :=
  if o.ref_gff_f ≠ none ∧ o.log = none ∧ o.ref_as_prior = false then
    [Event.print_stderr "WARNING: Useless application of --reference-gff. Try 'dmsample -h'\n"]
  else []

/-- Lines 267-268 of `dmsample.c`: `--force-priors` implies `--ref-as-prior`. -/
def dmsample_force_priors (o : DmsOptions) : DmsOptions :=
  if o.force_priors = true then { o with ref_as_prior := true } else o

/-- Lines 253-275 of `dmsample.c`: the argument count and the option
combinations are checked and the four input files opened. -/
def dmsample_check_args (w : World) (o : DmsOptions) (args : List String) : Run :=
  match args with
  | [msa_fname, mod_fname, motif_fname, prior_fname] =>
    if o.ref_as_prior = true ∧ o.ref_gff_f = none then
      ⟨dmsample_reference_warning o,
        .died "ERROR: --ref-as-prior requires --reference-gff. Try 'dmsample -h'\n"⟩
    else if o.force_priors = true ∧ o.ref_gff_f = none then
      ⟨dmsample_reference_warning o,
        .died "ERROR: --force-priors requires --reference-gff. Try 'dmsample -h'\n"⟩
    else
      Run.after (dmsample_reference_warning o)
        (Run.fopen w msa_fname "r" (Run.fopen w mod_fname "r" (Run.fopen w motif_fname "r"
          (Run.fopen w prior_fname "r"
            (dmsample_read_model w (dmsample_force_priors o) msa_fname mod_fname motif_fname
              prior_fname)))))
  | _ => ⟨[], .died "Four arguments required.  Try 'dmsample -h'.\n"⟩

/-- The driver `main` of `dmsample.c`, run on the successive results `opts` of
`getopt_long` and on the positional arguments `args` that remain after the
options (`argv[optind]` to `argv[argc-1]`). -/
def dmsample_main (w : World) (opts : List (Char × String)) (args : List String) : Run :=
  match dmsample_getopt_loop w opts (dmsample_defaults w) with
  | (evs, .error e) => ⟨evs, e⟩
  | (evs, .ok o) => Run.after evs (dmsample_check_args w o args)

/-! ## `dmsProcessParallel.c` -/

/-- The option variables of `dmsProcessParallel.c` (lines 60-66). -/
structure DppOptions where
  refseq_f : Option String
  dump_f : Option String
  refidx : Int
  sample_interval : Int
  do_ih : Int
  quiet : Bool
  seqname : Option String
  idpref : Option String

/-- The defaults of lines 60-64 of `dmsProcessParallel.c`. -/
def dmsProcessParallel_defaults : DppOptions where
  refseq_f := none
  dump_f := none
  refidx := 1
  sample_interval := 1
  do_ih := 0
  quiet := false
  seqname := none
  idpref := none

/-- The body of the option switch of `dmsProcessParallel.c` (lines 70-94). -/
def dmsProcessParallel_option (w : World) (o : DppOptions) (c : Char) (optarg : String) :
    Step DppOptions :=
  match c with
  | 'r' =>
    match w.get_arg_int_bounds optarg 0 w.INFTY with
    | .error msg => Step.die msg
    | .ok v => Step.ok { o with refidx := v }
  | 'M' => with_fopen w optarg "r" (Step.ok { o with refseq_f := some optarg })
  | 'N' => Step.ok { o with seqname := some optarg }
  | 'P' => Step.ok { o with idpref := some optarg }
  | 'D' => with_fopen w optarg "w" (Step.ok { o with dump_f := some optarg })
  | 'q' => Step.ok { o with quiet := true }
  | 'h' => ([Event.print_stdout w.HELP], .error (.exited 0))
  | '?' => Step.die "Bad argument.  Try 'dmsample -h'.\n"
  | _ => Step.ok o

/-- The option loop of `dmsProcessParallel.c` (lines 68-95). -/
def dmsProcessParallel_getopt_loop (w : World) :
    List (Char × String) → DppOptions → Step DppOptions
  | [], o => Step.ok o
  | (c, optarg) :: rest, o =>
    match dmsProcessParallel_option w o c optarg with
    | (evs, .error e) => (evs, .error e)
    | (evs, .ok o') =>
      let r := dmsProcessParallel_getopt_loop w rest o'
      (evs ++ r.1, r.2)

/-- Lines 170-172 of `dmsProcessParallel.c`: `nsamples = nsamples_this = 0;
path_counts = dms_uncache(hash_files, 10000, 2k+2, &nsamples, 0)`.  The
result is the pair of the variables `path_counts` and `nsamples` after the
call. -/
def dmsProcessParallel_merge (hash_files : List CacheFile) : CountTable × Int :=
  let nsamples : Int := 0
  dms_uncache hash_files nsamples 0

/-- Lines 163-205 of `dmsProcessParallel.c`: the motif model is built, the
hash files are merged, and the merged table is either dumped (the run then
returns at once) or emitted as a feature set. -/
def dmsProcessParallel_pipeline (w : World) (o : DppOptions) (hash_files : List CacheFile) :
    Run :=
  let nbases : Int := 2 * w.dm_k + 2
  let r := dmsProcessParallel_merge hash_files
  let path_counts := r.1
  let nsamples := r.2
  let merge :=
    [Event.dm_new, Event.dms_uncache (hash_files.map CacheFile.name) 10000 nbases 0]
  match o.dump_f with
  | some _ => ⟨merge ++ [Event.dms_write_hash path_counts nbases nsamples], .returned 0⟩
  | none =>
    let e := dmsProcessParallel_emit w.feat path_counts nsamples o.sample_interval o.refidx
    ⟨merge ++ [Event.print_stderr "Formatting output as GFF...\n", Event.gff_new_set] ++ e.2 ++
      [Event.print_stderr "Writing GFF to stdout...\n", Event.gff_print_set e.1,
       Event.print_stderr "Done.\n"], .returned 0⟩

/-- Lines 152-161 of `dmsProcessParallel.c`: the reference check, the same as
in `dmsample.c`. -/
def dmsProcessParallel_refcheck (w : World) (o : DppOptions) (nodes : List TreeNode)
    (dmpmsa : DMotifPmsaStruct) (hash_files : List CacheFile) : Run :=
  if o.refidx > 0 then
    match ref_loop nodes dmpmsa.msa0.names o.refidx nodes.length 0 false with
    | none => ⟨[], .undefined⟩
    | some found =>
      if found = false then ⟨[], .died "ERROR: no match for reference sequence in tree.\n"⟩
      else dmsProcessParallel_pipeline w o hash_files
  else dmsProcessParallel_pipeline w o hash_files

/-- Lines 135-150 of `dmsProcessParallel.c`: the pruning step, the same as in
`dmsample.c`. -/
def dmsProcessParallel_prune (w : World) (o : DppOptions) (source_mod : TreeModel)
    (dmpmsa : DMotifPmsaStruct) (hash_files : List CacheFile) : Run :=
  let old_nnodes : Int := source_mod.nodes.length
  let pruned := w.tm_prune source_mod dmpmsa.msa0
  let pruned_names := pruned.1
  if (pruned_names.length : Int) = Int.tdiv (old_nnodes + 1) 2 then
    ⟨[Event.tm_prune],
      .died "ERROR: no match for leaves of tree in alignment (leaf names must match alignment names).\n"⟩
  else
    Run.after
      ([Event.tm_prune] ++
        pruned_warning_events pruned_names ++
        [Event.tr_name_ancestors])
      (dmsProcessParallel_refcheck w o (w.tr_name_ancestors pruned.2) dmpmsa hash_files)

/-- Lines 126-133 of `dmsProcessParallel.c`: the checks of the tree model. -/
def dmsProcessParallel_check_model (w : World) (o : DppOptions) (source_mod : TreeModel)
    (dmpmsa : DMotifPmsaStruct) (hash_files : List CacheFile) : Run :=
  if source_mod.nratecats > 1 then
    ⟨[], .died "ERROR: rate variation not currently supported.\n"⟩
  else if source_mod.order > 0 then
    ⟨[], .died "ERROR: only single nucleotide models are currently supported.\n"⟩
  else
    Run.after
      (reversibility_warning source_mod)
      (dmsProcessParallel_prune w o source_mod dmpmsa hash_files)

/-- Lines 122-133 of `dmsProcessParallel.c`: the motif model is read, then the
tree model is checked. -/
def dmsProcessParallel_read_motif (w : World) (o : DppOptions) (source_mod : TreeModel)
    (dmpmsa : DMotifPmsaStruct) (hash_files : List CacheFile) (motif_fname : String) : Run :=
  Run.after [Event.print_stderr ("Reading motif model from " ++ motif_fname ++ "...\n")]
    (Run.fopen w motif_fname "r"
      (match w.mot_read motif_fname with
       | .error msg => ⟨[], .died msg⟩
       | .ok _ =>
         Run.after [Event.mot_read]
           (dmsProcessParallel_check_model w o source_mod dmpmsa hash_files)))

/-- Lines 118-120 of `dmsProcessParallel.c`: the tree model is read. -/
def dmsProcessParallel_read_model (w : World) (o : DppOptions) (dmpmsa : DMotifPmsaStruct)
    (hash_files : List CacheFile) (mod_fname motif_fname : String) : Run :=
  Run.after [Event.print_stderr ("Reading tree model from " ++ mod_fname ++ "...\n")]
    (Run.fopen w mod_fname "r"
      (match w.tm_new_from_file mod_fname with
       | .error msg => ⟨[], .died msg⟩
       | .ok source_mod =>
         Run.after [Event.tm_new_from_file]
           (dmsProcessParallel_read_motif w o source_mod dmpmsa hash_files motif_fname)))

/-- Lines 97-116 of `dmsProcessParallel.c`: the argument count is checked, the
list of hash files split, and the alignments read. -/
def dmsProcessParallel_check_args (w : World) (o : DppOptions) (args : List String) : Run :=
  match args with
  | [hash_arg, msa_fname, mod_fname, motif_fname] =>
    Run.after [Event.print_stderr ("Reading alignments from " ++ msa_fname ++ "...\n")]
      (Run.fopen w msa_fname "r"
        (match w.dms_read_alignments msa_fname with
         | .error msg => ⟨[], .died msg⟩
         | .ok dmpmsa =>
           Run.after [Event.dms_read_alignments]
             (dmsProcessParallel_read_model w o dmpmsa (w.hash_files hash_arg) mod_fname
               motif_fname)))
  | _ => ⟨[], .died "Four arguments required.  Try 'dmsProcessParallel -h'.\n"⟩

/-- The driver `main` of `dmsProcessParallel.c`, run on the successive results
`opts` of `getopt_long` and on the positional arguments `args`. -/
def dmsProcessParallel_main (w : World) (opts : List (Char × String)) (args : List String) :
    Run :=
  match dmsProcessParallel_getopt_loop w opts dmsProcessParallel_defaults with
  | (evs, .error e) => ⟨evs, e⟩
  | (evs, .ok o) => Run.after evs (dmsProcessParallel_check_args w o args)

/-! ## Classification of events -/

/-- The sampler call. -/
def Event.isSampler : Event → Bool
  | .dms_sample_paths_pthr => true
  | _ => false

/-- The merge step (`dms_uncache`) or the read step (`dms_read_hash`). -/
def Event.isMergeOrRead : Event → Bool
  | .dms_uncache _ _ _ _ => true
  | .dms_read_hash _ => true
  | _ => false

/-- The emission computation (`dms_compute_emissions`,
`dm_handle_missing_data`). -/
def Event.isEmissions : Event → Bool
  | .dms_compute_emissions => true
  | .dm_handle_missing_data => true
  | _ => false

/-- The feature emitter: the new feature set, a call of
`dms_motif_as_gff_feat`, the printing of the set. -/
def Event.isEmit : Event → Bool
  | .gff_new_set => true
  | .dms_motif_as_gff_feat _ _ _ _ _ => true
  | .gff_print_set _ => true
  | _ => false

/-- A write to standard output. -/
def Event.isStdout : Event → Bool
  | .print_stdout _ => true
  | .gff_print_set _ => true
  | _ => false

/-- An event of the part of a run that precedes the pipeline: opening and
reading the inputs, the prior table, pruning, and messages. -/
def Event.isSetup : Event → Bool
  | .fopen _ _ => true
  | .print_stdout _ => true
  | .print_stderr _ => true
  | .gff_read_set => true
  | .tm_new_from_file => true
  | .mot_read => true
  | .dms_read_alignments => true
  | .priors_alloc _ => true
  | .priors_row_init _ => true
  | .dms_read_priors _ _ => true
  | .tm_prune => true
  | .tr_name_ancestors => true
  | _ => false

/-- An event of the option and argument handling: opening a file, reading
the reference features, a message. -/
def Event.isArgs : Event → Bool
  | .fopen _ _ => true
  | .print_stdout _ => true
  | .print_stderr _ => true
  | .gff_read_set => true
  | _ => false

/-- An event of the part of a run that precedes the pruning step. -/
def Event.isInput : Event → Bool
  | .fopen _ _ => true
  | .print_stdout _ => true
  | .print_stderr _ => true
  | .gff_read_set => true
  | .tm_new_from_file => true
  | .mot_read => true
  | .dms_read_alignments => true
  | .priors_alloc _ => true
  | .priors_row_init _ => true
  | .dms_read_priors _ _ => true
  | _ => false

/-- An event of the part of a run that follows the merge or read step:
releasing the prior table, dumping or emitting, cleaning up. -/
def Event.isOutput : Event → Bool
  | .print_stderr _ => true
  | .priors_row_free _ => true
  | .priors_free => true
  | .dms_write_hash _ _ _ => true
  | .gff_new_set => true
  | .dms_motif_as_gff_feat _ _ _ _ _ => true
  | .gff_print_set _ => true
  | .system _ => true
  | _ => false

/-- A call of `dms_motif_as_gff_feat`. -/
def Event.isFeatCall : Event → Bool
  | .dms_motif_as_gff_feat _ _ _ _ _ => true
  | _ => false

/-- The part of a trace from the first event satisfying `p` on. -/
def from_first (p : Event → Bool) (trace : List Event) : List Event :=
  trace.dropWhile (fun e => !p e)

/-- The part of a trace before the first event satisfying `p`. -/
def before_first (p : Event → Bool) (trace : List Event) : List Event :=
  trace.takeWhile (fun e => !p e)

/-- The file an event opens for writing, if it does. -/
def Event.openedForWriting : Event → Option String
  | .fopen fname mode => if mode = "w" then some fname else none
  | _ => none

/-- The names of the files opened for writing in a trace, in order. -/
def opened_for_writing (trace : List Event) : List String :=
  trace.filterMap Event.openedForWriting

/-! ## Auxiliary definitions for the statements -/

/-- Addition of optional count vectors, `none` standing for "no entry". -/
def oplus : Option CountVector → Option CountVector → Option CountVector
  | none, b => b
  | a, none => a
  | some a, some b => some (vec_add a b)

/-- The element-wise sum of all count vectors recorded under the key `k` in a
list of entries, `none` when there is none. -/
def key_sum (es : List (PathKey × CountVector)) (k : PathKey) : Option CountVector :=
  (es.map (fun e => if e.1 = k then some e.2 else none)).foldr oplus none

/-- The per-entry step of the merger as a function of the table and the
entry. -/
def merge_step (t : CountTable) (e : PathKey × CountVector) : CountTable :=
  hsh_merge_entry t e.1 e.2

/-- The sum of the declared sample counts of a list of cache files. -/
def declared_total (files : List CacheFile) : Int := (files.map CacheFile.nsamples).sum

/-- The cache files written for a partition of recorded samples: one file per
part, under the part's name. -/
def spill_all (parts : List (String × List (PathKey × CountVector))) : List CacheFile :=
  parts.map (fun p => dms_spill p.1 p.2)

/-- All recorded samples of a partition. -/
def all_samples (parts : List (String × List (PathKey × CountVector))) :
    List (PathKey × CountVector) :=
  parts.flatMap (fun p => p.2)

/-- Cache file A of the merge scenario: key [1,2,1,2] with count 3. -/
def scenario_A : CacheFile := ⟨"A", [([1, 2, 1, 2], ⟨3, []⟩)], 3⟩

/-- Cache file B of the merge scenario: key [1,2,1,2] with count 5 and key
[2,2,1,1] with count 1. -/
def scenario_B : CacheFile := ⟨"B", [([1, 2, 1, 2], ⟨5, []⟩), ([2, 2, 1, 1], ⟨1, []⟩)], 6⟩

/-- A partition of three recorded samples into two cache files. -/
def scenario_parts : List (String × List (PathKey × CountVector)) :=
  [("w0_1", [([1, 2, 1, 2], ⟨1, []⟩), ([2, 2, 1, 1], ⟨1, []⟩)]), ("w1_1", [([1, 2, 1, 2], ⟨1, []⟩)])]

/-- Another partition of the same three samples, into three cache files. -/
def scenario_parts' : List (String × List (PathKey × CountVector)) :=
  [("a", [([1, 2, 1, 2], ⟨1, []⟩)]), ("b", [([1, 2, 1, 2], ⟨1, []⟩)]),
   ("c", [([2, 2, 1, 1], ⟨1, []⟩)])]

/-- A feature function that records its arguments in the feature: the total
in `start`, the sample interval in `end`, the reference index in `frame`, the
occurrence count in `score_is_null`. -/
def scenario_feat : FeatFn := fun _ counts nsamples sample_interval refidx =>
  ⟨"chr1", "dmsample", "motif", nsamples, sample_interval, 0, '+', refidx, "",
    match counts with
    | some c => c.occ
    | none => -1⟩

/-- A tree model with five leaves (nine nodes), one rate category, order 0. -/
def scenario_mod : TreeModel :=
  ⟨1, 0, true,
    [⟨"human"⟩, ⟨"mouse"⟩, ⟨"rat"⟩, ⟨"dog"⟩, ⟨"cow"⟩, ⟨""⟩, ⟨""⟩, ⟨""⟩, ⟨""⟩]⟩

/-- An alignment set whose first block holds two of the five species. -/
def scenario_dmpmsa : DMotifPmsaStruct := ⟨⟨["human", "mouse"]⟩, 1, 7, 100⟩

/-- A run environment in which every collaborator returns: the tree model is
`scenario_mod`, pruning removes the three leaves absent from the alignment
and leaves a three-node tree, the sampler returns the cache files A and B,
and a temporary-file list names B and A. -/
def scenario_world : World where
  HELP := "usage: dmsample [OPTIONS] <msa> <mod> <motif> <priors>\n"
  INFTY := 999999999
  time0 := 0
  STR_MED_LEN := 256
  atoi := fun s => s.toInt?.getD 0
  get_arg_dbl_bounds := fun _ _ _ => .ok (.num (1 / 2))
  get_arg_int_bounds := fun s _ _ => .ok (s.toInt?.getD 0)
  get_arg_list_dbl := fun _ => .ok [.num (1 / 2), .num (1 / 2), .num (1 / 2), .num (1 / 2)]
  fopen_fname := fun _ _ => .ok ()
  tm_get_subst_mod_type := fun _ => .F81
  tm_new_from_file := fun _ => .ok scenario_mod
  mot_read := fun _ => .ok ()
  dms_read_alignments := fun _ => .ok scenario_dmpmsa
  tm_prune := fun _ _ => (["rat", "dog", "cow"], [⟨"human"⟩, ⟨"mouse"⟩, ⟨""⟩])
  tr_name_ancestors := fun _ => [⟨"human"⟩, ⟨"mouse"⟩, ⟨"human-mouse"⟩]
  dm_k := 3
  nstates := 4
  dms_read_tmp_from_file := fun _ => some [scenario_B, scenario_A]
  dms_sample_paths_pthr := [scenario_A, scenario_B]
  csamples0 := 32767
  dms_read_hash := fun _ => ([([1, 2, 1, 2], ⟨8, []⟩)], 8)
  hash_files := fun _ => [scenario_B, scenario_A]
  feat := scenario_feat

/-- The four positional arguments of a run of `dmsample`. -/
def scenario_args : List String := ["blocks.ss", "tree.mod", "motif.pssm", "priors.txt"]

/-- The four positional arguments of a run of `dmsProcessParallel`. -/
def scenario_dpp_args : List String := ["B,A", "blocks.ss", "tree.mod", "motif.pssm"]

/-- The option variables of `dmsample` in a run recovered from a list of
temporary files (`--recover-temp tmp.lst`). -/
def scenario_recover : DmsOptions :=
  { dmsample_defaults scenario_world with precomputed_hash := true, tmp_lst_f := some "tmp.lst" }

/-- The scenario with a tree model of four rate categories. -/
def scenario_world_ratevar : World :=
  { scenario_world with tm_new_from_file := fun _ => .ok { scenario_mod with nratecats := 4 } }

/-- The option variables of `dmsample` with `--refidx 1`. -/
def scenario_refidx1 : DmsOptions := { dmsample_defaults scenario_world with refidx := 1 }

/-- The scenario with an alignment whose first sequence, `chimp`, is not a
species of the tree, and with every integer option read as 1. -/
def scenario_world_noref : World :=
  { scenario_world with
    get_arg_int_bounds := fun _ _ _ => .ok 1
    dms_read_alignments := fun _ => .ok ⟨⟨["chimp", "human", "mouse"]⟩, 1, 7, 100⟩ }

/-- The scenario with a non-reversible substitution model. -/
def scenario_world_nonrev : World :=
  { scenario_world with
    tm_new_from_file := fun _ => .ok { scenario_mod with reversible := false } }

/-- A call `system(cmd)`: the only way a driver deletes a file. -/
def Event.isSystem : Event → Bool
  | .system _ => true
  | _ => false

/-- The merge step `dms_uncache`. -/
def Event.isUncache : Event → Bool
  | .dms_uncache _ _ _ _ => true
  | _ => false

/-- The command the cleanup loop of `dmsample.c` runs for a cache file: the
text `snprintf(cache_fname, STR_MED_LEN, "rm %s", name)` leaves in the
buffer. -/
def rm_command (w : World) (f : CacheFile) : Event :=
  Event.system (snprintf w.STR_MED_LEN ("rm " ++ f.name))

/-! ## The feature-record text format -/

/-- The constant `GFF_NCOLS` of `gff.h` (line 76): "total number of
columns". -/
def GFF_NCOLS : Nat := 9

/-- The constant `GFF_MIN_NCOLS` of `gff.h` (line 78): "minimum allowable
number of columns". -/
def GFF_MIN_NCOLS : Nat := 5

/-- The constant `GFF_NULL_FRAME` of `gff.h` (line 90): "use when frame is
null". -/
def GFF_NULL_FRAME : Int := -1

/-- The decimal digit character of a number below ten. -/
def digit_char : Nat → Char
  | 0 => '0' | 1 => '1' | 2 => '2' | 3 => '3' | 4 => '4'
  | 5 => '5' | 6 => '6' | 7 => '7' | 8 => '8' | _ => '9'

/-- The value of a decimal digit character. -/
def char_digit (c : Char) : Option Nat :=
  if c = '0' then some 0 else if c = '1' then some 1 else if c = '2' then some 2
  else if c = '3' then some 3 else if c = '4' then some 4 else if c = '5' then some 5
  else if c = '6' then some 6 else if c = '7' then some 7 else if c = '8' then some 8
  else if c = '9' then some 9 else none

/-- The decimal digits of `n`, least significant first; the first argument
bounds the number of digits. -/
def nat_digits : Nat → Nat → List Nat
  | 0, _ => []
  | fuel + 1, n => if n < 10 then [n] else (n % 10) :: nat_digits fuel (n / 10)

/-- The number a list of decimal digits, least significant first, stands
for. -/
def digits_value : List Nat → Nat
  | [] => 0
  | d :: ds => d + 10 * digits_value ds

/-- The digits a text consists of, `none` when a character is no digit. -/
def chars_digits : List Char → Option (List Nat)
  | [] => some []
  | c :: cs =>
    match char_digit c, chars_digits cs with
    | some d, some ds => some (d :: ds)
    | _, _ => none

/-- The text `%d` writes for a non-negative number. -/
def nat_text (n : Nat) : List Char := ((nat_digits (n + 1) n).reverse).map digit_char

/-- The number a non-empty text of decimal digits stands for. -/
def scan_nat (cs : List Char) : Option Nat :=
  match cs with
  | [] => none
  | _ :: _ => (chars_digits cs).map (fun ds => digits_value ds.reverse)

/-- The text `%d` writes for an `int`. -/
def int_text (z : Int) : List Char :=
  if z < 0 then '-' :: nat_text (-z).toNat else nat_text z.toNat

/-- The `int` a decimal text, with an optional minus sign, stands for. -/
def scan_int (cs : List Char) : Option Int :=
  match cs with
  | '-' :: rest => (scan_nat rest).map (fun (n : Nat) => - (n : Int))
  | _ => (scan_nat cs).map (fun (n : Nat) => (n : Int))

/-- The pieces of a text between the occurrences of a separator. -/
def split_on (sep : Char) : List Char → List (List Char)
  | [] => [[]]
  | c :: cs =>
    if c = sep then [] :: split_on sep cs
    else
      match split_on sep cs with
      | [] => [[c]]
      | x :: xs => (c :: x) :: xs

/-- The pieces of a text joined with a separator between them. -/
def join_with (sep : Char) : List (List Char) → List Char
  | [] => []
  | [x] => x
  | x :: y :: rest => x ++ sep :: join_with sep (y :: rest)

/-- The `k` low decimal digits of `n`, least significant first. -/
def fixed_digits : Nat → Nat → List Nat
  | 0, _ => []
  | k + 1, n => (n % 10) :: fixed_digits k (n / 10)

/-- The text of `q / 10^prec` in fixed notation: the integer part, and with
`prec > 0` the decimal point and `prec` decimals. -/
def score_body (prec q : Nat) : List Char :=
  nat_text (q / 10 ^ prec) ++
    (if prec = 0 then []
     else '.' :: ((fixed_digits prec (q % 10 ^ prec)).reverse).map digit_char)

/-- Modelled from the spec: the text of a floating value (§6: "`score` is a
floating value") in fixed notation with `prec` decimals, as `%.<prec>f`
writes a number: a minus sign for a negative value, then the magnitude
rounded to the nearest multiple of `10^-prec` (a tie away from zero).  The
number of decimals is given neither by the sources nor by the
specification. -/
def score_text (prec : Nat) (x : Rat) : List Char :=
  (if x.num < 0 then ['-'] else []) ++
    score_body prec ((x.num.natAbs * 10 ^ prec * 2 + x.den) / (2 * x.den))

/-- Modelled from the spec: the floating value a text in fixed notation
stands for: an optional minus sign, a non-empty integer part, and optionally
a decimal point followed by decimals. -/
def scan_score (cs : List Char) : Option Rat :=
  let body := if cs.head? = some '-' then cs.tail else cs
  let int_part := body.takeWhile (fun c => decide (c ≠ '.'))
  let rest := body.dropWhile (fun c => decide (c ≠ '.'))
  match scan_nat int_part,
      (match rest with
       | [] => some []
       | _ :: decimals => chars_digits decimals) with
  | some i, some ds =>
    let m : Int := (i : Int) * 10 ^ ds.length + (digits_value ds.reverse : Nat)
    some (mkRat (if cs.head? = some '-' then -m else m) (10 ^ ds.length))
  | _, _ => none

/-- Modelled from the spec: the nine columns of the line of a feature record
(§6): `seqname source feature start end score strand frame attribute`, the
score being the literal `.` when the score-null flag is set and the frame
being `.` when it is `GFF_NULL_FRAME`.  (`gff.c`, which holds `gff_print_set`
and `gff_print_feat`, is not among the sources.) -/
def gff_feat_columns (prec : Nat) (f : GFF_Feature) : List (List Char) :=
  [f.seqname.data, f.source.data, f.feature.data, int_text f.start, int_text f.end_,
   if f.score_is_null ≠ 0 then ['.'] else score_text prec f.score,
   [f.strand],
   if f.frame = GFF_NULL_FRAME then ['.'] else int_text f.frame,
   f.attribute_.data]

/-- Modelled from the spec: `gff_print_feat`, the line of a feature record:
its columns separated by tabs, ended by a newline. -/
def gff_print_feat (prec : Nat) (f : GFF_Feature) : List Char :=
  join_with '\t' (gff_feat_columns prec f) ++ ['\n']

/-- Modelled from the spec: `gff_print_set`, the lines of the records of a
feature set, in order, the scores written with `prec` decimals.  Of the
metadata nothing is written (§6: "modulo metadata fields it chooses to
omit"). -/
def gff_print_set (prec : Nat) (set : List GFF_Feature) : String :=
  String.mk (set.flatMap (gff_print_feat prec))

/-- Modelled from the spec: the score column read back: `.` is the null
score, stored as score 0 with the flag set; any other text is a floating
value. -/
def gff_scan_score (col : List Char) : Option (Rat × Int) :=
  if col = ['.'] then some (0, 1) else (scan_score col).map (fun x => (x, 0))

/-- Modelled from the spec: the strand column read back: "one of `+`, `-`,
`.`". -/
def gff_scan_strand (col : List Char) : Option Char :=
  match col with
  | [c] => if c = '+' ∨ c = '-' ∨ c = '.' then some c else none
  | _ => none

/-- Modelled from the spec: the frame column read back: "`0`, `1`, `2`, or
`.` when not applicable". -/
def gff_scan_frame (col : List Char) : Option Int :=
  if col = ['.'] then some GFF_NULL_FRAME
  else
    match scan_int col with
    | some z => if 0 ≤ z ∧ z ≤ 2 then some z else none
    | none => none

/-- Modelled from the spec: one line of a feature file read back as a
record.  A line needs `GFF_MIN_NCOLS` columns; the columns after the fifth
take their null values when the line ends before them. -/
def gff_read_line (line : List Char) : Option GFF_Feature :=
  let cols := split_on '\t' line
  if cols.length < GFF_MIN_NCOLS then none
  else
    match cols with
    | seqname :: source :: feature :: start :: end_ :: rest =>
      match scan_int start, scan_int end_,
          (match rest[0]? with
           | none => some (0, 1)
           | some col => gff_scan_score col),
          (match rest[1]? with
           | none => some '.'
           | some col => gff_scan_strand col),
          (match rest[2]? with
           | none => some GFF_NULL_FRAME
           | some col => gff_scan_frame col) with
      | some s, some e, some sc, some strand, some frame =>
        some ⟨String.mk seqname, String.mk source, String.mk feature, s, e, sc.1, strand, frame,
          String.mk (rest.getD 3 []), sc.2⟩
      | _, _, _, _, _ => none
    | _ => none

/-- Modelled from the spec: whether a line of a feature file is skipped: an
empty line, or a comment (metadata in recognized comments is not kept, §6). -/
def gff_skip_line (line : List Char) : Bool :=
  match line with
  | [] => true
  | c :: _ => decide (c = '#')

/-- Modelled from the spec: the records of a list of lines, `none` when a
line that is not skipped is no feature record. -/
def gff_read_lines : List (List Char) → Option (List GFF_Feature)
  | [] => some []
  | line :: rest =>
    if gff_skip_line line = true then gff_read_lines rest
    else
      match gff_read_line line, gff_read_lines rest with
      | some f, some fs => some (f :: fs)
      | _, _ => none

/-- Modelled from the spec: `gff_read_set`, the records of the lines of a
feature file, in order. -/
def gff_read_set (text : String) : Option (List GFF_Feature) :=
  gff_read_lines (split_on '\n' text.data)

/-- Modelled from the spec: whether the Worker of §4.2 records iteration `i`
(counted from 0) of its `burn_in + n_samples` iterations: it "discards the
first `burn_in` iterations, and records every `sample_interval`-th iteration
thereafter", that is, the iterations whose number after the burn-in is a
multiple of `sample_interval`.  With `sample_interval = 0` there is no such
number (in C, a remainder by 0): the worker fails, `none`.
(`dms_sample_paths_pthr`, in `dmotif_phmm.c`, is not among the sources.) -/
def worker_keeps (burn_in sample_interval i : Nat) : Option Bool :=
  if i < burn_in then some false
  else if sample_interval = 0 then none
  else some (decide ((i - burn_in + 1) % sample_interval = 0))

/-- Modelled from the spec: the iterations of the Worker of §4.2 from
iteration `i` on, with the number of samples recorded so far.  The first
argument bounds the number of iterations. -/
def worker_loop (burn_in n_samples sample_interval : Nat) : Nat → Nat → Nat → Option Nat
  | 0, _, recorded => some recorded
  | fuel + 1, i, recorded =>
    if i < burn_in + n_samples then
      match worker_keeps burn_in sample_interval i with
      | none => none
      | some keep =>
        worker_loop burn_in n_samples sample_interval fuel (i + 1)
          (if keep = true then recorded + 1 else recorded)
    else some recorded

/-- Modelled from the spec: the number of samples a Worker records in its
`burn_in + n_samples` iterations, `none` when it fails. -/
def worker_recorded (burn_in n_samples sample_interval : Nat) : Option Nat :=
  worker_loop burn_in n_samples sample_interval (burn_in + n_samples) 0 0

/-- The scenario with a `get_arg_int_bounds` that reads a decimal integer and
dies when it is none or lies outside the bounds it is given. -/
def scenario_world_bounds : World :=
  { scenario_world with
    get_arg_int_bounds := fun arg lo hi =>
      match scan_int arg.data with
      | none => .error "ERROR: bad integer argument.\n"
      | some v =>
        if v < lo ∨ v > hi then .error "ERROR: integer argument outside allowable range.\n"
        else .ok v }

/-! ## Vectors (`vector.c`) -/

/-- An event of the tuple-wise emission table or of its reader: the table is
allocated, computed, adjusted, released, or the sampler is called. -/
def Event.isTable : Event → Bool
  | .tuple_scores_alloc _ _ => true
  | .dms_compute_emissions => true
  | .dm_handle_missing_data => true
  | .dms_sample_paths_pthr => true
  | .tuple_scores_free => true
  | _ => false

/-- A result written by a driver: the dump of the merged table
(`dms_write_hash`), or a step of the feature output (the new feature set, a
call of `dms_motif_as_gff_feat`, the printing of the set). -/
def Event.isResult : Event → Bool
  | .dms_write_hash _ _ _ => true
  | .gff_new_set => true
  | .dms_motif_as_gff_feat _ _ _ _ _ => true
  | .gff_print_set _ => true
  | _ => false

/-- The key length an event passes to the merge step, the read step or the
dump, if it is one of them. -/
def Event.nbases : Event → Option Int
  | .dms_uncache _ _ nbases _ => some nbases
  | .dms_read_hash nbases => some nbases
  | .dms_write_hash _ nbases _ => some nbases
  | _ => none

/-- A double that is a number strictly between 0 and 1. -/
def strictly_in_unit : double → Prop
  | .num v => 0 < v ∧ v < 1
  | .nan => False

/-- A double that is a number strictly between 0 and 1, or NaN. -/
def in_unit_or_nan : double → Prop
  | .num v => 0 < v ∧ v < 1
  | .nan => True

/-- Whether a list of doubles has 4 or 8 values, each of the first four a
number strictly between 0 and 1 or NaN. -/
def indel_accepted (tmpl : List double) : Prop :=
  (tmpl.length = 4 ∨ tmpl.length = 8) ∧
  in_unit_or_nan (lst_get_dbl tmpl 0) ∧
  in_unit_or_nan (lst_get_dbl tmpl 1) ∧
  in_unit_or_nan (lst_get_dbl tmpl 2) ∧
  in_unit_or_nan (lst_get_dbl tmpl 3)

/-- The values of an argument of `--indel-model` of eight values, the last
four of them outside the unit interval. -/
def scenario_indel8 : List double :=
  [.num (1 / 10), .num (2 / 10), .num (3 / 10), .num (4 / 10),
   .num 5, .num 6, .num 7, .num 8]

/-- The scenario with an argument of `--indel-model` of eight values, the
last four of them outside the unit interval. -/
def scenario_world_indel8 : World :=
  { scenario_world with get_arg_list_dbl := fun _ => .ok scenario_indel8 }

/-- The scenario with an argument of `--indel-model` of four values, each of
them NaN. -/
def scenario_world_indel_nan : World :=
  { scenario_world with get_arg_list_dbl := fun _ => .ok [.nan, .nan, .nan, .nan] }

/-- The number of rows of the prior table (line 319 of `dmsample.c`):
`xi_mode == FALSE ? 4 : 5`. -/
def priors_rows (xi_mode : Bool) : Nat := if xi_mode = false then 4 else 5

/-- An event of the prior table: it is allocated, a row is allocated and
zeroed, the table is read into, a row is released, the table is released. -/
def Event.isPriors : Event → Bool
  | .priors_alloc _ => true
  | .priors_row_init _ => true
  | .dms_read_priors _ _ => true
  | .priors_row_free _ => true
  | .priors_free => true
  | _ => false

/-- The scenario with every integer option read as 5: `--refidx 5` on an
alignment whose first block has two sequences. -/
def scenario_world_refidx5 : World :=
  { scenario_world with get_arg_int_bounds := fun _ _ _ => .ok 5 }

/-! ## The merger -/

theorem vec_add_comm (a b : CountVector) : vec_add a b = vec_add b a := by
  simp only [vec_add, CountVector.mk.injEq]
  refine ⟨Int.add_comm _ _, ?_⟩
  rw [List.zipWith_comm]
  congr 1
  funext x y
  exact Int.add_comm _ _

theorem zipWith_add_assoc (a b c : List Int) :
    List.zipWith (fun x y => x + y) (List.zipWith (fun x y => x + y) a b) c =
      List.zipWith (fun x y => x + y) a (List.zipWith (fun x y => x + y) b c) := by
  induction a generalizing b c with
  | nil => simp
  | cons x a ih =>
    cases b with
    | nil => simp
    | cons y b =>
      cases c with
      | nil => simp
      | cons z c => simp [ih, Int.add_assoc]

theorem vec_add_assoc (a b c : CountVector) :
    vec_add (vec_add a b) c = vec_add a (vec_add b c) := by
  simp only [vec_add, CountVector.mk.injEq]
  exact ⟨Int.add_assoc _ _ _, zipWith_add_assoc _ _ _⟩

theorem oplus_none_right (a : Option CountVector) : oplus a none = a := by
  cases a <;> rfl

theorem oplus_none_left (a : Option CountVector) : oplus none a = a := by
  cases a <;> rfl

theorem oplus_comm (a b : Option CountVector) : oplus a b = oplus b a := by
  cases a <;> cases b <;> simp [oplus, vec_add_comm]

theorem oplus_assoc (a b c : Option CountVector) :
    oplus (oplus a b) c = oplus a (oplus b c) := by
  cases a <;> cases b <;> cases c <;> simp [oplus, vec_add_assoc]

theorem key_sum_nil (k : PathKey) : key_sum [] k = none := rfl

theorem key_sum_cons (e : PathKey × CountVector) (es : List (PathKey × CountVector))
    (k : PathKey) :
    key_sum (e :: es) k = oplus (if e.1 = k then some e.2 else none) (key_sum es k) := rfl

theorem key_sum_append (a b : List (PathKey × CountVector)) (k : PathKey) :
    key_sum (a ++ b) k = oplus (key_sum a k) (key_sum b k) := by
  induction a with
  | nil => simp [key_sum_nil, oplus_none_left]
  | cons e a ih => simp only [List.cons_append, key_sum_cons, ih, oplus_assoc]

theorem key_sum_perm {a b : List (PathKey × CountVector)} (h : a.Perm b) (k : PathKey) :
    key_sum a k = key_sum b k := by
  induction h with
  | nil => rfl
  | cons x _ ih => simp only [key_sum_cons, ih]
  | swap x y l =>
    simp only [key_sum_cons, ← oplus_assoc]
    rw [oplus_comm (if y.1 = k then some y.2 else none)]
  | trans _ _ ih1 ih2 => exact ih1.trans ih2

theorem hsh_get_merge_entry (t : CountTable) (k : PathKey) (v : CountVector) (k' : PathKey) :
    hsh_get (hsh_merge_entry t k v) k' =
      oplus (hsh_get t k') (if k = k' then some v else none) := by
  induction t with
  | nil =>
    by_cases h : k = k' <;> simp [hsh_merge_entry, hsh_get, h, oplus]
  | cons e t ih =>
    obtain ⟨k0, v0⟩ := e
    by_cases h0 : k0 = k
    · subst h0
      by_cases h : k0 = k'
      · simp [hsh_merge_entry, hsh_get, h, oplus]
      · simp [hsh_merge_entry, hsh_get, h, oplus_none_right]
    · by_cases h1 : k0 = k'
      · subst h1
        simp [hsh_merge_entry, hsh_get, h0, Ne.symm h0, oplus_none_right]
      · simp [hsh_merge_entry, hsh_get, h0, h1, ih]

theorem hsh_get_foldl_merge (es : List (PathKey × CountVector)) (t : CountTable)
    (k : PathKey) :
    hsh_get (es.foldl merge_step t) k = oplus (hsh_get t k) (key_sum es k) := by
  induction es generalizing t with
  | nil => simp [key_sum_nil, oplus_none_right]
  | cons e es ih =>
    simp only [List.foldl_cons, ih, key_sum_cons, merge_step, hsh_get_merge_entry, oplus_assoc]

theorem uncache_foldl (fs : List CacheFile) (t : CountTable) (n : Int) :
    fs.foldl (fun acc f => (dms_combine_hashes acc.1 f.table, acc.2 + f.nsamples)) (t, n) =
      ((fs.flatMap CacheFile.table).foldl merge_step t, n + declared_total fs) := by
  induction fs generalizing t n with
  | nil => simp [declared_total]
  | cons f fs ih =>
    rw [List.foldl_cons, ih]
    simp only [List.flatMap_cons, List.foldl_append, declared_total, List.map_cons,
      List.sum_cons, Int.add_assoc]
    rfl

theorem dms_uncache_table (fs : List CacheFile) (n r : Int) :
    (dms_uncache fs n r).1 = (fs.flatMap CacheFile.table).foldl merge_step [] := by
  simp [dms_uncache, uncache_foldl]

theorem dms_uncache_total (fs : List CacheFile) (n r : Int) :
    (dms_uncache fs n r).2 = (if r = 1 then 0 else n) + declared_total fs := by
  simp [dms_uncache, uncache_foldl]

theorem dms_uncache_total_reset (fs : List CacheFile) (n : Int) :
    (dms_uncache fs n 1).2 = declared_total fs := by
  simp [dms_uncache_total]

theorem hsh_get_dms_uncache (fs : List CacheFile) (n r : Int) (k : PathKey) :
    hsh_get (dms_uncache fs n r).1 k = key_sum (fs.flatMap CacheFile.table) k := by
  rw [dms_uncache_table, hsh_get_foldl_merge]
  simp [hsh_get, oplus_none_left]

theorem mem_hsh_keys_iff (t : CountTable) (k : PathKey) :
    k ∈ hsh_keys t ↔ hsh_get t k ≠ none := by
  induction t with
  | nil => simp [hsh_keys, hsh_get]
  | cons e t ih =>
    obtain ⟨k0, v0⟩ := e
    by_cases h : k0 = k
    · simp [hsh_keys, hsh_get, h]
    · have ih' : k ∈ List.map Prod.fst t ↔ hsh_get t k ≠ none := ih
      simp [hsh_keys, hsh_get, h, Ne.symm h, ih']

theorem mem_keys_merge_entry (t : CountTable) (k : PathKey) (v : CountVector) (k' : PathKey) :
    k' ∈ hsh_keys (hsh_merge_entry t k v) ↔ k' ∈ hsh_keys t ∨ k' = k := by
  rw [mem_hsh_keys_iff, mem_hsh_keys_iff, hsh_get_merge_entry]
  by_cases h : k = k'
  · subst h
    cases hg : hsh_get t k <;> simp [oplus]
  · simp [h, Ne.symm h, oplus_none_right]

theorem nodup_keys_merge_entry (t : CountTable) (k : PathKey) (v : CountVector)
    (h : (hsh_keys t).Nodup) : (hsh_keys (hsh_merge_entry t k v)).Nodup := by
  induction t with
  | nil => simp [hsh_merge_entry, hsh_keys]
  | cons e t ih =>
    obtain ⟨k0, v0⟩ := e
    have h' : k0 ∉ hsh_keys t ∧ (hsh_keys t).Nodup := by
      simpa [hsh_keys] using h
    by_cases h0 : k0 = k
    · simpa [hsh_merge_entry, h0, hsh_keys] using h
    · have hm : k0 ∉ hsh_keys (hsh_merge_entry t k v) := by
        rw [mem_keys_merge_entry]
        exact fun hc => hc.elim h'.1 h0
      have hn := ih h'.2
      simp only [hsh_merge_entry, h0, if_false]
      exact List.nodup_cons.mpr ⟨hm, hn⟩

theorem nodup_keys_foldl_merge (es : List (PathKey × CountVector)) (t : CountTable)
    (h : (hsh_keys t).Nodup) : (hsh_keys (es.foldl merge_step t)).Nodup := by
  induction es generalizing t with
  | nil => simpa using h
  | cons e es ih =>
    simp only [List.foldl_cons]
    exact ih _ (nodup_keys_merge_entry t e.1 e.2 h)

theorem nodup_keys_dms_uncache (fs : List CacheFile) (n r : Int) :
    (hsh_keys (dms_uncache fs n r).1).Nodup := by
  rw [dms_uncache_table]
  exact nodup_keys_foldl_merge _ _ (by simp [hsh_keys])

theorem keys_perm_of_get_eq (t1 t2 : CountTable) (h1 : (hsh_keys t1).Nodup)
    (h2 : (hsh_keys t2).Nodup) (h : ∀ k, hsh_get t1 k = hsh_get t2 k) :
    (hsh_keys t1).Perm (hsh_keys t2) := by
  rw [List.perm_ext_iff_of_nodup h1 h2]
  intro k
  rw [mem_hsh_keys_iff, mem_hsh_keys_iff, h k]

theorem key_sum_flatMap {α : Type} (g : α → List (PathKey × CountVector)) (l : List α)
    (k : PathKey) :
    key_sum (l.flatMap g) k = (l.map (fun a => key_sum (g a) k)).foldr oplus none := by
  induction l with
  | nil => rfl
  | cons a l ih => simp only [List.flatMap_cons, key_sum_append, ih, List.map_cons, List.foldr_cons]

theorem key_sum_eq_none_of_not_mem (t : CountTable) (k : PathKey) (h : k ∉ hsh_keys t) :
    key_sum t k = none := by
  induction t with
  | nil => rfl
  | cons e t ih =>
    have h' : ¬ e.1 = k ∧ k ∉ hsh_keys t := by
      constructor
      · intro hc
        exact h (by simp [hsh_keys, ← hc])
      · intro hc
        exact h (by simp only [hsh_keys, List.map_cons, List.mem_cons]; exact Or.inr hc)
    simp [key_sum_cons, h'.1, ih h'.2, oplus_none_left]

theorem key_sum_of_nodup (t : CountTable) (k : PathKey) (h : (hsh_keys t).Nodup) :
    key_sum t k = hsh_get t k := by
  induction t with
  | nil => rfl
  | cons e t ih =>
    obtain ⟨k0, v0⟩ := e
    have h' : k0 ∉ hsh_keys t ∧ (hsh_keys t).Nodup := by
      simpa [hsh_keys] using h
    by_cases h0 : k0 = k
    · subst h0
      simp [key_sum_cons, hsh_get, key_sum_eq_none_of_not_mem t k0 h'.1, oplus_none_right]
    · simp [key_sum_cons, hsh_get, h0, ih h'.2, oplus_none_left]

theorem key_sum_spill (fname : String) (samples : List (PathKey × CountVector)) (k : PathKey) :
    key_sum (dms_spill fname samples).table k = key_sum samples k := by
  have hfold : List.foldl dms_record_sample [] samples = List.foldl merge_step [] samples := rfl
  have hn : (hsh_keys (List.foldl merge_step [] samples)).Nodup :=
    nodup_keys_foldl_merge _ _ (by simp [hsh_keys])
  simp only [dms_spill, hfold]
  rw [key_sum_of_nodup _ _ hn, hsh_get_foldl_merge]
  simp [hsh_get, oplus_none_left]

theorem hsh_get_uncache_spill (parts : List (String × List (PathKey × CountVector)))
    (n r : Int) (k : PathKey) :
    hsh_get (dms_uncache (spill_all parts) n r).1 k = key_sum (all_samples parts) k := by
  rw [hsh_get_dms_uncache, key_sum_flatMap, all_samples, key_sum_flatMap]
  simp only [spill_all, List.map_map]
  congr 1
  apply List.map_congr_left
  intro p _
  simp [key_sum_spill]

theorem declared_total_spill (parts : List (String × List (PathKey × CountVector))) :
    declared_total (spill_all parts) = ((all_samples parts).length : Int) := by
  induction parts with
  | nil => rfl
  | cons p parts ih =>
    have : declared_total (spill_all (p :: parts)) =
        (p.2.length : Int) + declared_total (spill_all parts) := by
      simp [declared_total, spill_all, dms_spill]
    rw [this, ih]
    simp [all_samples]

theorem dmsample_emit_loop_eq (feat : FeatFn) (t : CountTable) (keys : List PathKey)
    (ns si ri : Int) (fuel i : Nat) (st : List GFF_Feature × List Event)
    (hfuel : keys.length ≤ i + fuel) :
    dmsample_emit_loop feat t keys ns si ri fuel i st =
      (st.1 ++ (keys.drop i).map (fun key => feat key (hsh_get t key) ns si ri),
       st.2 ++ (keys.drop i).map
        (fun key => Event.dms_motif_as_gff_feat key (hsh_get t key) ns si ri)) := by
  induction fuel generalizing i st with
  | zero =>
    have h : keys.drop i = [] := List.drop_eq_nil_of_le (by omega)
    simp [dmsample_emit_loop, h]
  | succ fuel ih =>
    by_cases h : i < keys.length
    · have hd : keys.drop i = keys[i] :: keys.drop (i + 1) := List.drop_eq_getElem_cons h
      simp only [dmsample_emit_loop, h, dite_true]
      rw [ih (i + 1) _ (by omega), hd]
      simp only [List.map_cons, List.append_assoc, List.singleton_append]
    · have hd : keys.drop i = [] := List.drop_eq_nil_of_le (by omega)
      simp [dmsample_emit_loop, h, hd]

theorem dmsProcessParallel_emit_loop_eq (feat : FeatFn) (t : CountTable)
    (keys : List PathKey) (ns si ri : Int) (fuel i : Nat) (st : List GFF_Feature × List Event)
    (hfuel : keys.length ≤ i + fuel) :
    dmsProcessParallel_emit_loop feat t keys ns si ri fuel i st =
      (st.1 ++ (keys.drop i).map (fun key => feat key (hsh_get t key) ns si ri),
       st.2 ++ (keys.drop i).map
        (fun key => Event.dms_motif_as_gff_feat key (hsh_get t key) ns si ri)) := by
  induction fuel generalizing i st with
  | zero =>
    have h : keys.drop i = [] := List.drop_eq_nil_of_le (by omega)
    simp [dmsProcessParallel_emit_loop, h]
  | succ fuel ih =>
    by_cases h : i < keys.length
    · have hd : keys.drop i = keys[i] :: keys.drop (i + 1) := List.drop_eq_getElem_cons h
      simp only [dmsProcessParallel_emit_loop, h, dite_true]
      rw [ih (i + 1) _ (by omega), hd]
      simp only [List.map_cons, List.append_assoc, List.singleton_append]
    · have hd : keys.drop i = [] := List.drop_eq_nil_of_le (by omega)
      simp [dmsProcessParallel_emit_loop, h, hd]

theorem dmsample_emit_eq (feat : FeatFn) (t : CountTable) (ns si ri : Int) :
    dmsample_emit feat t ns si ri =
      ((hsh_keys t).map (fun key => feat key (hsh_get t key) ns si ri),
       (hsh_keys t).map (fun key => Event.dms_motif_as_gff_feat key (hsh_get t key) ns si ri)) := by
  simp [dmsample_emit, dmsample_emit_loop_eq]

theorem dmsProcessParallel_emit_eq (feat : FeatFn) (t : CountTable) (ns si ri : Int) :
    dmsProcessParallel_emit feat t ns si ri =
      ((hsh_keys t).map (fun key => feat key (hsh_get t key) ns si ri),
       (hsh_keys t).map (fun key => Event.dms_motif_as_gff_feat key (hsh_get t key) ns si ri)) := by
  simp [dmsProcessParallel_emit, dmsProcessParallel_emit_loop_eq]

theorem nodup_unique_index (keys : List PathKey) (hnd : keys.Nodup) (key : PathKey)
    (hk : key ∈ keys) : ∃! i : Nat, keys[i]? = some key := by
  obtain ⟨i, hi⟩ := List.mem_iff_getElem?.mp hk
  refine ⟨i, hi, ?_⟩
  intro j hj
  have hjl : j < keys.length := by
    by_contra hc
    rw [List.getElem?_eq_none (by omega)] at hj
    cases hj
  have hil : i < keys.length := by
    by_contra hc
    rw [List.getElem?_eq_none (by omega)] at hi
    cases hi
  rw [List.getElem?_eq_getElem hjl] at hj
  rw [List.getElem?_eq_getElem hil] at hi
  have : keys[j] = keys[i] := by
    rw [Option.some.inj hj, Option.some.inj hi]
  exact (List.Nodup.getElem_inj_iff hnd).mp this

/-! ## The loops of the drivers -/

theorem dmsample_rm_loop_eq (w : World) (hash_debug : Bool) (files : List CacheFile)
    (fuel i : Nat) (evs : List Event) (hfuel : files.length ≤ i + fuel) :
    dmsample_rm_loop w hash_debug files fuel i evs =
      evs ++ (if hash_debug = false then
        (files.drop i).map (fun f => Event.system (snprintf w.STR_MED_LEN ("rm " ++ f.name)))
       else []) := by
  induction fuel generalizing i evs with
  | zero =>
    have h : files.drop i = [] := List.drop_eq_nil_of_le (by omega)
    simp [dmsample_rm_loop, h]
  | succ fuel ih =>
    by_cases h : i < files.length
    · have hd : files.drop i = files[i] :: files.drop (i + 1) := List.drop_eq_getElem_cons h
      simp only [dmsample_rm_loop, h, dite_true]
      rw [ih (i + 1) _ (by omega), hd]
      cases hash_debug
      · simp only [if_true, List.map_cons, List.append_assoc, List.singleton_append]
      · simp only [Bool.true_eq_false, if_false, List.append_nil]
    · have hd : files.drop i = [] := List.drop_eq_nil_of_le (by omega)
      simp [dmsample_rm_loop, h, hd]

theorem dmsample_priors_free_loop_eq (xi_mode : Bool) :
    dmsample_priors_free_loop xi_mode 5 0 [] =
      (List.range (if xi_mode = false then 4 else 5)).map Event.priors_row_free := by
  cases xi_mode <;> rfl

theorem dmsample_priors_init_loop_eq (xi_mode : Bool) :
    dmsample_priors_init_loop xi_mode 5 0
        (List.replicate (if xi_mode = false then 4 else 5) none, []) =
      (List.replicate (if xi_mode = false then 4 else 5) (some [0, 0]),
       (List.range (if xi_mode = false then 4 else 5)).map Event.priors_row_init) := by
  cases xi_mode <;> rfl

theorem ref_loop_eq (nodes : List TreeNode) (names : List String) (refidx : Int)
    (refname : String) (hname : names[(refidx - 1).toNat]? = some refname)
    (fuel i : Nat) (found : Bool) (hfuel : nodes.length ≤ i + fuel) :
    ref_loop nodes names refidx fuel i found =
      some (found || (nodes.drop i).any (fun n => decide (n.name = refname))) := by
  induction fuel generalizing i found with
  | zero =>
    have h : nodes.drop i = [] := List.drop_eq_nil_of_le (by omega)
    simp [ref_loop, h]
  | succ fuel ih =>
    by_cases h : i < nodes.length
    · have hd : nodes.drop i = nodes[i] :: nodes.drop (i + 1) := List.drop_eq_getElem_cons h
      cases found with
      | true => simp [ref_loop]
      | false =>
        simp only [ref_loop, h, and_self, dite_true, hname]
        rw [ih (i + 1) _ (by omega), hd, List.any_cons]
        by_cases hn : nodes[i].name = refname <;> simp [hn]
    · have hd : nodes.drop i = [] := List.drop_eq_nil_of_le (by omega)
      simp [ref_loop, h, hd]

/-! ## The part of a run before the pipeline -/

theorem with_fopen_args {σ : Type} (w : World) (fname mode : String) (k : Step σ)
    (hk : ∀ e ∈ k.1, e.isArgs = true) :
    ∀ e ∈ (with_fopen w fname mode k).1, e.isArgs = true := by
  intro e he
  unfold with_fopen at he
  split at he
  · simp at he
  · simp only [List.mem_cons] at he
    rcases he with rfl | he
    · rfl
    · exact hk e he

theorem dmsample_option_args (w : World) (o : DmsOptions) (c : Char) (optarg : String) :
    ∀ e ∈ (dmsample_option w o c optarg).1, e.isArgs = true := by
  intro e he
  unfold dmsample_option at he
  split at he
  all_goals simp only [Step.ok, Step.die, with_fopen] at he
  all_goals (repeat' split at he)
  all_goals
    first
    | (simp at he; done)
    | (simp at he; rcases he with rfl | rfl | rfl <;> rfl)

theorem dmsample_getopt_loop_args (w : World) (opts : List (Char × String)) (o : DmsOptions) :
    ∀ e ∈ (dmsample_getopt_loop w opts o).1, e.isArgs = true := by
  induction opts generalizing o with
  | nil => intro e he; simp [dmsample_getopt_loop, Step.ok] at he
  | cons co opts ih =>
    obtain ⟨c, optarg⟩ := co
    intro e he
    have hopt := dmsample_option_args w o c optarg
    unfold dmsample_getopt_loop at he
    split at he
    · rename_i evs err heq
      rw [heq] at hopt
      exact hopt e he
    · rename_i evs o' heq
      rw [heq] at hopt
      simp only [List.mem_append] at he
      rcases he with he | he
      · exact hopt e he
      · exact ih o' e he

theorem dmsProcessParallel_option_args (w : World) (o : DppOptions) (c : Char)
    (optarg : String) :
    ∀ e ∈ (dmsProcessParallel_option w o c optarg).1, e.isArgs = true := by
  intro e he
  unfold dmsProcessParallel_option at he
  split at he
  all_goals simp only [Step.ok, Step.die, with_fopen] at he
  all_goals (repeat' split at he)
  all_goals
    first
    | (simp at he; done)
    | (simp at he; rcases he with rfl | rfl; rfl)

theorem dmsProcessParallel_getopt_loop_args (w : World) (opts : List (Char × String))
    (o : DppOptions) :
    ∀ e ∈ (dmsProcessParallel_getopt_loop w opts o).1, e.isArgs = true := by
  induction opts generalizing o with
  | nil => intro e he; simp [dmsProcessParallel_getopt_loop, Step.ok] at he
  | cons co opts ih =>
    obtain ⟨c, optarg⟩ := co
    intro e he
    have hopt := dmsProcessParallel_option_args w o c optarg
    unfold dmsProcessParallel_getopt_loop at he
    split at he
    · rename_i evs err heq
      rw [heq] at hopt
      exact hopt e he
    · rename_i evs o' heq
      rw [heq] at hopt
      simp only [List.mem_append] at he
      rcases he with he | he
      · exact hopt e he
      · exact ih o' e he

theorem isSetup_of_isArgs (e : Event) (h : e.isArgs = true) : e.isSetup = true := by
  cases e <;> simp_all [Event.isArgs, Event.isSetup]

theorem Run.after_trace (evs : List Event) (r : Run) : (Run.after evs r).trace = evs ++ r.trace :=
  rfl

theorem Run.after_outcome (evs : List Event) (r : Run) : (Run.after evs r).outcome = r.outcome :=
  rfl

theorem Run.after_after (a b : List Event) (r : Run) :
    Run.after a (Run.after b r) = Run.after (a ++ b) r := by
  simp [Run.after]

theorem Run.after_nil (r : Run) : Run.after [] r = r := rfl

theorem Run.fopen_cases (w : World) (fname mode : String) (k : Run) :
    (∃ msg, Run.fopen w fname mode k = ⟨[], .died msg⟩) ∨
      Run.fopen w fname mode k = Run.after [Event.fopen fname mode] k := by
  unfold Run.fopen
  split
  · exact Or.inl ⟨_, rfl⟩
  · exact Or.inr rfl

theorem dmsample_option_error (w : World) (o : DmsOptions) (c : Char) (optarg : String)
    (e : Outcome) (h : (dmsample_option w o c optarg).2 = .error e) :
    e = .exited 0 ∨ ∃ msg, e = .died msg := by
  unfold dmsample_option at h
  split at h
  all_goals simp only [Step.ok, Step.die, with_fopen] at h
  all_goals (repeat' split at h)
  all_goals simp at h
  all_goals first
    | exact Or.inl h.symm
    | exact Or.inr ⟨_, h.symm⟩

theorem dmsample_getopt_loop_error (w : World) (opts : List (Char × String)) (o : DmsOptions)
    (e : Outcome) (h : (dmsample_getopt_loop w opts o).2 = .error e) :
    e = .exited 0 ∨ ∃ msg, e = .died msg := by
  induction opts generalizing o with
  | nil => simp [dmsample_getopt_loop, Step.ok] at h
  | cons co opts ih =>
    obtain ⟨c, optarg⟩ := co
    have hopt := dmsample_option_error w o c optarg
    unfold dmsample_getopt_loop at h
    split at h
    · rename_i evs err heq
      rw [heq] at hopt
      exact hopt e h
    · rename_i evs o' heq
      exact ih o' h

theorem dmsProcessParallel_option_error (w : World) (o : DppOptions) (c : Char)
    (optarg : String) (e : Outcome) (h : (dmsProcessParallel_option w o c optarg).2 = .error e) :
    e = .exited 0 ∨ ∃ msg, e = .died msg := by
  unfold dmsProcessParallel_option at h
  split at h
  all_goals simp only [Step.ok, Step.die, with_fopen] at h
  all_goals (repeat' split at h)
  all_goals simp at h
  all_goals first
    | exact Or.inl h.symm
    | exact Or.inr ⟨_, h.symm⟩

theorem dmsProcessParallel_getopt_loop_error (w : World) (opts : List (Char × String))
    (o : DppOptions) (e : Outcome) (h : (dmsProcessParallel_getopt_loop w opts o).2 = .error e) :
    e = .exited 0 ∨ ∃ msg, e = .died msg := by
  induction opts generalizing o with
  | nil => simp [dmsProcessParallel_getopt_loop, Step.ok] at h
  | cons co opts ih =>
    obtain ⟨c, optarg⟩ := co
    have hopt := dmsProcessParallel_option_error w o c optarg
    unfold dmsProcessParallel_getopt_loop at h
    split at h
    · rename_i evs err heq
      rw [heq] at hopt
      exact hopt e h
    · rename_i evs o' heq
      exact ih o' h

theorem dmsample_reference_warning_args (o : DmsOptions) :
    ∀ e ∈ dmsample_reference_warning o, e.isArgs = true := by
  intro e he
  unfold dmsample_reference_warning at he
  split at he
  · simp at he; subst he; rfl
  · simp at he

/-- The argument handling of `dmsample` either dies, having opened input
files at most, or goes on to read the tree model. -/
theorem dmsample_check_args_cases (w : World) (o : DmsOptions) (args : List String) :
    ((∀ e ∈ (dmsample_check_args w o args).trace, e.isArgs = true) ∧
      ∃ msg, (dmsample_check_args w o args).outcome = .died msg) ∨
    ∃ pre o' msa_fname mod_fname motif_fname prior_fname,
      args = [msa_fname, mod_fname, motif_fname, prior_fname] ∧
      (∀ e ∈ pre, e.isArgs = true) ∧
      dmsample_check_args w o args =
        Run.after pre (dmsample_read_model w o' msa_fname mod_fname motif_fname prior_fname) := by
  have hwarn := dmsample_reference_warning_args o
  unfold dmsample_check_args
  split
  · rename_i a0 a1 a2 a3
    split
    · exact Or.inl ⟨hwarn, _, rfl⟩
    · split
      · exact Or.inl ⟨hwarn, _, rfl⟩
      · generalize dmsample_force_priors o = o'
        rcases Run.fopen_cases w a0 "r" (Run.fopen w a1 "r" (Run.fopen w a2 "r"
          (Run.fopen w a3 "r" (dmsample_read_model w o' a0 a1 a2 a3)))) with ⟨msg, h0⟩ | h0
        · rw [h0]
          refine Or.inl ⟨?_, msg, rfl⟩
          intro e he
          simp [Run.after] at he
          exact hwarn e he
        · rw [h0]
          rcases Run.fopen_cases w a1 "r" (Run.fopen w a2 "r"
            (Run.fopen w a3 "r" (dmsample_read_model w o' a0 a1 a2 a3))) with ⟨msg, h1⟩ | h1
          · rw [h1]
            refine Or.inl ⟨?_, msg, rfl⟩
            intro e he
            simp [Run.after] at he
            rcases he with he | rfl
            · exact hwarn e he
            · rfl
          · rw [h1]
            rcases Run.fopen_cases w a2 "r"
              (Run.fopen w a3 "r" (dmsample_read_model w o' a0 a1 a2 a3)) with ⟨msg, h2⟩ | h2
            · rw [h2]
              refine Or.inl ⟨?_, msg, rfl⟩
              intro e he
              simp [Run.after] at he
              rcases he with he | rfl | rfl
              · exact hwarn e he
              · rfl
              · rfl
            · rw [h2]
              rcases Run.fopen_cases w a3 "r" (dmsample_read_model w o' a0 a1 a2 a3)
                with ⟨msg, h3⟩ | h3
              · rw [h3]
                refine Or.inl ⟨?_, msg, rfl⟩
                intro e he
                simp [Run.after] at he
                rcases he with he | rfl | rfl | rfl
                · exact hwarn e he
                · rfl
                · rfl
                · rfl
              · rw [h3]
                refine Or.inr ⟨dmsample_reference_warning o ++ [Event.fopen a0 "r",
                  Event.fopen a1 "r", Event.fopen a2 "r", Event.fopen a3 "r"],
                  o', a0, a1, a2, a3, rfl, ?_, ?_⟩
                · intro e he
                  simp at he
                  rcases he with he | rfl | rfl | rfl | rfl
                  · exact hwarn e he
                  all_goals rfl
                · simp [Run.after]
  · exact Or.inl ⟨by simp, _, rfl⟩

/-- A run of `dmsample` either ends during the option and argument handling,
by `exit(0)` or by `die`, or goes on to read the tree model. -/
theorem dmsample_main_cases (w : World) (opts : List (Char × String)) (args : List String) :
    ((∀ e ∈ (dmsample_main w opts args).trace, e.isArgs = true) ∧
      ((dmsample_main w opts args).outcome = .exited 0 ∨
        ∃ msg, (dmsample_main w opts args).outcome = .died msg)) ∨
    ∃ pre o msa_fname mod_fname motif_fname prior_fname,
      args = [msa_fname, mod_fname, motif_fname, prior_fname] ∧
      (∀ e ∈ pre, e.isArgs = true) ∧
      dmsample_main w opts args =
        Run.after pre (dmsample_read_model w o msa_fname mod_fname motif_fname prior_fname) := by
  have hev := dmsample_getopt_loop_args w opts (dmsample_defaults w)
  have herr := dmsample_getopt_loop_error w opts (dmsample_defaults w)
  unfold dmsample_main
  split
  · rename_i evs e heq
    rw [heq] at hev herr
    exact Or.inl ⟨hev, herr e rfl⟩
  · rename_i evs o heq
    rw [heq] at hev
    rcases dmsample_check_args_cases w o args with
      ⟨h1, msg, h2⟩ | ⟨pre, o', a0, a1, a2, a3, ha, hpre, hrun⟩
    · refine Or.inl ⟨?_, Or.inr ⟨msg, h2⟩⟩
      intro e he
      simp only [Run.after, List.mem_append] at he
      rcases he with he | he
      · exact hev e he
      · exact h1 e he
    · refine Or.inr ⟨evs ++ pre, o', a0, a1, a2, a3, ha, ?_, ?_⟩
      · intro e he
        simp only [List.mem_append] at he
        rcases he with he | he
        · exact hev e he
        · exact hpre e he
      · rw [hrun, Run.after_after]

theorem isInput_of_isArgs (e : Event) (h : e.isArgs = true) : e.isInput = true := by
  cases e <;> simp_all [Event.isArgs, Event.isInput]

theorem isSetup_of_isInput (e : Event) (h : e.isInput = true) : e.isSetup = true := by
  cases e <;> simp_all [Event.isInput, Event.isSetup]

theorem dmsample_priors_input (o : DmsOptions) (prior_fname : String) :
    ∀ e ∈ dmsample_priors o prior_fname, e.isInput = true := by
  intro e he
  unfold dmsample_priors at he
  split at he
  · simp only [dmsample_priors_init_loop_eq] at he
    simp at he
    rcases he with rfl | rfl | ⟨i, _, rfl⟩ | rfl <;> rfl
  · simp at he

theorem reversibility_warning_input (source_mod : TreeModel) :
    ∀ e ∈ reversibility_warning source_mod, e.isInput = true := by
  intro e he
  unfold reversibility_warning at he
  split at he
  · simp at he; subst he; rfl
  · simp at he

/-- From the reading of the tree model on, a run of `dmsample` either dies
before the pruning step or reaches it with a model that passed the checks. -/
theorem dmsample_read_model_cases (w : World) (o : DmsOptions)
    (msa_fname mod_fname motif_fname prior_fname : String) :
    ((∀ e ∈ (dmsample_read_model w o msa_fname mod_fname motif_fname prior_fname).trace,
        e.isInput = true) ∧
      ∃ msg, (dmsample_read_model w o msa_fname mod_fname motif_fname prior_fname).outcome =
        .died msg) ∨
    ∃ pre source_mod dmpmsa,
      w.tm_new_from_file mod_fname = .ok source_mod ∧
      w.dms_read_alignments msa_fname = .ok dmpmsa ∧
      ¬ source_mod.nratecats > 1 ∧ ¬ source_mod.order > 0 ∧
      (∀ e ∈ pre, e.isInput = true) ∧
      dmsample_read_model w o msa_fname mod_fname motif_fname prior_fname =
        Run.after pre (dmsample_prune w o source_mod dmpmsa) := by
  unfold dmsample_read_model
  split
  · exact Or.inl ⟨by intro e he; simp at he; subst he; rfl, _, rfl⟩
  · rename_i source_mod hmod
    split
    · exact Or.inl ⟨by intro e he; simp at he; rcases he with rfl | rfl <;> rfl, _, rfl⟩
    · split
      · exact Or.inl ⟨by intro e he; simp at he; rcases he with rfl | rfl <;> rfl, _, rfl⟩
      · rename_i hrate horder
        have hrev := reversibility_warning_input source_mod
        unfold dmsample_read_data
        split
        · refine Or.inl ⟨?_, _, rfl⟩
          simp only [Run.after, List.forall_mem_append, List.forall_mem_cons]
          repeat' apply And.intro
          all_goals first | rfl | exact hrev | (intro e he; simp at he)
        · split
          · refine Or.inl ⟨?_, _, rfl⟩
            simp only [Run.after, List.forall_mem_append, List.forall_mem_cons]
            repeat' apply And.intro
            all_goals first | rfl | exact hrev | (intro e he; simp at he)
          · rename_i dmpmsa hmsa
            refine Or.inr ⟨_, source_mod, dmpmsa, hmod, hmsa, hrate, horder, ?_,
              Run.after_after _ _ _⟩
            simp only [List.forall_mem_append, List.forall_mem_cons]
            repeat' apply And.intro
            all_goals first
              | rfl | exact hrev | exact dmsample_priors_input o prior_fname
              | (intro e he; simp at he)

/-- A run of `dmsample` either ends before the pruning step, by `exit(0)` or
by `die`, or reaches it. -/
theorem dmsample_main_cases_prune (w : World) (opts : List (Char × String))
    (args : List String) :
    ((∀ e ∈ (dmsample_main w opts args).trace, e.isInput = true) ∧
      ((dmsample_main w opts args).outcome = .exited 0 ∨
        ∃ msg, (dmsample_main w opts args).outcome = .died msg)) ∨
    ∃ pre o source_mod dmpmsa,
      (∀ e ∈ pre, e.isInput = true) ∧
      dmsample_main w opts args = Run.after pre (dmsample_prune w o source_mod dmpmsa) := by
  rcases dmsample_main_cases w opts args with ⟨h1, h2⟩ | ⟨pre, o, a0, a1, a2, a3, _, hpre, hrun⟩
  · exact Or.inl ⟨fun e he => isInput_of_isArgs e (h1 e he), h2⟩
  · rcases dmsample_read_model_cases w o a0 a1 a2 a3 with
      ⟨h1, msg, h2⟩ | ⟨pre', m, d, _, _, _, _, hpre', hrun'⟩
    · refine Or.inl ⟨?_, Or.inr ⟨msg, ?_⟩⟩
      · intro e he
        rw [hrun, Run.after_trace, List.mem_append] at he
        rcases he with he | he
        · exact isInput_of_isArgs e (hpre e he)
        · exact h1 e he
      · rw [hrun, Run.after_outcome, h2]
    · refine Or.inr ⟨pre ++ pre', o, m, d, ?_, ?_⟩
      · intro e he
        rw [List.mem_append] at he
        rcases he with he | he
        · exact isInput_of_isArgs e (hpre e he)
        · exact hpre' e he
      · rw [hrun, hrun', Run.after_after]

theorem ne_mot_read_of_isArgs (e : Event) (h : e.isArgs = true) : e ≠ Event.mot_read := by
  cases e <;> simp_all [Event.isArgs]

/-- From the reading of the motif model on, a run of `dmsProcessParallel`
either dies before the motif model is read or goes on to the checks of the
tree model. -/
theorem dmsProcessParallel_read_motif_cases (w : World) (o : DppOptions)
    (source_mod : TreeModel) (dmpmsa : DMotifPmsaStruct) (hash_files : List CacheFile)
    (motif_fname : String) :
    ((∀ e ∈ (dmsProcessParallel_read_motif w o source_mod dmpmsa hash_files motif_fname).trace,
        e.isInput = true ∧ e ≠ Event.mot_read) ∧
      ∃ msg, (dmsProcessParallel_read_motif w o source_mod dmpmsa hash_files
        motif_fname).outcome = .died msg) ∨
    ∃ pre, (∀ e ∈ pre, e.isInput = true) ∧
      dmsProcessParallel_read_motif w o source_mod dmpmsa hash_files motif_fname =
        Run.after pre (dmsProcessParallel_check_model w o source_mod dmpmsa hash_files) := by
  unfold dmsProcessParallel_read_motif
  rcases Run.fopen_cases w motif_fname "r" (match w.mot_read motif_fname with
       | .error msg => ⟨[], .died msg⟩
       | .ok _ =>
         Run.after [Event.mot_read]
           (dmsProcessParallel_check_model w o source_mod dmpmsa hash_files)) with ⟨msg, h⟩ | h
  · rw [h]
    refine Or.inl ⟨?_, msg, rfl⟩
    simp [Run.after, Event.isInput]
  · rw [h]
    cases hm : w.mot_read motif_fname with
    | error msg =>
      refine Or.inl ⟨?_, msg, rfl⟩
      simp [Run.after, Event.isInput]
    | ok u =>
      refine Or.inr ⟨[Event.print_stderr ("Reading motif model from " ++ motif_fname ++ "...\n"),
        Event.fopen motif_fname "r", Event.mot_read], ?_, ?_⟩
      · simp [Event.isInput]
      · simp [Run.after]

/-- From the reading of the tree model on, a run of `dmsProcessParallel` either
dies before the motif model is read or goes on to the checks of the tree
model it read. -/
theorem dmsProcessParallel_read_model_cases (w : World) (o : DppOptions)
    (dmpmsa : DMotifPmsaStruct) (hash_files : List CacheFile) (mod_fname motif_fname : String) :
    ((∀ e ∈ (dmsProcessParallel_read_model w o dmpmsa hash_files mod_fname motif_fname).trace,
        e.isInput = true ∧ e ≠ Event.mot_read) ∧
      ∃ msg, (dmsProcessParallel_read_model w o dmpmsa hash_files mod_fname
        motif_fname).outcome = .died msg) ∨
    ∃ pre source_mod, w.tm_new_from_file mod_fname = .ok source_mod ∧
      (∀ e ∈ pre, e.isInput = true) ∧
      dmsProcessParallel_read_model w o dmpmsa hash_files mod_fname motif_fname =
        Run.after pre (dmsProcessParallel_check_model w o source_mod dmpmsa hash_files) := by
  unfold dmsProcessParallel_read_model
  rcases Run.fopen_cases w mod_fname "r" (match w.tm_new_from_file mod_fname with
       | .error msg => ⟨[], .died msg⟩
       | .ok source_mod =>
         Run.after [Event.tm_new_from_file]
           (dmsProcessParallel_read_motif w o source_mod dmpmsa hash_files motif_fname))
    with ⟨msg, h⟩ | h
  · rw [h]
    refine Or.inl ⟨?_, msg, rfl⟩
    simp [Run.after, Event.isInput]
  · rw [h]
    cases hm : w.tm_new_from_file mod_fname with
    | error msg =>
      refine Or.inl ⟨?_, msg, rfl⟩
      simp [Run.after, Event.isInput]
    | ok source_mod =>
      rcases dmsProcessParallel_read_motif_cases w o source_mod dmpmsa hash_files motif_fname
        with ⟨h1, msg, h2⟩ | ⟨pre, hpre, hrun⟩
      · refine Or.inl ⟨?_, msg, ?_⟩
        · intro e he
          simp only [Run.after, List.mem_append, List.mem_cons, List.mem_singleton,
            List.not_mem_nil, or_false] at he
          rcases he with rfl | rfl | rfl | he
          · exact ⟨rfl, by simp⟩
          · exact ⟨rfl, by simp⟩
          · exact ⟨rfl, by simp⟩
          · exact h1 e he
        · simpa [Run.after] using h2
      · refine Or.inr ⟨[Event.print_stderr ("Reading tree model from " ++ mod_fname ++ "...\n"),
          Event.fopen mod_fname "r", Event.tm_new_from_file] ++ pre, source_mod, rfl, ?_, ?_⟩
        · intro e he
          simp only [List.mem_append, List.mem_cons, List.mem_singleton,
            List.not_mem_nil, or_false] at he
          rcases he with (rfl | rfl | rfl) | he
          · rfl
          · rfl
          · rfl
          · exact hpre e he
        · simp [hrun, Run.after]

/-- A run of `dmsProcessParallel` either ends before the motif model is read,
by `exit(0)` or by `die`, or goes on to the checks of the tree model it
read. -/
theorem dmsProcessParallel_main_cases (w : World) (opts : List (Char × String))
    (args : List String) :
    ((∀ e ∈ (dmsProcessParallel_main w opts args).trace,
        e.isInput = true ∧ e ≠ Event.mot_read) ∧
      ((dmsProcessParallel_main w opts args).outcome = .exited 0 ∨
        ∃ msg, (dmsProcessParallel_main w opts args).outcome = .died msg)) ∨
    ∃ pre o hash_arg msa_fname mod_fname motif_fname source_mod dmpmsa,
      args = [hash_arg, msa_fname, mod_fname, motif_fname] ∧
      w.tm_new_from_file mod_fname = .ok source_mod ∧
      (∀ e ∈ pre, e.isInput = true) ∧
      dmsProcessParallel_main w opts args =
        Run.after pre
          (dmsProcessParallel_check_model w o source_mod dmpmsa (w.hash_files hash_arg)) := by
  have hev := dmsProcessParallel_getopt_loop_args w opts dmsProcessParallel_defaults
  have herr := dmsProcessParallel_getopt_loop_error w opts dmsProcessParallel_defaults
  have hev' : ∀ evs : List Event, (∀ e ∈ evs, e.isArgs = true) →
      ∀ e ∈ evs, e.isInput = true ∧ e ≠ Event.mot_read :=
    fun evs h e he => ⟨isInput_of_isArgs e (h e he), ne_mot_read_of_isArgs e (h e he)⟩
  unfold dmsProcessParallel_main
  split
  · rename_i evs e heq
    rw [heq] at hev herr
    exact Or.inl ⟨hev' evs hev, herr e rfl⟩
  · rename_i evs o heq
    rw [heq] at hev
    unfold dmsProcessParallel_check_args
    split
    · rename_i hash_arg a1 a2 a3
      rcases Run.fopen_cases w a1 "r" (match w.dms_read_alignments a1 with
         | .error msg => ⟨[], .died msg⟩
         | .ok dmpmsa =>
           Run.after [Event.dms_read_alignments]
             (dmsProcessParallel_read_model w o dmpmsa (w.hash_files hash_arg) a2 a3))
        with ⟨msg, h⟩ | h
      · rw [h]
        refine Or.inl ⟨?_, Or.inr ⟨msg, rfl⟩⟩
        intro e he
        simp only [Run.after, List.mem_append, List.mem_cons, List.mem_singleton,
          List.not_mem_nil, or_false, List.append_nil] at he
        rcases he with he | rfl
        · exact hev' evs hev e he
        · exact ⟨rfl, by simp⟩
      · rw [h]
        cases hm : w.dms_read_alignments a1 with
        | error msg =>
          refine Or.inl ⟨?_, Or.inr ⟨msg, rfl⟩⟩
          intro e he
          simp only [Run.after, List.mem_append, List.mem_cons, List.mem_singleton,
            List.not_mem_nil, or_false, List.append_nil] at he
          rcases he with he | rfl | rfl
          · exact hev' evs hev e he
          · exact ⟨rfl, by simp⟩
          · exact ⟨rfl, by simp⟩
        | ok dmpmsa =>
          rcases dmsProcessParallel_read_model_cases w o dmpmsa (w.hash_files hash_arg) a2 a3
            with ⟨h1, msg, h2⟩ | ⟨pre, m, hmod, hpre, hrun⟩
          · refine Or.inl ⟨?_, Or.inr ⟨msg, ?_⟩⟩
            · intro e he
              simp only [Run.after, List.mem_append, List.mem_cons, List.mem_singleton,
                List.not_mem_nil, or_false] at he
              rcases he with he | rfl | rfl | rfl | he
              · exact hev' evs hev e he
              · exact ⟨rfl, by simp⟩
              · exact ⟨rfl, by simp⟩
              · exact ⟨rfl, by simp⟩
              · exact h1 e he
            · simpa [Run.after] using h2
          · refine Or.inr ⟨evs ++ ([Event.print_stderr ("Reading alignments from " ++ a1 ++ "...\n"),
              Event.fopen a1 "r", Event.dms_read_alignments] ++ pre),
              o, hash_arg, a1, a2, a3, m, dmpmsa, rfl, hmod, ?_, ?_⟩
            · intro e he
              simp only [List.mem_append, List.mem_cons, List.mem_singleton,
                List.not_mem_nil, or_false] at he
              rcases he with he | (rfl | rfl | rfl) | he
              · exact isInput_of_isArgs e (hev e he)
              · rfl
              · rfl
              · rfl
              · exact hpre e he
            · simp [hrun, Run.after]
    · exact Or.inl ⟨by simpa [Run.after] using hev' evs hev, Or.inr ⟨_, rfl⟩⟩

/-! ## From the pruning step to the pipeline -/

/-- From the reference check on, a run of `dmsample` either ends there, by a
read outside the sequence names or by `die`, or is the pipeline. -/
theorem dmsample_refcheck_cases (w : World) (o : DmsOptions) (nodes : List TreeNode)
    (dmpmsa : DMotifPmsaStruct) :
    dmsample_refcheck w o nodes dmpmsa = ⟨[], .undefined⟩ ∨
    dmsample_refcheck w o nodes dmpmsa =
      ⟨[], .died "ERROR: no match for reference sequence in tree.\n"⟩ ∨
    dmsample_refcheck w o nodes dmpmsa = dmsample_pipeline w o dmpmsa := by
  unfold dmsample_refcheck
  split
  · split
    · exact Or.inl rfl
    · split
      · exact Or.inr (Or.inl rfl)
      · exact Or.inr (Or.inr rfl)
  · exact Or.inr (Or.inr rfl)

theorem dmsProcessParallel_refcheck_cases (w : World) (o : DppOptions) (nodes : List TreeNode)
    (dmpmsa : DMotifPmsaStruct) (hash_files : List CacheFile) :
    dmsProcessParallel_refcheck w o nodes dmpmsa hash_files = ⟨[], .undefined⟩ ∨
    dmsProcessParallel_refcheck w o nodes dmpmsa hash_files =
      ⟨[], .died "ERROR: no match for reference sequence in tree.\n"⟩ ∨
    dmsProcessParallel_refcheck w o nodes dmpmsa hash_files =
      dmsProcessParallel_pipeline w o hash_files := by
  unfold dmsProcessParallel_refcheck
  split
  · split
    · exact Or.inl rfl
    · split
      · exact Or.inr (Or.inl rfl)
      · exact Or.inr (Or.inr rfl)
  · exact Or.inr (Or.inr rfl)

/-- The events of the pruning step that precede the reference check. -/
theorem prune_events_setup (pruned_names : List String) :
    ∀ e ∈ [Event.tm_prune] ++ pruned_warning_events pruned_names ++ [Event.tr_name_ancestors],
      e.isSetup = true := by
  intro e he
  unfold pruned_warning_events at he
  split at he <;> simp at he <;> (rcases he with rfl | rfl | rfl) <;> rfl

/-- From the pruning step on, a run of `dmsample` either ends before the
pipeline, without returning from `main`, or goes through the pipeline. -/
theorem dmsample_prune_cases (w : World) (o : DmsOptions) (source_mod : TreeModel)
    (dmpmsa : DMotifPmsaStruct) :
    ((∀ e ∈ (dmsample_prune w o source_mod dmpmsa).trace, e.isSetup = true) ∧
      ((dmsample_prune w o source_mod dmpmsa).outcome = .undefined ∨
        ∃ msg, (dmsample_prune w o source_mod dmpmsa).outcome = .died msg)) ∨
    ∃ pre, (∀ e ∈ pre, e.isSetup = true) ∧
      dmsample_prune w o source_mod dmpmsa = Run.after pre (dmsample_pipeline w o dmpmsa) := by
  unfold dmsample_prune
  simp only []
  split
  · exact Or.inl ⟨by simp [Event.isSetup], Or.inr ⟨_, rfl⟩⟩
  · have hpre := prune_events_setup (w.tm_prune source_mod dmpmsa.msa0).1
    rcases dmsample_refcheck_cases w o
      (w.tr_name_ancestors (w.tm_prune source_mod dmpmsa.msa0).2) dmpmsa with h | h | h
    · refine Or.inl ⟨?_, Or.inl ?_⟩
      · simp only [h, Run.after, List.append_nil]
        exact hpre
      · simp only [h, Run.after]
    · refine Or.inl ⟨?_, Or.inr ⟨"ERROR: no match for reference sequence in tree.\n", ?_⟩⟩
      · simp only [h, Run.after, List.append_nil]
        exact hpre
      · simp only [h, Run.after]
    · exact Or.inr ⟨_, hpre, by simp only [h]⟩

theorem dmsProcessParallel_prune_cases (w : World) (o : DppOptions) (source_mod : TreeModel)
    (dmpmsa : DMotifPmsaStruct) (hash_files : List CacheFile) :
    ((∀ e ∈ (dmsProcessParallel_prune w o source_mod dmpmsa hash_files).trace,
        e.isSetup = true) ∧
      ((dmsProcessParallel_prune w o source_mod dmpmsa hash_files).outcome = .undefined ∨
        ∃ msg, (dmsProcessParallel_prune w o source_mod dmpmsa hash_files).outcome =
          .died msg)) ∨
    ∃ pre, (∀ e ∈ pre, e.isSetup = true) ∧
      dmsProcessParallel_prune w o source_mod dmpmsa hash_files =
        Run.after pre (dmsProcessParallel_pipeline w o hash_files) := by
  unfold dmsProcessParallel_prune
  simp only []
  split
  · exact Or.inl ⟨by simp [Event.isSetup], Or.inr ⟨_, rfl⟩⟩
  · have hpre := prune_events_setup (w.tm_prune source_mod dmpmsa.msa0).1
    rcases dmsProcessParallel_refcheck_cases w o
      (w.tr_name_ancestors (w.tm_prune source_mod dmpmsa.msa0).2) dmpmsa hash_files
      with h | h | h
    · refine Or.inl ⟨?_, Or.inl ?_⟩
      · simp only [h, Run.after, List.append_nil]
        exact hpre
      · simp only [h, Run.after]
    · refine Or.inl ⟨?_, Or.inr ⟨"ERROR: no match for reference sequence in tree.\n", ?_⟩⟩
      · simp only [h, Run.after, List.append_nil]
        exact hpre
      · simp only [h, Run.after]
    · exact Or.inr ⟨_, hpre, by simp only [h]⟩

/-- A run of `dmsample` either ends before the pipeline, without returning
from `main`, or goes through the pipeline after setup events only. -/
theorem dmsample_main_cases_pipeline (w : World) (opts : List (Char × String))
    (args : List String) :
    ((∀ e ∈ (dmsample_main w opts args).trace, e.isSetup = true) ∧
      ((dmsample_main w opts args).outcome = .exited 0 ∨
        (dmsample_main w opts args).outcome = .undefined ∨
        ∃ msg, (dmsample_main w opts args).outcome = .died msg)) ∨
    ∃ pre o dmpmsa, (∀ e ∈ pre, e.isSetup = true) ∧
      dmsample_main w opts args = Run.after pre (dmsample_pipeline w o dmpmsa) := by
  rcases dmsample_main_cases_prune w opts args with ⟨h1, h2⟩ | ⟨pre, o, m, d, hpre, hrun⟩
  · refine Or.inl ⟨fun e he => isSetup_of_isInput e (h1 e he), ?_⟩
    rcases h2 with h2 | h2
    · exact Or.inl h2
    · exact Or.inr (Or.inr h2)
  · rcases dmsample_prune_cases w o m d with ⟨h1, h2⟩ | ⟨pre', hpre', hrun'⟩
    · refine Or.inl ⟨?_, Or.inr ?_⟩
      · intro e he
        rw [hrun, Run.after_trace, List.mem_append] at he
        rcases he with he | he
        · exact isSetup_of_isInput e (hpre e he)
        · exact h1 e he
      · rw [hrun, Run.after_outcome]
        exact h2
    · refine Or.inr ⟨pre ++ pre', o, d, ?_, ?_⟩
      · intro e he
        rw [List.mem_append] at he
        rcases he with he | he
        · exact isSetup_of_isInput e (hpre e he)
        · exact hpre' e he
      · rw [hrun, hrun', Run.after_after]

theorem dmsProcessParallel_check_model_cases (w : World) (o : DppOptions)
    (source_mod : TreeModel) (dmpmsa : DMotifPmsaStruct) (hash_files : List CacheFile) :
    ((dmsProcessParallel_check_model w o source_mod dmpmsa hash_files).trace = [] ∧
      ((dmsProcessParallel_check_model w o source_mod dmpmsa hash_files).outcome =
          .died "ERROR: rate variation not currently supported.\n" ∨
        (dmsProcessParallel_check_model w o source_mod dmpmsa hash_files).outcome =
          .died "ERROR: only single nucleotide models are currently supported.\n")) ∨
    (¬ source_mod.nratecats > 1 ∧ ¬ source_mod.order > 0 ∧
      dmsProcessParallel_check_model w o source_mod dmpmsa hash_files =
        Run.after (reversibility_warning source_mod)
          (dmsProcessParallel_prune w o source_mod dmpmsa hash_files)) := by
  unfold dmsProcessParallel_check_model
  split
  · exact Or.inl ⟨rfl, Or.inl rfl⟩
  · split
    · exact Or.inl ⟨rfl, Or.inr rfl⟩
    · rename_i h1 h2
      exact Or.inr ⟨h1, h2, rfl⟩

/-- A run of `dmsProcessParallel` either ends before the pipeline, without
returning from `main`, or goes through the pipeline after setup events
only. -/
theorem dmsProcessParallel_main_cases_pipeline (w : World) (opts : List (Char × String))
    (args : List String) :
    ((∀ e ∈ (dmsProcessParallel_main w opts args).trace, e.isSetup = true) ∧
      ((dmsProcessParallel_main w opts args).outcome = .exited 0 ∨
        (dmsProcessParallel_main w opts args).outcome = .undefined ∨
        ∃ msg, (dmsProcessParallel_main w opts args).outcome = .died msg)) ∨
    ∃ pre o hash_files, (∀ e ∈ pre, e.isSetup = true) ∧
      dmsProcessParallel_main w opts args =
        Run.after pre (dmsProcessParallel_pipeline w o hash_files) := by
  rcases dmsProcessParallel_main_cases w opts args with
    ⟨h1, h2⟩ | ⟨pre, o, ha, a1, a2, a3, m, d, _, _, hpre, hrun⟩
  · refine Or.inl ⟨fun e he => isSetup_of_isInput e (h1 e he).1, ?_⟩
    rcases h2 with h2 | h2
    · exact Or.inl h2
    · exact Or.inr (Or.inr h2)
  · have hpre' : ∀ e ∈ pre, e.isSetup = true := fun e he => isSetup_of_isInput e (hpre e he)
    rcases dmsProcessParallel_check_model_cases w o m d (w.hash_files ha) with
      ⟨ht, hout⟩ | ⟨_, _, hrun'⟩
    · refine Or.inl ⟨?_, Or.inr (Or.inr ?_)⟩
      · intro e he
        rw [hrun, Run.after_trace, ht, List.append_nil] at he
        exact hpre' e he
      · rw [hrun, Run.after_outcome]
        rcases hout with h | h
        · exact ⟨_, h⟩
        · exact ⟨_, h⟩
    · have hrev : ∀ e ∈ reversibility_warning m, e.isSetup = true :=
        fun e he => isSetup_of_isInput e (reversibility_warning_input m e he)
      rcases dmsProcessParallel_prune_cases w o m d (w.hash_files ha) with
        ⟨h1, h2⟩ | ⟨pre2, hpre2, hrun2⟩
      · refine Or.inl ⟨?_, Or.inr ?_⟩
        · intro e he
          rw [hrun, hrun', Run.after_after, Run.after_trace] at he
          simp only [List.mem_append] at he
          rcases he with (he | he) | he
          · exact hpre' e he
          · exact hrev e he
          · exact h1 e he
        · rw [hrun, hrun', Run.after_outcome, Run.after_outcome]
          exact h2
      · refine Or.inr ⟨pre ++ (reversibility_warning m ++ pre2), o, w.hash_files ha, ?_, ?_⟩
        · intro e he
          simp only [List.mem_append] at he
          rcases he with he | he | he
          · exact hpre' e he
          · exact hrev e he
          · exact hpre2 e he
        · rw [hrun, hrun', hrun2, Run.after_after, Run.after_after, List.append_assoc]

/-! ## The pipeline -/

theorem dmsample_cleanup_outcome (w : World) (o : DmsOptions) (m : Merged) :
    (dmsample_cleanup w o m).outcome = .returned 0 := rfl

theorem dmsample_cleanup_output (w : World) (o : DmsOptions) (m : Merged) :
    ∀ e ∈ (dmsample_cleanup w o m).trace, e.isOutput = true := by
  intro e he
  unfold dmsample_cleanup at he
  simp only [List.mem_append, List.mem_singleton] at he
  rcases he with he | rfl
  · split at he
    · split at he
      · rw [dmsample_rm_loop_eq _ _ _ _ _ _ (by omega)] at he
        split at he
        · simp at he
          obtain ⟨f, _, rfl⟩ := he
          rfl
        · simp at he
      · simp at he
    · simp at he
  · rfl

theorem dmsample_output_outcome (w : World) (o : DmsOptions) (m : Merged) :
    (dmsample_output w o m).outcome = .returned 0 := by
  unfold dmsample_output
  simp only []
  split <;> rfl

theorem dmsample_priors_free_output (o : DmsOptions) :
    ∀ e ∈ (if o.precomputed_hash = false then
        dmsample_priors_free_loop o.xi_mode 5 0 [] ++ [Event.priors_free] else []),
      e.isOutput = true := by
  intro e he
  split at he
  · rw [dmsample_priors_free_loop_eq] at he
    simp at he
    rcases he with ⟨i, _, rfl⟩ | rfl <;> rfl
  · simp at he

theorem dmsample_output_output (w : World) (o : DmsOptions) (m : Merged) :
    ∀ e ∈ (dmsample_output w o m).trace, e.isOutput = true := by
  have hfree := dmsample_priors_free_output o
  have hclean := dmsample_cleanup_output w o m
  intro e he
  unfold dmsample_output at he
  simp only [] at he
  split at he
  · simp only [Run.after, List.mem_append, List.mem_singleton] at he
    rcases he with (he | rfl) | he
    · exact hfree e he
    · rfl
    · exact hclean e he
  · simp only [Run.after, dmsample_emit_eq, List.mem_append, List.mem_cons, List.mem_singleton,
      List.mem_map, List.not_mem_nil, or_false] at he
    rcases he with (((he | rfl | rfl) | ⟨k, _, rfl⟩) | rfl | rfl) | he
    · exact hfree e he
    · rfl
    · rfl
    · rfl
    · rfl
    · rfl
    · exact hclean e he

theorem dmsample_pipeline_outcome (w : World) (o : DmsOptions) (dmpmsa : DMotifPmsaStruct) :
    (dmsample_pipeline w o dmpmsa).outcome = .returned 0 := by
  unfold dmsample_pipeline
  simp only [Run.after_outcome, dmsample_output_outcome]

theorem dmsProcessParallel_pipeline_outcome (w : World) (o : DppOptions)
    (hash_files : List CacheFile) :
    (dmsProcessParallel_pipeline w o hash_files).outcome = .returned 0 := by
  unfold dmsProcessParallel_pipeline
  simp only []
  split <;> rfl

theorem dmsample_read_tmp_events (w : World) (o : DmsOptions) :
    (dmsample_read_tmp w o).1 = [] ∨ (dmsample_read_tmp w o).1 = [Event.dms_read_tmp_from_file] := by
  unfold dmsample_read_tmp
  split
  · exact Or.inr rfl
  · exact Or.inl rfl

/-- The acquisition step ends with its one merge or read event; nothing
before it is a merge, a read or an emission of features. -/
theorem dmsample_acquire_split (w : World) (o : DmsOptions) (dmpmsa : DMotifPmsaStruct) :
    ∃ A M, (dmsample_acquire w o dmpmsa).1 = A ++ [M] ∧ M.isMergeOrRead = true ∧
      M.isSampler = false ∧
      (∀ e ∈ A, e.isMergeOrRead = false ∧ e.isEmit = false) ∧
      (o.precomputed_hash = true → ∀ e ∈ A, e.isSampler = false ∧ e.isEmissions = false) := by
  unfold dmsample_acquire
  simp only []
  rcases dmsample_read_tmp_events w o with ht | ht
  all_goals
    split
    · rename_i hp
      refine ⟨_, _, rfl, rfl, rfl, ?_, ?_⟩
      · intro e he
        simp only [ht, dmsample_sampling_events, List.mem_append, List.mem_cons,
          List.mem_singleton, List.not_mem_nil, false_or, or_false] at he
        rcases he with rfl | rfl | rfl | rfl | rfl | rfl | rfl | rfl | rfl | rfl <;>
          exact ⟨rfl, rfl⟩
      · intro hq
        rw [hq] at hp
        cases hp
    · split
      · refine ⟨_, _, rfl, rfl, rfl, ?_, ?_⟩
        · intro e he
          simp only [ht, List.mem_append, List.mem_cons, List.mem_singleton, List.not_mem_nil,
            false_or, or_false] at he
          rcases he with rfl | rfl <;> exact ⟨rfl, rfl⟩
        · intro _ e he
          simp only [ht, List.mem_append, List.mem_cons, List.mem_singleton, List.not_mem_nil,
            false_or, or_false] at he
          rcases he with rfl | rfl <;> exact ⟨rfl, rfl⟩
      · refine ⟨_, _, rfl, rfl, rfl, ?_, ?_⟩
        · intro e he
          simp only [ht, List.mem_append, List.mem_cons, List.mem_singleton, List.not_mem_nil,
            false_or, or_false] at he
          rcases he with rfl | rfl <;> exact ⟨rfl, rfl⟩
        · intro _ e he
          simp only [ht, List.mem_append, List.mem_cons, List.mem_singleton, List.not_mem_nil,
            false_or, or_false] at he
          rcases he with rfl | rfl <;> exact ⟨rfl, rfl⟩

theorem dmsample_init_events_class (o : DmsOptions) :
    ∀ e ∈ dmsample_init_events o, e.isMergeOrRead = false ∧ e.isEmit = false ∧
      e.isSampler = false ∧ e.isEmissions = false := by
  intro e he
  unfold dmsample_init_events at he
  split at he <;> simp at he <;> (rcases he with rfl | rfl | rfl | rfl) <;>
    exact ⟨rfl, rfl, rfl, rfl⟩

theorem isSetup_class (e : Event) (h : e.isSetup = true) :
    e.isMergeOrRead = false ∧ e.isEmit = false ∧ e.isSampler = false ∧
      e.isEmissions = false := by
  cases e <;> simp_all [Event.isSetup, Event.isMergeOrRead, Event.isEmit, Event.isSampler,
    Event.isEmissions]

theorem isOutput_class (e : Event) (h : e.isOutput = true) :
    e.isMergeOrRead = false ∧ e.isSampler = false ∧ e.isEmissions = false := by
  cases e <;> simp_all [Event.isOutput, Event.isMergeOrRead, Event.isSampler,
    Event.isEmissions]

theorem from_first_append_left (p : Event → Bool) (l1 l2 : List Event)
    (h : ∀ e ∈ l1, p e = false) : from_first p (l1 ++ l2) = from_first p l2 := by
  induction l1 with
  | nil => rfl
  | cons a l1 ih =>
    have ha : p a = false := h a (List.mem_cons_self _ _)
    have := ih (fun e he => h e (List.mem_cons_of_mem _ he))
    simp only [from_first, List.cons_append, List.dropWhile_cons, ha, Bool.not_false,
      if_true] at this ⊢
    exact this

theorem from_first_cons_pos (p : Event → Bool) (a : Event) (l : List Event)
    (h : p a = true) : from_first p (a :: l) = a :: l := by
  simp [from_first, List.dropWhile_cons, h]

theorem before_first_append_left (p : Event → Bool) (l1 l2 : List Event)
    (h : ∀ e ∈ l1, p e = false) : before_first p (l1 ++ l2) = l1 ++ before_first p l2 := by
  induction l1 with
  | nil => rfl
  | cons a l1 ih =>
    have ha : p a = false := h a (List.mem_cons_self _ _)
    have := ih (fun e he => h e (List.mem_cons_of_mem _ he))
    simp only [before_first, List.cons_append, List.takeWhile_cons, ha, Bool.not_false,
      if_true] at this ⊢
    rw [this]

theorem before_first_cons_pos (p : Event → Bool) (a : Event) (l : List Event)
    (h : p a = true) : before_first p (a :: l) = [] := by
  simp [before_first, List.takeWhile_cons, h]

theorem from_first_eq_nil (p : Event → Bool) (l : List Event) (h : ∀ e ∈ l, p e = false) :
    from_first p l = [] := by
  have := from_first_append_left p l [] h
  simpa [from_first] using this

theorem before_first_eq_self (p : Event → Bool) (l : List Event)
    (h : ∀ e ∈ l, p e = false) : before_first p l = l := by
  have := before_first_append_left p l [] h
  simpa [before_first] using this

/-- Around the first merge or read event of a run of `dmsample`: no sampler
call from it on, no feature emission before it. -/
theorem dmsample_main_order (w : World) (opts : List (Char × String)) (args : List String) :
    (∀ e ∈ from_first Event.isMergeOrRead (dmsample_main w opts args).trace,
      e.isSampler = false) ∧
    (∀ e ∈ before_first Event.isMergeOrRead (dmsample_main w opts args).trace,
      e.isEmit = false) := by
  rcases dmsample_main_cases_pipeline w opts args with ⟨h1, _⟩ | ⟨pre, o, d, hpre, hrun⟩
  · have hnone : ∀ e ∈ (dmsample_main w opts args).trace, e.isMergeOrRead = false :=
      fun e he => (isSetup_class e (h1 e he)).1
    rw [from_first_eq_nil _ _ hnone, before_first_eq_self _ _ hnone]
    exact ⟨by simp, fun e he => (isSetup_class e (h1 e he)).2.1⟩
  · obtain ⟨A, M, hA, hM, hMs, hAc, _⟩ := dmsample_acquire_split w o d
    have htrace : (dmsample_main w opts args).trace =
        (pre ++ dmsample_init_events o ++ A) ++
          (M :: (dmsample_output w o (dmsample_acquire w o d).2).trace) := by
      rw [hrun]
      simp [dmsample_pipeline, Run.after, hA]
    have hbefore : ∀ e ∈ pre ++ dmsample_init_events o ++ A,
        e.isMergeOrRead = false ∧ e.isEmit = false := by
      intro e he
      simp only [List.mem_append] at he
      rcases he with (he | he) | he
      · exact ⟨(isSetup_class e (hpre e he)).1, (isSetup_class e (hpre e he)).2.1⟩
      · exact ⟨(dmsample_init_events_class o e he).1, (dmsample_init_events_class o e he).2.1⟩
      · exact hAc e he
    rw [htrace, from_first_append_left _ _ _ (fun e he => (hbefore e he).1),
      before_first_append_left _ _ _ (fun e he => (hbefore e he).1),
      from_first_cons_pos _ _ _ hM, before_first_cons_pos _ _ _ hM, List.append_nil]
    refine ⟨?_, fun e he => (hbefore e he).2⟩
    intro e he
    rcases List.mem_cons.mp he with rfl | he
    · exact hMs
    · exact (isOutput_class e (dmsample_output_output w o _ e he)).2.1

/-- The sampler, merge and read events of the pipeline of `dmsample`, in
order, on each of its three paths. -/
theorem dmsample_pipeline_steps (w : World) (o : DmsOptions) (dmpmsa : DMotifPmsaStruct) :
    (dmsample_pipeline w o dmpmsa).trace.filter (fun e => e.isSampler || e.isMergeOrRead) =
      if o.precomputed_hash = false then
        [Event.dms_sample_paths_pthr,
         Event.dms_uncache (w.dms_sample_paths_pthr.map CacheFile.name)
           (max (10 * dmpmsa.nblocks) 10000) (2 * w.dm_k + 2) 1]
      else
        match (dmsample_read_tmp w o).2 with
        | none => [Event.dms_read_hash (2 * w.dm_k + 2)]
        | some files =>
          [Event.dms_uncache (files.map CacheFile.name) (max (10 * dmpmsa.nblocks) 10000)
            (2 * w.dm_k + 2) 0] := by
  have hinit : (dmsample_init_events o).filter (fun e => e.isSampler || e.isMergeOrRead) = [] := by
    rw [List.filter_eq_nil_iff]
    intro e he
    have := dmsample_init_events_class o e he
    simp [this.1, this.2.2.1]
  have hout : ∀ m, (dmsample_output w o m).trace.filter
      (fun e => e.isSampler || e.isMergeOrRead) = [] := by
    intro m
    rw [List.filter_eq_nil_iff]
    intro e he
    have := isOutput_class e (dmsample_output_output w o m e he)
    simp [this.1, this.2.1]
  have htmp : (dmsample_read_tmp w o).1.filter (fun e => e.isSampler || e.isMergeOrRead) = [] := by
    rcases dmsample_read_tmp_events w o with h | h <;> rw [h] <;> rfl
  simp only [dmsample_pipeline, Run.after, List.filter_append, hinit, hout, List.nil_append,
    List.append_nil]
  unfold dmsample_acquire
  simp only []
  split
  · simp only [List.filter_append, htmp, List.nil_append]
    rfl
  · split
    · rename_i h
      simp only [List.filter_append, htmp, List.nil_append, h]
      rfl
    · rename_i files h
      simp only [List.filter_append, htmp, List.nil_append, h]
      rfl

theorem dmsample_cleanup_no_feat (w : World) (o : DmsOptions) (m : Merged) :
    (dmsample_cleanup w o m).trace.filter Event.isFeatCall = [] := by
  rw [List.filter_eq_nil_iff]
  intro e he
  unfold dmsample_cleanup at he
  simp only [List.mem_append, List.mem_singleton] at he
  rcases he with he | rfl
  · split at he
    · split at he
      · rw [dmsample_rm_loop_eq _ _ _ _ _ _ (by omega)] at he
        split at he
        · simp at he
          obtain ⟨f, _, rfl⟩ := he
          simp [Event.isFeatCall]
        · simp at he
      · simp at he
    · simp at he
  · simp [Event.isFeatCall]

theorem dmsample_priors_free_no_feat (o : DmsOptions) :
    (if o.precomputed_hash = false then
        dmsample_priors_free_loop o.xi_mode 5 0 [] ++ [Event.priors_free] else []).filter
      Event.isFeatCall = [] := by
  rw [List.filter_eq_nil_iff]
  intro e he
  split at he
  · rw [dmsample_priors_free_loop_eq] at he
    simp at he
    rcases he with ⟨i, _, rfl⟩ | rfl <;> simp [Event.isFeatCall]
  · simp at he

theorem filter_isFeatCall_map (t : CountTable) (keys : List PathKey) (ns si ri : Int) :
    (keys.map (fun key => Event.dms_motif_as_gff_feat key (hsh_get t key) ns si ri)).filter
      Event.isFeatCall =
    keys.map (fun key => Event.dms_motif_as_gff_feat key (hsh_get t key) ns si ri) := by
  rw [List.filter_eq_self]
  intro e he
  obtain ⟨k, _, rfl⟩ := List.mem_map.mp he
  rfl

/-- The calls of `dms_motif_as_gff_feat` made by the output step of
`dmsample`. -/
theorem dmsample_output_feat_calls (w : World) (o : DmsOptions) (m : Merged) :
    (dmsample_output w o m).trace.filter Event.isFeatCall =
      if o.hash_f ≠ none ∧ o.precomputed_hash = false then []
      else (hsh_keys m.path_counts).map (fun key =>
        Event.dms_motif_as_gff_feat key (hsh_get m.path_counts key) m.nsamples
          o.sample_interval o.refidx) := by
  have hfree := dmsample_priors_free_no_feat o
  have hclean := dmsample_cleanup_no_feat w o m
  unfold dmsample_output
  simp only []
  split
  · simp only [Run.after, List.filter_append, hfree, hclean, List.nil_append, List.append_nil]
    rfl
  · simp only [Run.after, List.filter_append, hfree, hclean, List.nil_append, List.append_nil,
      dmsample_emit_eq, filter_isFeatCall_map]
    simp [List.filter, Event.isFeatCall]

/-- The calls of `dms_motif_as_gff_feat` made by the pipeline of
`dmsProcessParallel`. -/
theorem dmsProcessParallel_pipeline_feat_calls (w : World) (o : DppOptions)
    (hash_files : List CacheFile) :
    (dmsProcessParallel_pipeline w o hash_files).trace.filter Event.isFeatCall =
      match o.dump_f with
      | some _ => []
      | none => (hsh_keys (dms_uncache hash_files 0 0).1).map (fun key =>
        Event.dms_motif_as_gff_feat key (hsh_get (dms_uncache hash_files 0 0).1 key)
          (dms_uncache hash_files 0 0).2 o.sample_interval o.refidx) := by
  unfold dmsProcessParallel_pipeline
  simp only []
  split
  · rfl
  · simp only [List.filter_append, dmsProcessParallel_emit_eq, filter_isFeatCall_map,
      dmsProcessParallel_merge]
    simp [List.filter, Event.isFeatCall]

/-! ## Options and output files -/

theorem opened_for_writing_append (a b : List Event) :
    opened_for_writing (a ++ b) = opened_for_writing a ++ opened_for_writing b := by
  simp [opened_for_writing]

/-- A pass through the option switch of `dmsample` that does not end the
process opens a file for writing exactly for `-D` and `-l`, and writes
nothing to standard output. -/
theorem dmsample_option_ok_effects (w : World) (o : DmsOptions) (c : Char) (optarg : String)
    (o' : DmsOptions) (h : (dmsample_option w o c optarg).2 = .ok o') :
    opened_for_writing (dmsample_option w o c optarg).1 =
      (if c = 'D' ∨ c = 'l' then [optarg] else []) ∧
    ∀ e ∈ (dmsample_option w o c optarg).1, e.isStdout = false := by
  unfold dmsample_option at h ⊢
  split at h
  all_goals simp only [Step.ok, Step.die, with_fopen] at h ⊢
  all_goals (repeat' split at h)
  all_goals simp at h
  all_goals
    first
    | (simp_all [opened_for_writing, Event.openedForWriting, Event.isStdout]; done)
    | (simp_all [opened_for_writing, Event.openedForWriting, Event.isStdout]
       split <;> simp)

theorem dmsample_getopt_loop_ok_effects (w : World) (opts : List (Char × String))
    (o o' : DmsOptions) (h : (dmsample_getopt_loop w opts o).2 = .ok o') :
    opened_for_writing (dmsample_getopt_loop w opts o).1 =
      (opts.filter (fun co => decide (co.1 = 'D' ∨ co.1 = 'l'))).map Prod.snd ∧
    ∀ e ∈ (dmsample_getopt_loop w opts o).1, e.isStdout = false := by
  induction opts generalizing o with
  | nil => simp [dmsample_getopt_loop, Step.ok, opened_for_writing]
  | cons co opts ih =>
    obtain ⟨c, optarg⟩ := co
    have hopt := dmsample_option_ok_effects w o c optarg
    unfold dmsample_getopt_loop at h ⊢
    split at h
    · cases h
    · rename_i evs o1 heq
      have h1 := hopt o1 (by rw [heq])
      have h2 := ih o1 h
      rw [heq] at h1
      simp only [heq, opened_for_writing_append, h1.1, h2.1, List.filter_cons]
      refine ⟨?_, ?_⟩
      · by_cases hc : c = 'D' ∨ c = 'l' <;> simp [hc]
      · intro e he
        rcases List.mem_append.mp he with he | he
        · exact h1.2 e he
        · exact h2.2 e he

/-- A pass through the option switch of `dmsProcessParallel` that does not
end the process opens a file for writing exactly for `-D`, and writes
nothing to standard output. -/
theorem dmsProcessParallel_option_ok_effects (w : World) (o : DppOptions) (c : Char)
    (optarg : String) (o' : DppOptions)
    (h : (dmsProcessParallel_option w o c optarg).2 = .ok o') :
    opened_for_writing (dmsProcessParallel_option w o c optarg).1 =
      (if c = 'D' then [optarg] else []) ∧
    ∀ e ∈ (dmsProcessParallel_option w o c optarg).1, e.isStdout = false := by
  unfold dmsProcessParallel_option at h ⊢
  split at h
  all_goals simp only [Step.ok, Step.die, with_fopen] at h ⊢
  all_goals (repeat' split at h)
  all_goals simp at h
  all_goals simp_all [opened_for_writing, Event.openedForWriting, Event.isStdout]

theorem dmsProcessParallel_getopt_loop_ok_effects (w : World) (opts : List (Char × String))
    (o o' : DppOptions) (h : (dmsProcessParallel_getopt_loop w opts o).2 = .ok o') :
    opened_for_writing (dmsProcessParallel_getopt_loop w opts o).1 =
      (opts.filter (fun co => decide (co.1 = 'D'))).map Prod.snd ∧
    ∀ e ∈ (dmsProcessParallel_getopt_loop w opts o).1, e.isStdout = false := by
  induction opts generalizing o with
  | nil => simp [dmsProcessParallel_getopt_loop, Step.ok, opened_for_writing]
  | cons co opts ih =>
    obtain ⟨c, optarg⟩ := co
    have hopt := dmsProcessParallel_option_ok_effects w o c optarg
    unfold dmsProcessParallel_getopt_loop at h ⊢
    split at h
    · cases h
    · rename_i evs o1 heq
      have h1 := hopt o1 (by rw [heq])
      have h2 := ih o1 h
      rw [heq] at h1
      simp only [heq, opened_for_writing_append, h1.1, h2.1, List.filter_cons]
      refine ⟨?_, ?_⟩
      · by_cases hc : c = 'D' <;> simp [hc]
      · intro e he
        rcases List.mem_append.mp he with he | he
        · exact h1.2 e he
        · exact h2.2 e he

theorem dmsample_check_args_bad_count (w : World) (o : DmsOptions) (args : List String)
    (h : args.length ≠ 4) :
    dmsample_check_args w o args =
      ⟨[], .died "Four arguments required.  Try 'dmsample -h'.\n"⟩ := by
  unfold dmsample_check_args
  split
  · simp at h
  · rfl

theorem dmsProcessParallel_check_args_bad_count (w : World) (o : DppOptions)
    (args : List String) (h : args.length ≠ 4) :
    dmsProcessParallel_check_args w o args =
      ⟨[], .died "Four arguments required.  Try 'dmsProcessParallel -h'.\n"⟩ := by
  unfold dmsProcessParallel_check_args
  split
  · simp at h
  · rfl

/-! ## The checks of the tree model, the pruning step, the reference check -/

theorem dmsample_read_model_bad (w : World) (o : DmsOptions)
    (msa_fname mod_fname motif_fname prior_fname : String) (source_mod : TreeModel)
    (hmod : w.tm_new_from_file mod_fname = .ok source_mod)
    (hbad : source_mod.nratecats > 1 ∨ source_mod.order > 0) :
    dmsample_read_model w o msa_fname mod_fname motif_fname prior_fname =
        ⟨[Event.print_stderr ("Reading tree model from " ++ mod_fname ++ "...\n"),
          Event.tm_new_from_file], .died "ERROR: rate variation not currently supported.\n"⟩ ∨
    dmsample_read_model w o msa_fname mod_fname motif_fname prior_fname =
        ⟨[Event.print_stderr ("Reading tree model from " ++ mod_fname ++ "...\n"),
          Event.tm_new_from_file],
          .died "ERROR: only single nucleotide models are currently supported.\n"⟩ := by
  unfold dmsample_read_model
  simp only [hmod]
  by_cases h1 : source_mod.nratecats > 1
  · exact Or.inl (by simp [h1])
  · have h2 : source_mod.order > 0 := hbad.resolve_left h1
    exact Or.inr (by simp [h1, h2])

theorem dmsProcessParallel_check_model_bad (w : World) (o : DppOptions)
    (source_mod : TreeModel) (dmpmsa : DMotifPmsaStruct) (hash_files : List CacheFile)
    (hbad : source_mod.nratecats > 1 ∨ source_mod.order > 0) :
    dmsProcessParallel_check_model w o source_mod dmpmsa hash_files =
        ⟨[], .died "ERROR: rate variation not currently supported.\n"⟩ ∨
    dmsProcessParallel_check_model w o source_mod dmpmsa hash_files =
        ⟨[], .died "ERROR: only single nucleotide models are currently supported.\n"⟩ := by
  unfold dmsProcessParallel_check_model
  by_cases h1 : source_mod.nratecats > 1
  · exact Or.inl (by simp [h1])
  · have h2 : source_mod.order > 0 := hbad.resolve_left h1
    exact Or.inr (by simp [h1, h2])

theorem dmsample_refcheck_outcome (w : World) (o : DmsOptions) (nodes : List TreeNode)
    (dmpmsa : DMotifPmsaStruct) :
    (dmsample_refcheck w o nodes dmpmsa).outcome ≠
      .died "ERROR: no match for leaves of tree in alignment (leaf names must match alignment names).\n" := by
  rcases dmsample_refcheck_cases w o nodes dmpmsa with h | h | h
  · rw [h]; simp
  · rw [h]; decide
  · rw [h, dmsample_pipeline_outcome]; simp

theorem dmsProcessParallel_refcheck_outcome (w : World) (o : DppOptions)
    (nodes : List TreeNode) (dmpmsa : DMotifPmsaStruct) (hash_files : List CacheFile) :
    (dmsProcessParallel_refcheck w o nodes dmpmsa hash_files).outcome ≠
      .died "ERROR: no match for leaves of tree in alignment (leaf names must match alignment names).\n" := by
  rcases dmsProcessParallel_refcheck_cases w o nodes dmpmsa hash_files with h | h | h
  · rw [h]; simp
  · rw [h]; decide
  · rw [h, dmsProcessParallel_pipeline_outcome]; simp

theorem leaves_of_nnodes (L n : Nat) (hL : 1 ≤ L) (hn : n = 2 * L - 1) :
    Int.tdiv ((n : Int) + 1) 2 = L := by
  have h : (n : Int) + 1 = 2 * (L : Int) := by omega
  rw [h, Int.mul_tdiv_cancel_left _ (by decide)]

/-- The pruning step of `dmsample` on a tree of `L` leaves: it dies when all
`L` leaves were pruned, and otherwise goes on with the reference check. -/
theorem dmsample_prune_eq (w : World) (o : DmsOptions) (source_mod : TreeModel)
    (dmpmsa : DMotifPmsaStruct) (L : Nat) (hL : 1 ≤ L)
    (hn : source_mod.nodes.length = 2 * L - 1) :
    dmsample_prune w o source_mod dmpmsa =
      if (w.tm_prune source_mod dmpmsa.msa0).1.length = L then
        ⟨[Event.tm_prune],
          .died "ERROR: no match for leaves of tree in alignment (leaf names must match alignment names).\n"⟩
      else
        Run.after
          ([Event.tm_prune] ++ pruned_warning_events (w.tm_prune source_mod dmpmsa.msa0).1 ++
            [Event.tr_name_ancestors])
          (dmsample_refcheck w o (w.tr_name_ancestors (w.tm_prune source_mod dmpmsa.msa0).2)
            dmpmsa) := by
  unfold dmsample_prune
  simp only [leaves_of_nnodes L _ hL hn, Nat.cast_inj]

theorem dmsProcessParallel_prune_eq (w : World) (o : DppOptions) (source_mod : TreeModel)
    (dmpmsa : DMotifPmsaStruct) (hash_files : List CacheFile) (L : Nat) (hL : 1 ≤ L)
    (hn : source_mod.nodes.length = 2 * L - 1) :
    dmsProcessParallel_prune w o source_mod dmpmsa hash_files =
      if (w.tm_prune source_mod dmpmsa.msa0).1.length = L then
        ⟨[Event.tm_prune],
          .died "ERROR: no match for leaves of tree in alignment (leaf names must match alignment names).\n"⟩
      else
        Run.after
          ([Event.tm_prune] ++ pruned_warning_events (w.tm_prune source_mod dmpmsa.msa0).1 ++
            [Event.tr_name_ancestors])
          (dmsProcessParallel_refcheck w o
            (w.tr_name_ancestors (w.tm_prune source_mod dmpmsa.msa0).2) dmpmsa hash_files) := by
  unfold dmsProcessParallel_prune
  simp only [leaves_of_nnodes L _ hL hn, Nat.cast_inj]

/-- The reference check of `dmsample` with a positive `refidx` that indexes a
sequence of block 0. -/
theorem dmsample_refcheck_eq (w : World) (o : DmsOptions) (nodes : List TreeNode)
    (dmpmsa : DMotifPmsaStruct) (refname : String) (hpos : o.refidx > 0)
    (hname : dmpmsa.msa0.names[(o.refidx - 1).toNat]? = some refname) :
    dmsample_refcheck w o nodes dmpmsa =
      if nodes.any (fun n => decide (n.name = refname)) = true then dmsample_pipeline w o dmpmsa
      else ⟨[], .died "ERROR: no match for reference sequence in tree.\n"⟩ := by
  unfold dmsample_refcheck
  rw [ref_loop_eq nodes _ _ refname hname _ _ _ (by omega)]
  simp only [hpos, if_true, List.drop_zero, Bool.false_or]
  cases List.any nodes (fun n => decide (n.name = refname)) <;> simp

theorem dmsProcessParallel_refcheck_eq (w : World) (o : DppOptions) (nodes : List TreeNode)
    (dmpmsa : DMotifPmsaStruct) (hash_files : List CacheFile) (refname : String)
    (hpos : o.refidx > 0)
    (hname : dmpmsa.msa0.names[(o.refidx - 1).toNat]? = some refname) :
    dmsProcessParallel_refcheck w o nodes dmpmsa hash_files =
      if nodes.any (fun n => decide (n.name = refname)) = true then
        dmsProcessParallel_pipeline w o hash_files
      else ⟨[], .died "ERROR: no match for reference sequence in tree.\n"⟩ := by
  unfold dmsProcessParallel_refcheck
  rw [ref_loop_eq nodes _ _ refname hname _ _ _ (by omega)]
  simp only [hpos, if_true, List.drop_zero, Bool.false_or]
  cases List.any nodes (fun n => decide (n.name = refname)) <;> simp

/-! ## Deletion of the cache files -/

theorem snprintf_fits (size : Nat) (text : String) (h : text.length < size) :
    snprintf size text = text := by
  unfold snprintf
  have hlen : text.data.length ≤ size - 1 := by
    have : text.data.length = text.length := rfl
    omega
  rw [List.take_of_length_le hlen]

theorem isSetup_not_system (e : Event) (h : e.isSetup = true) :
    e.isSystem = false ∧ e.isUncache = false := by
  cases e <;> simp_all [Event.isSetup, Event.isSystem, Event.isUncache]

theorem dmsample_init_events_not_system (o : DmsOptions) :
    ∀ e ∈ dmsample_init_events o, e.isSystem = false ∧ e.isUncache = false := by
  intro e he
  unfold dmsample_init_events at he
  simp only [List.mem_append, List.mem_cons, List.mem_singleton, List.not_mem_nil,
    or_false] at he
  rcases he with (rfl | he) | rfl | rfl
  · exact ⟨rfl, rfl⟩
  · split at he
    · simp only [List.mem_singleton] at he
      subst he
      exact ⟨rfl, rfl⟩
    · simp at he
  · exact ⟨rfl, rfl⟩
  · exact ⟨rfl, rfl⟩

/-- The acquisition step ends with its merge or read event; nothing in it
deletes a file, nothing before its last event is a merge, and the last event
is the merge except on the path that reads one hash dump. -/
theorem dmsample_acquire_uncache (w : World) (o : DmsOptions) (dmpmsa : DMotifPmsaStruct) :
    ∃ A M, (dmsample_acquire w o dmpmsa).1 = A ++ [M] ∧
      (∀ e ∈ A, e.isSystem = false ∧ e.isUncache = false) ∧ M.isSystem = false ∧
      (M.isUncache = true ∨ o.precomputed_hash = true) := by
  unfold dmsample_acquire
  simp only []
  rcases dmsample_read_tmp_events w o with ht | ht
  all_goals
    split
    · refine ⟨_, _, rfl, ?_, rfl, Or.inl rfl⟩
      intro e he
      simp only [ht, dmsample_sampling_events, List.mem_append, List.mem_cons,
        List.mem_singleton, List.not_mem_nil, false_or, or_false] at he
      rcases he with rfl | rfl | rfl | rfl | rfl | rfl | rfl | rfl | rfl | rfl <;>
        exact ⟨rfl, rfl⟩
    · rename_i hp
      have hp' : o.precomputed_hash = true := by
        cases h : o.precomputed_hash
        · exact absurd h hp
        · rfl
      split
      · refine ⟨_, _, rfl, ?_, rfl, Or.inr hp'⟩
        intro e he
        simp only [ht, List.mem_append, List.mem_cons, List.mem_singleton, List.not_mem_nil,
          false_or, or_false] at he
        rcases he with rfl | rfl <;> exact ⟨rfl, rfl⟩
      · refine ⟨_, _, rfl, ?_, rfl, Or.inl rfl⟩
        intro e he
        simp only [ht, List.mem_append, List.mem_cons, List.mem_singleton, List.not_mem_nil,
          false_or, or_false] at he
        rcases he with rfl | rfl <;> exact ⟨rfl, rfl⟩

theorem dmsample_acquire_cache_files (w : World) (o : DmsOptions) (dmpmsa : DMotifPmsaStruct)
    (h : o.precomputed_hash = false) :
    (dmsample_acquire w o dmpmsa).2.cache_files = some w.dms_sample_paths_pthr := by
  unfold dmsample_acquire
  simp only [h, if_true]

theorem filter_isSystem_rm (w : World) (files : List CacheFile) :
    (files.map (rm_command w)).filter Event.isSystem = files.map (rm_command w) := by
  rw [List.filter_eq_self]
  intro e he
  obtain ⟨f, _, rfl⟩ := List.mem_map.mp he
  rfl

theorem dmsample_cleanup_systems (w : World) (o : DmsOptions) (m : Merged) :
    (dmsample_cleanup w o m).trace.filter Event.isSystem =
      if o.precomputed_hash = false ∧ o.hash_debug = false then
        (m.cache_files.getD []).map (rm_command w)
      else [] := by
  have hrm := filter_isSystem_rm w
  unfold rm_command at hrm ⊢
  unfold dmsample_cleanup
  simp only [List.filter_append]
  cases hp : o.precomputed_hash <;> cases hd : o.hash_debug <;> cases hc : m.cache_files <;>
    simp [dmsample_rm_loop_eq, hrm, Event.isSystem]

theorem dmsample_output_systems (w : World) (o : DmsOptions) (m : Merged) :
    (dmsample_output w o m).trace.filter Event.isSystem =
      if o.precomputed_hash = false ∧ o.hash_debug = false then
        (m.cache_files.getD []).map (rm_command w)
      else [] := by
  have hfree : (if o.precomputed_hash = false then
      dmsample_priors_free_loop o.xi_mode 5 0 [] ++ [Event.priors_free] else []).filter
        Event.isSystem = [] := by
    rw [List.filter_eq_nil_iff]
    intro e he
    split at he
    · rw [dmsample_priors_free_loop_eq] at he
      simp at he
      rcases he with ⟨i, _, rfl⟩ | rfl <;> simp [Event.isSystem]
    · simp at he
  have hemit : ∀ (t : CountTable) (ns si ri : Int),
      (dmsample_emit w.feat t ns si ri).2.filter Event.isSystem = [] := by
    intro t ns si ri
    rw [List.filter_eq_nil_iff]
    intro e he
    rw [dmsample_emit_eq] at he
    simp only [List.mem_map] at he
    obtain ⟨k, _, rfl⟩ := he
    simp [Event.isSystem]
  unfold dmsample_output
  simp only []
  split
  · simp only [Run.after, List.filter_append, hfree, List.nil_append, dmsample_cleanup_systems]
    rfl
  · simp only [Run.after, List.filter_append, hfree, hemit, List.nil_append,
      dmsample_cleanup_systems]
    rfl

/-- The deletions of the pipeline of `dmsample`: after a sampling run without
`hash_debug`, one `rm` per cache file the sampler returned, in list order;
none otherwise. -/
theorem dmsample_pipeline_systems (w : World) (o : DmsOptions) (dmpmsa : DMotifPmsaStruct) :
    (dmsample_pipeline w o dmpmsa).trace.filter Event.isSystem =
      if o.precomputed_hash = false ∧ o.hash_debug = false then
        w.dms_sample_paths_pthr.map (rm_command w)
      else [] := by
  have hinit : (dmsample_init_events o).filter Event.isSystem = [] := by
    rw [List.filter_eq_nil_iff]
    intro e he
    simp [(dmsample_init_events_not_system o e he).1]
  obtain ⟨A, M, hA, hAc, hM, _⟩ := dmsample_acquire_uncache w o dmpmsa
  have hacq : (dmsample_acquire w o dmpmsa).1.filter Event.isSystem = [] := by
    rw [List.filter_eq_nil_iff, hA]
    intro e he
    rcases List.mem_append.mp he with he | he
    · simp [(hAc e he).1]
    · rw [List.mem_singleton] at he
      subst he
      simp [hM]
  simp only [dmsample_pipeline, Run.after, List.filter_append, hinit, hacq, List.nil_append,
    dmsample_output_systems]
  by_cases hp : o.precomputed_hash = false
  · rw [dmsample_acquire_cache_files w o dmpmsa hp]
    rfl
  · simp [hp]

/-- In a whole run of `dmsample`, no file is deleted before the first call of
`dms_uncache`. -/
theorem dmsample_main_no_system_before_uncache (w : World) (opts : List (Char × String))
    (args : List String) :
    ∀ e ∈ before_first Event.isUncache (dmsample_main w opts args).trace,
      e.isSystem = false := by
  rcases dmsample_main_cases_pipeline w opts args with ⟨h1, _⟩ | ⟨pre, o, d, hpre, hrun⟩
  · intro e he
    have hmem : e ∈ (dmsample_main w opts args).trace := by
      unfold before_first at he
      exact (List.takeWhile_sublist _).subset he
    exact (isSetup_not_system e (h1 e hmem)).1
  · obtain ⟨A, M, hA, hAc, hM, hMu⟩ := dmsample_acquire_uncache w o d
    have htrace : (dmsample_main w opts args).trace =
        (pre ++ dmsample_init_events o ++ A) ++
          (M :: (dmsample_output w o (dmsample_acquire w o d).2).trace) := by
      rw [hrun]
      simp [dmsample_pipeline, Run.after, hA]
    have hbefore : ∀ e ∈ pre ++ dmsample_init_events o ++ A,
        e.isSystem = false ∧ e.isUncache = false := by
      intro e he
      simp only [List.mem_append] at he
      rcases he with (he | he) | he
      · exact isSetup_not_system e (hpre e he)
      · exact dmsample_init_events_not_system o e he
      · exact hAc e he
    rcases hMu with hMu | hprec
    · rw [htrace, before_first_append_left _ _ _ (fun e he => (hbefore e he).2),
        before_first_cons_pos _ _ _ hMu, List.append_nil]
      exact fun e he => (hbefore e he).1
    · intro e he
      have hmem : e ∈ (dmsample_main w opts args).trace := by
        unfold before_first at he
        exact (List.takeWhile_sublist _).subset he
      rw [htrace] at hmem
      rcases List.mem_append.mp hmem with hmem | hmem
      · exact (hbefore e hmem).1
      · rcases List.mem_cons.mp hmem with rfl | hmem
        · exact hM
        · have hnone := dmsample_output_systems w o (dmsample_acquire w o d).2
          rw [if_neg (by simp [hprec]), List.filter_eq_nil_iff] at hnone
          simpa using hnone e hmem

/-! ## The feature-record text format: numbers -/

theorem worker_loop_count (b n si : Nat) (hsi : 1 ≤ si) (fuel i : Nat) (hi : i ≤ b + n)
    (hfuel : b + n ≤ i + fuel) :
    worker_loop b n si fuel i ((i - b) / si) = some (n / si) := by
  induction fuel generalizing i with
  | zero =>
    have : i = b + n := by omega
    subst this
    rw [worker_loop, Nat.add_sub_cancel_left]
  | succ fuel ih =>
    rw [worker_loop]
    by_cases hlt : i < b + n
    · rw [if_pos hlt]
      unfold worker_keeps
      by_cases hb : i < b
      · rw [if_pos hb]
        have h0 : (i - b) / si = (i + 1 - b) / si := by
          rw [Nat.sub_eq_zero_of_le (by omega : i ≤ b),
            Nat.sub_eq_zero_of_le (by omega : i + 1 ≤ b)]
        simp only [Bool.false_eq_true, if_false]
        rw [h0]
        exact ih (i + 1) (by omega) (by omega)
      · rw [if_neg hb, if_neg (by omega)]
        have hstep : (if decide ((i - b + 1) % si = 0) = true then (i - b) / si + 1
            else (i - b) / si) = (i + 1 - b) / si := by
          have e : i + 1 - b = (i - b) + 1 := by omega
          rw [e, Nat.succ_div]
          by_cases hd : si ∣ i - b + 1
          · simp [hd, Nat.mod_eq_zero_of_dvd hd]
          · have hm : ¬ (i - b + 1) % si = 0 := fun h => hd (Nat.dvd_of_mod_eq_zero h)
            simp [hd, hm]
        simp only []
        rw [hstep]
        exact ih (i + 1) (by omega) (by omega)
    · have : i = b + n := by omega
      subst this
      rw [if_neg hlt, Nat.add_sub_cancel_left]

theorem worker_loop_fails (b n : Nat) (hn : 1 ≤ n) (fuel i recorded : Nat) (hi : i ≤ b)
    (hfuel : b + 1 ≤ i + fuel) :
    worker_loop b n 0 fuel i recorded = none := by
  induction fuel generalizing i recorded with
  | zero => omega
  | succ fuel ih =>
    rw [worker_loop, if_pos (by omega)]
    unfold worker_keeps
    by_cases hb : i < b
    · rw [if_pos hb]
      exact ih (i + 1) _ (by omega) (by omega)
    · rw [if_neg hb, if_pos rfl]

theorem worker_recorded_count (b n si : Nat) (hsi : 1 ≤ si) :
    worker_recorded b n si = some (n / si) := by
  have := worker_loop_count b n si hsi (b + n) 0 (by omega) (by omega)
  rwa [Nat.zero_sub, Nat.zero_div] at this

theorem worker_recorded_fails (b n : Nat) (hn : 1 ≤ n) : worker_recorded b n 0 = none :=
  worker_loop_fails b n hn (b + n) 0 0 (by omega) (by omega)

theorem worker_loop_burn_in_only (b si : Nat) (fuel i recorded : Nat) :
    worker_loop b 0 si fuel i recorded = some recorded := by
  induction fuel generalizing i with
  | zero => rfl
  | succ fuel ih =>
    rw [worker_loop]
    by_cases hlt : i < b + 0
    · rw [if_pos hlt]
      unfold worker_keeps
      rw [if_pos (by omega)]
      exact ih (i + 1)
    · rw [if_neg hlt]

/-! ## `vec_ave` -/

theorem isSetup_not_table (e : Event) (h : e.isSetup = true) : e.isTable = false := by
  cases e <;> simp_all [Event.isSetup, Event.isTable]

theorem isOutput_not_table (e : Event) (h : e.isOutput = true) : e.isTable = false := by
  cases e <;> simp_all [Event.isOutput, Event.isTable]

theorem dmsample_init_events_not_table (o : DmsOptions) :
    (dmsample_init_events o).filter Event.isTable = [] := by
  rw [List.filter_eq_nil_iff]
  intro e he
  unfold dmsample_init_events at he
  simp only [List.mem_append, List.mem_cons, List.mem_singleton, List.not_mem_nil,
    or_false] at he
  rcases he with (rfl | he) | rfl | rfl
  · simp [Event.isTable]
  · split at he
    · simp only [List.mem_singleton] at he
      subst he
      simp [Event.isTable]
    · simp at he
  · simp [Event.isTable]
  · simp [Event.isTable]

/-- The events of the emission table and the sampler call in the pipeline of
`dmsample`, in order: in a sampling run the table is allocated, computed and
adjusted, then the sampler is called, then the table is released; with a
precomputed hash there is none. -/
theorem dmsample_pipeline_table (w : World) (o : DmsOptions) (dmpmsa : DMotifPmsaStruct) :
    (dmsample_pipeline w o dmpmsa).trace.filter Event.isTable =
      if o.precomputed_hash = false then
        [Event.tuple_scores_alloc w.nstates dmpmsa.ntuples, Event.dms_compute_emissions,
         Event.dm_handle_missing_data, Event.dms_sample_paths_pthr, Event.tuple_scores_free]
      else [] := by
  have hout : ∀ m, (dmsample_output w o m).trace.filter Event.isTable = [] := by
    intro m
    rw [List.filter_eq_nil_iff]
    intro e he
    simp [isOutput_not_table e (dmsample_output_output w o m e he)]
  have htmp : (dmsample_read_tmp w o).1.filter Event.isTable = [] := by
    rcases dmsample_read_tmp_events w o with h | h <;> rw [h] <;> rfl
  simp only [dmsample_pipeline, Run.after, List.filter_append, dmsample_init_events_not_table,
    hout, List.nil_append, List.append_nil]
  unfold dmsample_acquire
  simp only []
  split
  · simp only [List.filter_append, htmp, List.nil_append]
    rfl
  · split
    · simp only [List.filter_append, htmp, List.nil_append]
      rfl
    · simp only [List.filter_append, htmp, List.nil_append]
      rfl

/-! ## Dump or feature output -/

theorem isSetup_not_result (e : Event) (h : e.isSetup = true) :
    e.isResult = false ∧ e.nbases = none := by
  cases e <;> simp_all [Event.isSetup, Event.isResult, Event.nbases]

theorem dmsample_init_events_not_result (o : DmsOptions) :
    ∀ e ∈ dmsample_init_events o, e.isResult = false ∧ e.nbases = none := by
  intro e he
  unfold dmsample_init_events at he
  simp only [List.mem_append, List.mem_cons, List.mem_singleton, List.not_mem_nil,
    or_false] at he
  rcases he with (rfl | he) | rfl | rfl
  · exact ⟨rfl, rfl⟩
  · split at he
    · simp only [List.mem_singleton] at he
      subst he
      exact ⟨rfl, rfl⟩
    · simp at he
  · exact ⟨rfl, rfl⟩
  · exact ⟨rfl, rfl⟩

/-- Nothing in the acquisition step is a result, and the key length it
passes on is `2k + 2`. -/
theorem dmsample_acquire_not_result (w : World) (o : DmsOptions) (dmpmsa : DMotifPmsaStruct) :
    ∀ e ∈ (dmsample_acquire w o dmpmsa).1,
      e.isResult = false ∧ ∀ n, e.nbases = some n → n = 2 * w.dm_k + 2 := by
  unfold dmsample_acquire
  simp only []
  rcases dmsample_read_tmp_events w o with ht | ht
  all_goals
    split
    · simp only [ht, dmsample_sampling_events, List.forall_mem_append, List.forall_mem_cons]
      repeat' apply And.intro
      all_goals
        first
        | rfl
        | (intro n h; exact (Option.some.inj h).symm)
        | (intro n h; cases h)
    · split
      · simp only [ht, List.forall_mem_append, List.forall_mem_cons]
        repeat' apply And.intro
        all_goals
          first
          | rfl
          | (intro n h; exact (Option.some.inj h).symm)
          | (intro n h; cases h)
      · simp only [ht, List.forall_mem_append, List.forall_mem_cons]
        repeat' apply And.intro
        all_goals
          first
          | rfl
          | (intro n h; exact (Option.some.inj h).symm)
          | (intro n h; cases h)

theorem dmsample_cleanup_not_result (w : World) (o : DmsOptions) (m : Merged) :
    ∀ e ∈ (dmsample_cleanup w o m).trace, e.isResult = false ∧ e.nbases = none := by
  intro e he
  unfold dmsample_cleanup at he
  simp only [List.mem_append, List.mem_singleton] at he
  rcases he with he | rfl
  · split at he
    · split at he
      · rw [dmsample_rm_loop_eq _ _ _ _ _ _ (by omega)] at he
        split at he
        · simp at he
          obtain ⟨f, _, rfl⟩ := he
          exact ⟨rfl, rfl⟩
        · simp at he
      · simp at he
    · simp at he
  · exact ⟨rfl, rfl⟩

theorem dmsample_priors_free_not_result (o : DmsOptions) :
    ∀ e ∈ (if o.precomputed_hash = false then
        dmsample_priors_free_loop o.xi_mode 5 0 [] ++ [Event.priors_free] else []),
      e.isResult = false ∧ e.nbases = none := by
  intro e he
  split at he
  · rw [dmsample_priors_free_loop_eq] at he
    simp at he
    rcases he with ⟨i, _, rfl⟩ | rfl <;> exact ⟨rfl, rfl⟩
  · simp at he

theorem filter_nil_of_forall (p : Event → Bool) (l : List Event) (h : ∀ e ∈ l, p e = false) :
    l.filter p = [] := by
  rw [List.filter_eq_nil_iff]
  intro e he
  simp [h e he]

theorem filter_isResult_calls (t : CountTable) (keys : List PathKey) (ns si ri : Int) :
    (keys.map (fun key => Event.dms_motif_as_gff_feat key (hsh_get t key) ns si ri)).filter
      Event.isResult =
    keys.map (fun key => Event.dms_motif_as_gff_feat key (hsh_get t key) ns si ri) := by
  rw [List.filter_eq_self]
  intro e he
  obtain ⟨k, _, rfl⟩ := List.mem_map.mp he
  rfl

/-- The results of the output step of `dmsample`: the dump alone, or the
feature output alone. -/
theorem dmsample_output_results (w : World) (o : DmsOptions) (m : Merged) :
    (dmsample_output w o m).trace.filter Event.isResult =
      if o.hash_f ≠ none ∧ o.precomputed_hash = false then
        [Event.dms_write_hash m.path_counts (2 * w.dm_k + 2) m.nsamples]
      else
        [Event.gff_new_set] ++
          (hsh_keys m.path_counts).map (fun key =>
            Event.dms_motif_as_gff_feat key (hsh_get m.path_counts key) m.nsamples
              o.sample_interval o.refidx) ++
          [Event.gff_print_set ((hsh_keys m.path_counts).map (fun key =>
            w.feat key (hsh_get m.path_counts key) m.nsamples o.sample_interval o.refidx))] := by
  have hfree := filter_nil_of_forall Event.isResult _
    (fun e he => (dmsample_priors_free_not_result o e he).1)
  have hclean := filter_nil_of_forall Event.isResult _
    (fun e he => (dmsample_cleanup_not_result w o m e he).1)
  unfold dmsample_output
  simp only []
  split
  · simp only [Run.after, List.filter_append, hfree, hclean, List.nil_append, List.append_nil]
    rfl
  · simp only [Run.after, List.filter_append, hfree, hclean, List.nil_append, List.append_nil,
      dmsample_emit_eq, filter_isResult_calls]
    simp [List.filter, Event.isResult]

theorem dmsample_pipeline_results (w : World) (o : DmsOptions) (dmpmsa : DMotifPmsaStruct) :
    (dmsample_pipeline w o dmpmsa).trace.filter Event.isResult =
      (dmsample_output w o (dmsample_acquire w o dmpmsa).2).trace.filter Event.isResult := by
  have hinit := filter_nil_of_forall Event.isResult _
    (fun e he => (dmsample_init_events_not_result o e he).1)
  have hacq := filter_nil_of_forall Event.isResult _
    (fun e he => (dmsample_acquire_not_result w o dmpmsa e he).1)
  simp only [dmsample_pipeline, Run.after, List.filter_append, hinit, hacq, List.nil_append]

/-- Every key length the pipeline of `dmsample` passes to the merge step, the
read step or the dump is `2k + 2`. -/
theorem dmsample_pipeline_nbases (w : World) (o : DmsOptions) (dmpmsa : DMotifPmsaStruct) :
    ∀ e ∈ (dmsample_pipeline w o dmpmsa).trace, ∀ n, e.nbases = some n →
      n = 2 * w.dm_k + 2 := by
  intro e he n hn
  simp only [dmsample_pipeline, Run.after, List.mem_append] at he
  rcases he with (he | he) | he
  · rw [(dmsample_init_events_not_result o e he).2] at hn
    cases hn
  · exact (dmsample_acquire_not_result w o dmpmsa e he).2 n hn
  · unfold dmsample_output at he
    simp only [] at he
    split at he
    · simp only [Run.after, List.mem_append, List.mem_singleton] at he
      rcases he with (he | rfl) | he
      · rw [(dmsample_priors_free_not_result o e he).2] at hn
        cases hn
      · exact (Option.some.inj hn).symm
      · rw [(dmsample_cleanup_not_result w o _ e he).2] at hn
        cases hn
    · simp only [Run.after, dmsample_emit_eq, List.mem_append, List.mem_cons,
        List.mem_singleton, List.mem_map, List.not_mem_nil, or_false] at he
      rcases he with (((he | rfl | rfl) | ⟨k, _, rfl⟩) | rfl | rfl) | he
      · rw [(dmsample_priors_free_not_result o e he).2] at hn
        cases hn
      · cases hn
      · cases hn
      · cases hn
      · cases hn
      · cases hn
      · rw [(dmsample_cleanup_not_result w o _ e he).2] at hn
        cases hn

/-- The pipeline of `dmsProcessParallel` with a dump file: the merge, the
dump, and the return. -/
theorem dmsProcessParallel_pipeline_dump (w : World) (o : DppOptions)
    (hash_files : List CacheFile) (fname : String) (h : o.dump_f = some fname) :
    dmsProcessParallel_pipeline w o hash_files =
      ⟨[Event.dm_new,
        Event.dms_uncache (hash_files.map CacheFile.name) 10000 (2 * w.dm_k + 2) 0,
        Event.dms_write_hash (dms_uncache hash_files 0 0).1 (2 * w.dm_k + 2)
          (dms_uncache hash_files 0 0).2], .returned 0⟩ := by
  unfold dmsProcessParallel_pipeline
  simp only [h, dmsProcessParallel_merge]
  rfl

/-- The pipeline of `dmsProcessParallel` without a dump file: the merge and
the feature output, no dump. -/
theorem dmsProcessParallel_pipeline_features (w : World) (o : DppOptions)
    (hash_files : List CacheFile) (h : o.dump_f = none) :
    (dmsProcessParallel_pipeline w o hash_files).trace.filter
        (fun e => e.isMergeOrRead || e.isResult) =
      [Event.dms_uncache (hash_files.map CacheFile.name) 10000 (2 * w.dm_k + 2) 0,
       Event.gff_new_set] ++
        (hsh_keys (dms_uncache hash_files 0 0).1).map (fun key =>
          Event.dms_motif_as_gff_feat key (hsh_get (dms_uncache hash_files 0 0).1 key)
            (dms_uncache hash_files 0 0).2 o.sample_interval o.refidx) ++
        [Event.gff_print_set ((hsh_keys (dms_uncache hash_files 0 0).1).map (fun key =>
          w.feat key (hsh_get (dms_uncache hash_files 0 0).1 key) (dms_uncache hash_files 0 0).2
            o.sample_interval o.refidx))] := by
  have hcalls : ∀ (t : CountTable) (keys : List PathKey) (ns si ri : Int),
      (keys.map (fun key => Event.dms_motif_as_gff_feat key (hsh_get t key) ns si ri)).filter
        (fun e => e.isMergeOrRead || e.isResult) =
      keys.map (fun key => Event.dms_motif_as_gff_feat key (hsh_get t key) ns si ri) := by
    intro t keys ns si ri
    rw [List.filter_eq_self]
    intro e he
    obtain ⟨k, _, rfl⟩ := List.mem_map.mp he
    rfl
  unfold dmsProcessParallel_pipeline
  simp only [h, dmsProcessParallel_merge, List.filter_append, dmsProcessParallel_emit_eq, hcalls]
  simp [List.filter, Event.isResult, Event.isMergeOrRead]

/-! ## The prior table -/

theorem dmsample_priors_eq (o : DmsOptions) (prior_fname : String) :
    dmsample_priors o prior_fname =
      if o.precomputed_hash = false then
        [Event.print_stderr
          ("Reading transition parameter priors from " ++ prior_fname ++ "...\n"),
         Event.priors_alloc (priors_rows o.xi_mode)] ++
          (List.range (priors_rows o.xi_mode)).map Event.priors_row_init ++
          [Event.dms_read_priors (List.replicate (priors_rows o.xi_mode) (some [0, 0]))
            o.xi_mode]
      else [] := by
  unfold dmsample_priors priors_rows
  split
  · simp only [dmsample_priors_init_loop_eq]
  · rfl

theorem dmsample_cleanup_not_priors (w : World) (o : DmsOptions) (m : Merged) :
    ∀ e ∈ (dmsample_cleanup w o m).trace, e.isPriors = false := by
  intro e he
  unfold dmsample_cleanup at he
  simp only [List.mem_append, List.mem_singleton] at he
  rcases he with he | rfl
  · split at he
    · split at he
      · rw [dmsample_rm_loop_eq _ _ _ _ _ _ (by omega)] at he
        split at he
        · simp at he
          obtain ⟨f, _, rfl⟩ := he
          rfl
        · simp at he
      · simp at he
    · simp at he
  · rfl

theorem filter_isPriors_free (n : Nat) :
    ((List.range n).map Event.priors_row_free ++ [Event.priors_free]).filter Event.isPriors =
      (List.range n).map Event.priors_row_free ++ [Event.priors_free] := by
  rw [List.filter_eq_self]
  intro e he
  simp only [List.mem_append, List.mem_map, List.mem_singleton] at he
  rcases he with ⟨i, _, rfl⟩ | rfl <;> rfl

/-- The events of the prior table in the output step of `dmsample`: after a
run that is not in precomputed-hash mode every row is released, in order,
then the table; otherwise there is none. -/
theorem dmsample_output_priors (w : World) (o : DmsOptions) (m : Merged) :
    (dmsample_output w o m).trace.filter Event.isPriors =
      if o.precomputed_hash = false then
        (List.range (priors_rows o.xi_mode)).map Event.priors_row_free ++ [Event.priors_free]
      else [] := by
  have hclean := filter_nil_of_forall Event.isPriors _ (dmsample_cleanup_not_priors w o m)
  have hemit : ∀ (t : CountTable) (ns si ri : Int),
      (dmsample_emit w.feat t ns si ri).2.filter Event.isPriors = [] := by
    intro t ns si ri
    rw [List.filter_eq_nil_iff]
    intro e he
    rw [dmsample_emit_eq] at he
    simp only [List.mem_map] at he
    obtain ⟨k, _, rfl⟩ := he
    simp [Event.isPriors]
  have hfree : (if o.precomputed_hash = false then
      dmsample_priors_free_loop o.xi_mode 5 0 [] ++ [Event.priors_free] else []).filter
        Event.isPriors =
      if o.precomputed_hash = false then
        (List.range (priors_rows o.xi_mode)).map Event.priors_row_free ++ [Event.priors_free]
      else [] := by
    split
    · rw [dmsample_priors_free_loop_eq]
      exact filter_isPriors_free _
    · rfl
  unfold dmsample_output
  simp only []
  split
  · simp only [Run.after, List.filter_append, hfree, hclean, List.append_nil]
    simp [List.filter, Event.isPriors]
  · simp only [Run.after, List.filter_append, hfree, hclean, hemit, List.append_nil]
    simp [List.filter, Event.isPriors]

theorem dmsample_getopt_loop_append (w : World) (pre rest : List (Char × String))
    (o : DmsOptions) :
    dmsample_getopt_loop w (pre ++ rest) o =
      match dmsample_getopt_loop w pre o with
      | (evs, .error e) => (evs, .error e)
      | (evs, .ok o1) =>
        (evs ++ (dmsample_getopt_loop w rest o1).1, (dmsample_getopt_loop w rest o1).2) := by
  induction pre generalizing o with
  | nil => simp [dmsample_getopt_loop, Step.ok]
  | cons co pre ih =>
    obtain ⟨c, a⟩ := co
    simp only [List.cons_append, dmsample_getopt_loop]
    rcases hstep : dmsample_option w o c a with ⟨evs, e | o2⟩
    · rfl
    · have ih2 := ih o2
      rcases hloop : dmsample_getopt_loop w pre o2 with ⟨evs2, e2 | o3⟩
      · rw [hloop] at ih2
        simp only [List.append_eq, ih2, hloop]
      · rw [hloop] at ih2
        simp only [List.append_eq, ih2, hloop, List.append_assoc]

theorem dmsProcessParallel_getopt_loop_append (w : World) (pre rest : List (Char × String))
    (o : DppOptions) :
    dmsProcessParallel_getopt_loop w (pre ++ rest) o =
      match dmsProcessParallel_getopt_loop w pre o with
      | (evs, .error e) => (evs, .error e)
      | (evs, .ok o1) =>
        (evs ++ (dmsProcessParallel_getopt_loop w rest o1).1,
          (dmsProcessParallel_getopt_loop w rest o1).2) := by
  induction pre generalizing o with
  | nil => simp [dmsProcessParallel_getopt_loop, Step.ok]
  | cons co pre ih =>
    obtain ⟨c, a⟩ := co
    simp only [List.cons_append, dmsProcessParallel_getopt_loop]
    rcases hstep : dmsProcessParallel_option w o c a with ⟨evs, e | o2⟩
    · rfl
    · have ih2 := ih o2
      rcases hloop : dmsProcessParallel_getopt_loop w pre o2 with ⟨evs2, e2 | o3⟩
      · rw [hloop] at ih2
        simp only [List.append_eq, ih2, hloop]
      · rw [hloop] at ih2
        simp only [List.append_eq, ih2, hloop, List.append_assoc]

theorem dmsample_main_help (w : World) (pre rest : List (Char × String)) (a : String)
    (evs1 : List Event) (o1 : DmsOptions) (args : List String)
    (h : dmsample_getopt_loop w pre (dmsample_defaults w) = (evs1, .ok o1)) :
    dmsample_main w (pre ++ ('h', a) :: rest) args =
      ⟨evs1 ++ [Event.print_stdout w.HELP], .exited 0⟩ := by
  simp [dmsample_main, dmsample_getopt_loop_append, h, dmsample_getopt_loop, dmsample_option]

theorem dmsProcessParallel_main_help (w : World) (pre rest : List (Char × String))
    (a : String) (evs1 : List Event) (o1 : DppOptions) (args : List String)
    (h : dmsProcessParallel_getopt_loop w pre dmsProcessParallel_defaults = (evs1, .ok o1)) :
    dmsProcessParallel_main w (pre ++ ('h', a) :: rest) args =
      ⟨evs1 ++ [Event.print_stdout w.HELP], .exited 0⟩ := by
  simp [dmsProcessParallel_main, dmsProcessParallel_getopt_loop_append, h,
    dmsProcessParallel_getopt_loop, dmsProcessParallel_option]

/-! ## Claims -/

/-- C1: feature emission is a map over the key list.  For every count table,
the feature lists built by the emit loops of `dmsample` and of
`dmsProcessParallel` have exactly as many records as `hsh_keys` returns keys;
for every index `i` the `i`-th record is `dms_motif_as_gff_feat` applied to
the `i`-th key and to the count vector `hsh_get` finds under it; and when the
keys are pairwise distinct, every key has exactly one index, at which its
record stands: no record is added, dropped or reordered. -/
theorem C1_feature_emission_is_map (feat : FeatFn) (path_counts : CountTable)
    (nsamples sample_interval refidx : Int) :
    let keys := hsh_keys path_counts
    let record := fun key => feat key (hsh_get path_counts key) nsamples sample_interval refidx
    let fs := (dmsample_emit feat path_counts nsamples sample_interval refidx).1
    let fs' := (dmsProcessParallel_emit feat path_counts nsamples sample_interval refidx).1
    (fs.length = keys.length ∧ fs'.length = keys.length) ∧
    (∀ (i : Nat) (h : i < keys.length),
      fs[i]? = some (record keys[i]) ∧ fs'[i]? = some (record keys[i])) ∧
    (fs = keys.map record ∧ fs' = keys.map record) ∧
    (keys.Nodup → ∀ key ∈ keys,
      ∃! i : Nat, keys[i]? = some key ∧ fs[i]? = some (record key) ∧
        fs'[i]? = some (record key)) := by
  intro keys record fs fs'
  have h1 : fs = keys.map record := by
    simp only [fs, dmsample_emit_eq, keys, record]
  have h2 : fs' = keys.map record := by
    simp only [fs', dmsProcessParallel_emit_eq, keys, record]
  refine ⟨?_, ?_, ⟨h1, h2⟩, ?_⟩
  · simp [h1, h2]
  · intro i h
    simp [h1, h2, List.getElem?_map, List.getElem?_eq_getElem h]
  · intro hnd key hk
    obtain ⟨i, hi, huniq⟩ := nodup_unique_index keys hnd key hk
    refine ⟨i, ⟨hi, ?_, ?_⟩, fun j hj => huniq j hj.1⟩
    · simp [h1, List.getElem?_map, hi]
    · simp [h2, List.getElem?_map, hi]

/-- C1, at the merged table of the scenario: two distinct keys, two records,
in key order. -/
theorem C1_feature_emission_is_map_witness :
    (hsh_keys (dms_uncache [scenario_A, scenario_B] 0 0).1).Nodup ∧
    ∀ key ∈ hsh_keys (dms_uncache [scenario_A, scenario_B] 0 0).1,
      ∃! i : Nat, (hsh_keys (dms_uncache [scenario_A, scenario_B] 0 0).1)[i]? = some key ∧
        (dmsample_emit scenario_feat (dms_uncache [scenario_A, scenario_B] 0 0).1 9 1 1).1[i]? =
          some (scenario_feat key (hsh_get (dms_uncache [scenario_A, scenario_B] 0 0).1 key) 9 1 1) ∧
        (dmsProcessParallel_emit scenario_feat (dms_uncache [scenario_A, scenario_B] 0 0).1 9 1 1).1[i]? =
          some (scenario_feat key (hsh_get (dms_uncache [scenario_A, scenario_B] 0 0).1 key) 9 1 1) :=
  ⟨by decide,
   (C1_feature_emission_is_map scenario_feat (dms_uncache [scenario_A, scenario_B] 0 0).1 9 1 1).2.2.2
     (by decide)⟩

/-- C3: merge is independent of order and of partition.  For every list of
cache files and every permutation of it, `dms_uncache`, called on the same
counter value and reset flag, yields the same consolidated count table (the same count vector under every key, the same
keys) and the same grand total; for every two partitions of the same multiset
of recorded samples into cache files, the merged tables and totals are equal
likewise; and merging the scenario files A, B or B, A gives
{[1,2,1,2] -> 8, [2,2,1,1] -> 1} with grand total 9. -/
theorem C3_merge_order_and_partition_independent
    (fs fs' : List CacheFile) (hfs : fs.Perm fs')
    (parts parts' : List (String × List (PathKey × CountVector)))
    (hparts : (all_samples parts).Perm (all_samples parts')) (n0 reset : Int) :
    ((∀ k, hsh_get (dms_uncache fs n0 reset).1 k = hsh_get (dms_uncache fs' n0 reset).1 k) ∧
      (hsh_keys (dms_uncache fs n0 reset).1).Perm (hsh_keys (dms_uncache fs' n0 reset).1) ∧
      (dms_uncache fs n0 reset).2 = (dms_uncache fs' n0 reset).2) ∧
    ((∀ k, hsh_get (dms_uncache (spill_all parts) n0 reset).1 k =
        hsh_get (dms_uncache (spill_all parts') n0 reset).1 k) ∧
      (hsh_keys (dms_uncache (spill_all parts) n0 reset).1).Perm
        (hsh_keys (dms_uncache (spill_all parts') n0 reset).1) ∧
      (dms_uncache (spill_all parts) n0 reset).2 = (dms_uncache (spill_all parts') n0 reset).2) ∧
    (dms_uncache [scenario_A, scenario_B] 0 0 =
        ([([1, 2, 1, 2], ⟨8, []⟩), ([2, 2, 1, 1], ⟨1, []⟩)], 9) ∧
      dms_uncache [scenario_B, scenario_A] 0 0 =
        ([([1, 2, 1, 2], ⟨8, []⟩), ([2, 2, 1, 1], ⟨1, []⟩)], 9)) := by
  have hget : ∀ k, hsh_get (dms_uncache fs n0 reset).1 k = hsh_get (dms_uncache fs' n0 reset).1 k := by
    intro k
    rw [hsh_get_dms_uncache, hsh_get_dms_uncache]
    exact key_sum_perm (hfs.flatMap_right _) k
  have hget' : ∀ k, hsh_get (dms_uncache (spill_all parts) n0 reset).1 k =
      hsh_get (dms_uncache (spill_all parts') n0 reset).1 k := by
    intro k
    rw [hsh_get_uncache_spill, hsh_get_uncache_spill]
    exact key_sum_perm hparts k
  refine ⟨⟨hget, ?_, ?_⟩, ⟨hget', ?_, ?_⟩, by decide, by decide⟩
  · exact keys_perm_of_get_eq _ _ (nodup_keys_dms_uncache _ _ _) (nodup_keys_dms_uncache _ _ _) hget
  · rw [dms_uncache_total, dms_uncache_total]
    exact congrArg _ (hfs.map _).sum_eq
  · exact keys_perm_of_get_eq _ _ (nodup_keys_dms_uncache _ _ _) (nodup_keys_dms_uncache _ _ _) hget'
  · rw [dms_uncache_total, dms_uncache_total, declared_total_spill, declared_total_spill,
      hparts.length_eq]

/-- C3, at the scenario files in both orders and at two partitions of the
same three samples. -/
theorem C3_merge_order_and_partition_independent_witness :
    [scenario_A, scenario_B].Perm [scenario_B, scenario_A] ∧
    (all_samples scenario_parts).Perm (all_samples scenario_parts') ∧
    (∀ k, hsh_get (dms_uncache [scenario_A, scenario_B] 0 0).1 k =
      hsh_get (dms_uncache [scenario_B, scenario_A] 0 0).1 k) ∧
    (∀ k, hsh_get (dms_uncache (spill_all scenario_parts) 0 0).1 k =
      hsh_get (dms_uncache (spill_all scenario_parts') 0 0).1 k) ∧
    (dms_uncache (spill_all scenario_parts) 0 0).2 = (dms_uncache (spill_all scenario_parts') 0 0).2 :=
  ⟨by decide, by decide,
   (C3_merge_order_and_partition_independent [scenario_A, scenario_B] [scenario_B, scenario_A]
      (by decide) scenario_parts scenario_parts' (by decide) 0 0).1.1,
   (C3_merge_order_and_partition_independent [scenario_A, scenario_B] [scenario_B, scenario_A]
      (by decide) scenario_parts scenario_parts' (by decide) 0 0).2.1.1,
   (C3_merge_order_and_partition_independent [scenario_A, scenario_B] [scenario_B, scenario_A]
      (by decide) scenario_parts scenario_parts' (by decide) 0 0).2.1.2.2⟩

/-- C2, as stated, fails in the fresh-sampling mode of `dmsample`: in the run
of the scenario with default options the merge step reports the grand total
9 for the table being emitted, and `dms_motif_as_gff_feat` is handed the
total 9000, the configured number of samples. -/
theorem C2_total_handed_counterexample :
    Event.dms_uncache ["A", "B"] 10000 8 1 ∈ (dmsample_main scenario_world [] scenario_args).trace ∧
    (dms_uncache scenario_world.dms_sample_paths_pthr scenario_world.csamples0 1).2 = 9 ∧
    Event.dms_motif_as_gff_feat [1, 2, 1, 2] (some ⟨8, []⟩) 9000 1 0 ∈
      (dmsample_main scenario_world [] scenario_args).trace ∧
    ¬ (∀ key counts n si ri, Event.dms_motif_as_gff_feat key counts n si ri ∈
        (dmsample_main scenario_world [] scenario_args).trace →
          n = (dms_uncache scenario_world.dms_sample_paths_pthr scenario_world.csamples0 1).2) := by
  refine ⟨by decide, by decide, by decide, ?_⟩
  intro h
  have h1 := h [1, 2, 1, 2] (some ⟨8, []⟩) 9000 1 0 (by decide)
  revert h1
  decide

/-- C2, amended: in every mode of `dmsample` and in `dmsProcessParallel` the
calls of `dms_motif_as_gff_feat` are, key by key in key order, handed the
count vector stored under the key and the value of the driver's variable
`nsamples`; in the recover-from-cache-list and direct-hash-read modes of
`dmsample` and in `dmsProcessParallel` that value is the grand total the
merge or read step reported for the table being emitted, the value it left
in `nsamples`; in the
fresh-sampling mode of `dmsample` it is the configured sample count, the
merge step's total being left in `csamples`. -/
theorem C2_total_and_counts_handed (w : World) (o : DmsOptions) (dmpmsa : DMotifPmsaStruct)
    (dpp : DppOptions) (hash_files : List CacheFile) :
    ((dmsample_output w o (dmsample_acquire w o dmpmsa).2).trace.filter Event.isFeatCall =
      if o.hash_f ≠ none ∧ o.precomputed_hash = false then []
      else (hsh_keys (dmsample_acquire w o dmpmsa).2.path_counts).map (fun key =>
        Event.dms_motif_as_gff_feat key
          (hsh_get (dmsample_acquire w o dmpmsa).2.path_counts key)
          (dmsample_acquire w o dmpmsa).2.nsamples o.sample_interval o.refidx)) ∧
    (o.precomputed_hash = false →
      (dmsample_acquire w o dmpmsa).2.nsamples = o.nsamples ∧
      (dmsample_acquire w o dmpmsa).2.path_counts = (dms_uncache w.dms_sample_paths_pthr w.csamples0 1).1 ∧
      (dmsample_acquire w o dmpmsa).2.csamples = some (dms_uncache w.dms_sample_paths_pthr w.csamples0 1).2) ∧
    (o.precomputed_hash = true → (dmsample_read_tmp w o).2 = none →
      ((dmsample_acquire w o dmpmsa).2.path_counts, (dmsample_acquire w o dmpmsa).2.nsamples) =
        w.dms_read_hash o.hash_f) ∧
    (∀ files, o.precomputed_hash = true → (dmsample_read_tmp w o).2 = some files →
      ((dmsample_acquire w o dmpmsa).2.path_counts, (dmsample_acquire w o dmpmsa).2.nsamples) =
        dms_uncache files o.nsamples 0) ∧
    ((dmsProcessParallel_pipeline w dpp hash_files).trace.filter Event.isFeatCall =
      match dpp.dump_f with
      | some _ => []
      | none => (hsh_keys (dms_uncache hash_files 0 0).1).map (fun key =>
        Event.dms_motif_as_gff_feat key (hsh_get (dms_uncache hash_files 0 0).1 key)
          (dms_uncache hash_files 0 0).2 dpp.sample_interval dpp.refidx)) := by
  refine ⟨dmsample_output_feat_calls w o _, ?_, ?_, ?_,
    dmsProcessParallel_pipeline_feat_calls w dpp hash_files⟩
  · intro hp
    simp [dmsample_acquire, hp]
  · intro hp hnone
    simp [dmsample_acquire, hp, hnone]
  · intro files hp hsome
    simp [dmsample_acquire, hp, hsome]

/-- C2, amended, at a run of `dmsample` recovered from the temporary-file list
of the scenario: the emitter is handed the total that `dms_uncache` left in
`nsamples`. -/
theorem C2_total_and_counts_handed_witness :
    scenario_recover.precomputed_hash = true ∧
    (dmsample_read_tmp scenario_world scenario_recover).2 = some [scenario_B, scenario_A] ∧
    ((dmsample_acquire scenario_world scenario_recover scenario_dmpmsa).2.path_counts,
      (dmsample_acquire scenario_world scenario_recover scenario_dmpmsa).2.nsamples) =
        dms_uncache [scenario_B, scenario_A] scenario_recover.nsamples 0 :=
  ⟨by decide, by decide,
   (C2_total_and_counts_handed scenario_world scenario_recover scenario_dmpmsa
      dmsProcessParallel_defaults []).2.2.2.1 [scenario_B, scenario_A] (by decide) (by decide)⟩

/-- C5: phase order of one `dmsample` invocation.  The pipeline takes exactly
one of three paths, decided by `precomputed_hash` and by whether a cache-file
list was loaded: not precomputed, the sampler then the merge; precomputed
with no list, one read of a hash dump and neither sampler nor merge;
precomputed with a list, the merge and no sampler.  A whole run has either
none of these steps (it ended before the pipeline) or those of its pipeline;
from its first merge or read event on the sampler is never called, and
before that event no feature is emitted. -/
theorem C5_phase_order (w : World) (o : DmsOptions) (dmpmsa : DMotifPmsaStruct)
    (opts : List (Char × String)) (args : List String) :
    ((dmsample_pipeline w o dmpmsa).trace.filter (fun e => e.isSampler || e.isMergeOrRead) =
      if o.precomputed_hash = false then
        [Event.dms_sample_paths_pthr,
         Event.dms_uncache (w.dms_sample_paths_pthr.map CacheFile.name)
           (max (10 * dmpmsa.nblocks) 10000) (2 * w.dm_k + 2) 1]
      else
        match (dmsample_read_tmp w o).2 with
        | none => [Event.dms_read_hash (2 * w.dm_k + 2)]
        | some files =>
          [Event.dms_uncache (files.map CacheFile.name) (max (10 * dmpmsa.nblocks) 10000)
            (2 * w.dm_k + 2) 0]) ∧
    ((dmsample_main w opts args).trace.filter (fun e => e.isSampler || e.isMergeOrRead) = [] ∨
      ∃ o' d', (dmsample_main w opts args).trace.filter
          (fun e => e.isSampler || e.isMergeOrRead) =
        (dmsample_pipeline w o' d').trace.filter (fun e => e.isSampler || e.isMergeOrRead)) ∧
    (∀ e ∈ from_first Event.isMergeOrRead (dmsample_main w opts args).trace,
      e.isSampler = false) ∧
    (∀ e ∈ before_first Event.isMergeOrRead (dmsample_main w opts args).trace,
      e.isEmit = false) := by
  refine ⟨dmsample_pipeline_steps w o dmpmsa, ?_, dmsample_main_order w opts args⟩
  have hnone : ∀ l : List Event, (∀ e ∈ l, e.isSetup = true) →
      l.filter (fun e => e.isSampler || e.isMergeOrRead) = [] := by
    intro l hl
    rw [List.filter_eq_nil_iff]
    intro e he
    have := isSetup_class e (hl e he)
    simp [this.1, this.2.2.1]
  rcases dmsample_main_cases_pipeline w opts args with ⟨h1, _⟩ | ⟨pre, o', d', hpre, hrun⟩
  · exact Or.inl (hnone _ h1)
  · refine Or.inr ⟨o', d', ?_⟩
    rw [hrun, Run.after_trace, List.filter_append, hnone pre hpre, List.nil_append]

/-- C6, as stated, fails: with three positional arguments and the options
`-D dump.hash -l run.log`, `dmsample` dies with the 'Four arguments required'
error after it has opened both output files for writing; with `-h` it prints
the help text to standard output and exits with status 0; and
`dmsProcessParallel` behaves likewise for `-D` and `-h`. -/
theorem C6_bad_argument_count_counterexample :
    dmsample_main scenario_world [('D', "dump.hash"), ('l', "run.log")]
        ["blocks.ss", "tree.mod", "motif.pssm"] =
      ⟨[Event.fopen "dump.hash" "w", Event.fopen "run.log" "w"],
        .died "Four arguments required.  Try 'dmsample -h'.\n"⟩ ∧
    dmsample_main scenario_world [('h', "")] ["blocks.ss", "tree.mod", "motif.pssm"] =
      ⟨[Event.print_stdout scenario_world.HELP], .exited 0⟩ ∧
    dmsProcessParallel_main scenario_world [('D', "dump.hash")]
        ["B,A", "blocks.ss", "tree.mod"] =
      ⟨[Event.fopen "dump.hash" "w"],
        .died "Four arguments required.  Try 'dmsProcessParallel -h'.\n"⟩ ∧
    dmsProcessParallel_main scenario_world [('h', "")] ["B,A", "blocks.ss", "tree.mod"] =
      ⟨[Event.print_stdout scenario_world.HELP], .exited 0⟩ := by
  refine ⟨by decide, by decide, by decide, by decide⟩

/-- C6, amended: for every invocation of `dmsample` or `dmsProcessParallel`
whose option parsing runs to its end and whose number of positional arguments
is not four, the program dies with the 'Four arguments required' error having
written nothing to standard output; the only files it has opened for writing
by then are those named by the `-D` options (and, in `dmsample`, the `-l`
options), opened during option parsing.  An invocation whose option parsing
ends the process ends the way the parsing ended it, whatever its positional
arguments; so with `-h` after options that are all accepted, the program
does what those options do, prints the help text to standard output and
exits with status 0, whatever follows `-h` and whatever the number of
positional arguments. -/
theorem C6_bad_argument_count (w : World) (opts opts' : List (Char × String))
    (args args' : List String) (o : DmsOptions) (evs : List Event) (o' : DppOptions)
    (evs' : List Event)
    (hargs : args.length ≠ 4) (hargs' : args'.length ≠ 4)
    (hopt : dmsample_getopt_loop w opts (dmsample_defaults w) = (evs, .ok o))
    (hopt' : dmsProcessParallel_getopt_loop w opts' dmsProcessParallel_defaults =
      (evs', .ok o')) :
    (dmsample_main w opts args =
        ⟨evs, .died "Four arguments required.  Try 'dmsample -h'.\n"⟩ ∧
      (∀ e ∈ evs, e.isStdout = false) ∧
      opened_for_writing evs =
        (opts.filter (fun co => decide (co.1 = 'D' ∨ co.1 = 'l'))).map Prod.snd) ∧
    (dmsProcessParallel_main w opts' args' =
        ⟨evs', .died "Four arguments required.  Try 'dmsProcessParallel -h'.\n"⟩ ∧
      (∀ e ∈ evs', e.isStdout = false) ∧
      opened_for_writing evs' =
        (opts'.filter (fun co => decide (co.1 = 'D'))).map Prod.snd) ∧
    (∀ (opts0 : List (Char × String)) (evs0 : List Event) (e : Outcome) (args0 : List String),
      (dmsample_getopt_loop w opts0 (dmsample_defaults w) = (evs0, .error e) →
        dmsample_main w opts0 args0 = ⟨evs0, e⟩) ∧
      (dmsProcessParallel_getopt_loop w opts0 dmsProcessParallel_defaults = (evs0, .error e) →
        dmsProcessParallel_main w opts0 args0 = ⟨evs0, e⟩)) ∧
    (∀ (pre rest : List (Char × String)) (a : String) (evs1 : List Event) (o1 : DmsOptions)
        (args0 : List String),
      dmsample_getopt_loop w pre (dmsample_defaults w) = (evs1, .ok o1) →
      dmsample_main w (pre ++ ('h', a) :: rest) args0 =
        ⟨evs1 ++ [Event.print_stdout w.HELP], .exited 0⟩) ∧
    (∀ (pre rest : List (Char × String)) (a : String) (evs1 : List Event) (o1 : DppOptions)
        (args0 : List String),
      dmsProcessParallel_getopt_loop w pre dmsProcessParallel_defaults = (evs1, .ok o1) →
      dmsProcessParallel_main w (pre ++ ('h', a) :: rest) args0 =
        ⟨evs1 ++ [Event.print_stdout w.HELP], .exited 0⟩) := by
  have h1 := dmsample_getopt_loop_ok_effects w opts (dmsample_defaults w) o (by rw [hopt])
  have h2 := dmsProcessParallel_getopt_loop_ok_effects w opts' dmsProcessParallel_defaults o'
    (by rw [hopt'])
  rw [hopt] at h1
  rw [hopt'] at h2
  refine ⟨⟨?_, h1.2, h1.1⟩, ⟨?_, h2.2, h2.1⟩, ?_, ?_, ?_⟩
  · simp [dmsample_main, hopt, dmsample_check_args_bad_count w o args hargs, Run.after]
  · simp [dmsProcessParallel_main, hopt',
      dmsProcessParallel_check_args_bad_count w o' args' hargs', Run.after]
  · intro opts0 evs0 e args0
    constructor
    · intro h
      simp [dmsample_main, h]
    · intro h
      simp [dmsProcessParallel_main, h]
  · intro pre rest a evs1 o1 args0 h
    exact dmsample_main_help w pre rest a evs1 o1 args0 h
  · intro pre rest a evs1 o1 args0 h
    exact dmsProcessParallel_main_help w pre rest a evs1 o1 args0 h

/-- C6, amended, at three positional arguments with `-q -D dump.hash`: both
programs die with the error, with `dump.hash` opened for writing and nothing
on standard output; with `-D dump.hash -h` and no positional argument,
`dmsample` opens `dump.hash`, prints the help text and exits with status
0. -/
theorem C6_bad_argument_count_witness :
    ["blocks.ss", "tree.mod", "motif.pssm"].length ≠ 4 ∧
    dmsample_main scenario_world [('q', ""), ('D', "dump.hash")]
        ["blocks.ss", "tree.mod", "motif.pssm"] =
      ⟨[Event.fopen "dump.hash" "w"],
        .died "Four arguments required.  Try 'dmsample -h'.\n"⟩ ∧
    opened_for_writing [Event.fopen "dump.hash" "w"] = ["dump.hash"] ∧
    dmsProcessParallel_main scenario_world [('q', ""), ('D', "dump.hash")]
        ["blocks.ss", "tree.mod", "motif.pssm"] =
      ⟨[Event.fopen "dump.hash" "w"],
        .died "Four arguments required.  Try 'dmsProcessParallel -h'.\n"⟩ ∧
    dmsample_main scenario_world ([('D', "dump.hash")] ++ ('h', "") :: [('q', "")]) [] =
      ⟨[Event.fopen "dump.hash" "w"] ++ [Event.print_stdout scenario_world.HELP],
        .exited 0⟩ :=
  ⟨by decide,
   (C6_bad_argument_count scenario_world [('q', ""), ('D', "dump.hash")]
      [('q', ""), ('D', "dump.hash")] ["blocks.ss", "tree.mod", "motif.pssm"]
      ["blocks.ss", "tree.mod", "motif.pssm"]
      { dmsample_defaults scenario_world with quiet := true, hash_f := some "dump.hash" }
      [Event.fopen "dump.hash" "w"]
      { dmsProcessParallel_defaults with quiet := true, dump_f := some "dump.hash" }
      [Event.fopen "dump.hash" "w"]
      (by decide) (by decide) rfl rfl).1.1,
   by decide,
   (C6_bad_argument_count scenario_world [('q', ""), ('D', "dump.hash")]
      [('q', ""), ('D', "dump.hash")] ["blocks.ss", "tree.mod", "motif.pssm"]
      ["blocks.ss", "tree.mod", "motif.pssm"]
      { dmsample_defaults scenario_world with quiet := true, hash_f := some "dump.hash" }
      [Event.fopen "dump.hash" "w"]
      { dmsProcessParallel_defaults with quiet := true, dump_f := some "dump.hash" }
      [Event.fopen "dump.hash" "w"]
      (by decide) (by decide) rfl rfl).2.1.1,
   (C6_bad_argument_count scenario_world [('q', ""), ('D', "dump.hash")]
      [('q', ""), ('D', "dump.hash")] ["blocks.ss", "tree.mod", "motif.pssm"]
      ["blocks.ss", "tree.mod", "motif.pssm"]
      { dmsample_defaults scenario_world with quiet := true, hash_f := some "dump.hash" }
      [Event.fopen "dump.hash" "w"]
      { dmsProcessParallel_defaults with quiet := true, dump_f := some "dump.hash" }
      [Event.fopen "dump.hash" "w"]
      (by decide) (by decide) rfl rfl).2.2.2.1 [('D', "dump.hash")] [('q', "")] ""
      [Event.fopen "dump.hash" "w"]
      { dmsample_defaults scenario_world with hash_f := some "dump.hash" } [] rfl⟩

/-- C7: unsupported models are rejected before any sampling.  When the tree
model a run reads has `nratecats > 1` or `order > 0`, neither driver ever
calls the sampler, the emission computation, the merge or read step or the
feature emitter, and the run does not return from `main`: it ends by `die`
(or by the `exit(0)` of `-h` during option parsing); once `dmsample` has read
the model, and once `dmsProcessParallel` has read the model and the motif,
the run dies with the rate-variation or the single-nucleotide error. -/
theorem C7_unsupported_models_rejected (w : World) (opts opts' : List (Char × String))
    (msa_fname mod_fname motif_fname prior_fname : String)
    (hash_arg msa_fname' mod_fname' motif_fname' : String) (m m' : TreeModel)
    (hmod : w.tm_new_from_file mod_fname = .ok m)
    (hbad : m.nratecats > 1 ∨ m.order > 0)
    (hmod' : w.tm_new_from_file mod_fname' = .ok m')
    (hbad' : m'.nratecats > 1 ∨ m'.order > 0) :
    ((∀ e ∈ (dmsample_main w opts [msa_fname, mod_fname, motif_fname, prior_fname]).trace,
        e.isSampler = false ∧ e.isEmissions = false ∧ e.isMergeOrRead = false ∧
          e.isEmit = false) ∧
      ((dmsample_main w opts [msa_fname, mod_fname, motif_fname, prior_fname]).outcome =
          .exited 0 ∨
        ∃ msg, (dmsample_main w opts [msa_fname, mod_fname, motif_fname, prior_fname]).outcome =
          .died msg) ∧
      (Event.tm_new_from_file ∈
          (dmsample_main w opts [msa_fname, mod_fname, motif_fname, prior_fname]).trace →
        (dmsample_main w opts [msa_fname, mod_fname, motif_fname, prior_fname]).outcome =
            .died "ERROR: rate variation not currently supported.\n" ∨
          (dmsample_main w opts [msa_fname, mod_fname, motif_fname, prior_fname]).outcome =
            .died "ERROR: only single nucleotide models are currently supported.\n")) ∧
    ((∀ e ∈ (dmsProcessParallel_main w opts'
          [hash_arg, msa_fname', mod_fname', motif_fname']).trace,
        e.isSampler = false ∧ e.isEmissions = false ∧ e.isMergeOrRead = false ∧
          e.isEmit = false) ∧
      ((dmsProcessParallel_main w opts'
          [hash_arg, msa_fname', mod_fname', motif_fname']).outcome = .exited 0 ∨
        ∃ msg, (dmsProcessParallel_main w opts'
          [hash_arg, msa_fname', mod_fname', motif_fname']).outcome = .died msg) ∧
      (Event.mot_read ∈ (dmsProcessParallel_main w opts'
          [hash_arg, msa_fname', mod_fname', motif_fname']).trace →
        (dmsProcessParallel_main w opts'
            [hash_arg, msa_fname', mod_fname', motif_fname']).outcome =
            .died "ERROR: rate variation not currently supported.\n" ∨
          (dmsProcessParallel_main w opts'
            [hash_arg, msa_fname', mod_fname', motif_fname']).outcome =
            .died "ERROR: only single nucleotide models are currently supported.\n")) := by
  have hclass : ∀ l : List Event, (∀ e ∈ l, e.isSetup = true) →
      ∀ e ∈ l, e.isSampler = false ∧ e.isEmissions = false ∧ e.isMergeOrRead = false ∧
        e.isEmit = false := by
    intro l hl e he
    have := isSetup_class e (hl e he)
    exact ⟨this.2.2.1, this.2.2.2, this.1, this.2.1⟩
  constructor
  · rcases dmsample_main_cases w opts [msa_fname, mod_fname, motif_fname, prior_fname] with
      ⟨h1, h2⟩ | ⟨pre, o, a0, a1, a2, a3, hargs, hpre, hrun⟩
    · refine ⟨hclass _ (fun e he => isSetup_of_isArgs e (h1 e he)), h2, ?_⟩
      intro hmem
      have := h1 _ hmem
      simp [Event.isArgs] at this
    · simp only [List.cons.injEq, and_true] at hargs
      obtain ⟨rfl, rfl, rfl, rfl⟩ := hargs
      have hpre' : ∀ e ∈ pre, e.isSetup = true := fun e he => isSetup_of_isArgs e (hpre e he)
      rcases dmsample_read_model_bad w o msa_fname mod_fname motif_fname prior_fname m hmod hbad
        with h | h
      all_goals
        rw [hrun, h]
        refine ⟨?_, Or.inr ⟨_, rfl⟩, fun _ => ?_⟩
        · apply hclass
          intro e he
          simp only [Run.after, List.mem_append, List.mem_cons, List.mem_singleton,
            List.not_mem_nil, or_false] at he
          rcases he with he | rfl | rfl
          · exact hpre' e he
          · rfl
          · rfl
        · first
          | exact Or.inl rfl
          | exact Or.inr rfl
  · rcases dmsProcessParallel_main_cases w opts' [hash_arg, msa_fname', mod_fname', motif_fname']
      with ⟨h1, h2⟩ | ⟨pre, o, a0, a1, a2, a3, m2, d, hargs, hm2, hpre, hrun⟩
    · refine ⟨hclass _ (fun e he => isSetup_of_isInput e (h1 e he).1), h2, ?_⟩
      intro hmem
      exact absurd rfl (h1 _ hmem).2
    · simp only [List.cons.injEq, and_true] at hargs
      obtain ⟨rfl, rfl, rfl, rfl⟩ := hargs
      have hmm : m2 = m' := by
        rw [hmod'] at hm2
        exact (Except.ok.inj hm2).symm
      subst hmm
      have hpre' : ∀ e ∈ pre, e.isSetup = true := fun e he => isSetup_of_isInput e (hpre e he)
      rcases dmsProcessParallel_check_model_bad w o m2 d (w.hash_files hash_arg) hbad'
        with h | h
      all_goals
        rw [hrun, h]
        refine ⟨?_, Or.inr ⟨_, rfl⟩, fun _ => ?_⟩
        · apply hclass
          intro e he
          simp only [Run.after, List.append_nil] at he
          exact hpre' e he
        · first
          | exact Or.inl rfl
          | exact Or.inr rfl

/-- C7, at a tree model with four rate categories: both drivers read it and
die with the rate-variation error. -/
theorem C7_unsupported_models_rejected_witness :
    scenario_world_ratevar.tm_new_from_file "tree.mod" =
      .ok { scenario_mod with nratecats := 4 } ∧
    ({ scenario_mod with nratecats := 4 } : TreeModel).nratecats > 1 ∧
    Event.tm_new_from_file ∈ (dmsample_main scenario_world_ratevar [] scenario_args).trace ∧
    (∀ e ∈ (dmsample_main scenario_world_ratevar [] scenario_args).trace,
      e.isSampler = false ∧ e.isEmissions = false ∧ e.isMergeOrRead = false ∧
        e.isEmit = false) ∧
    (dmsample_main scenario_world_ratevar [] scenario_args).outcome =
      .died "ERROR: rate variation not currently supported.\n" ∧
    (dmsProcessParallel_main scenario_world_ratevar [] scenario_dpp_args).outcome =
      .died "ERROR: rate variation not currently supported.\n" :=
  ⟨rfl, by decide, by decide,
   (C7_unsupported_models_rejected scenario_world_ratevar [] [] "blocks.ss" "tree.mod"
      "motif.pssm" "priors.txt" "B,A" "blocks.ss" "tree.mod" "motif.pssm"
      { scenario_mod with nratecats := 4 } { scenario_mod with nratecats := 4 }
      rfl (Or.inl (by decide)) rfl (Or.inl (by decide))).1.1,
   by decide, by decide⟩

/-- C8: the 'no match for leaves of tree in alignment' error fires exactly
when no tree leaf matches.  For a tree with `L >= 1` leaves and
`old_nnodes = 2L - 1` nodes before pruning, `(old_nnodes + 1) / 2` is `L`, and
a run that has come to the pruning step, of either driver, ends with that
error if and only if the number `p` of pruned leaf names is `L`. -/
theorem C8_no_leaf_match_error (w : World) (o : DmsOptions) (dpp : DppOptions)
    (source_mod : TreeModel) (dmpmsa : DMotifPmsaStruct) (hash_files : List CacheFile)
    (L : Nat) (hL : 1 ≤ L) (hn : source_mod.nodes.length = 2 * L - 1) :
    Int.tdiv ((source_mod.nodes.length : Int) + 1) 2 = L ∧
    ((dmsample_prune w o source_mod dmpmsa).outcome =
        .died "ERROR: no match for leaves of tree in alignment (leaf names must match alignment names).\n" ↔
      (w.tm_prune source_mod dmpmsa.msa0).1.length = L) ∧
    ((dmsProcessParallel_prune w dpp source_mod dmpmsa hash_files).outcome =
        .died "ERROR: no match for leaves of tree in alignment (leaf names must match alignment names).\n" ↔
      (w.tm_prune source_mod dmpmsa.msa0).1.length = L) ∧
    (∀ (opts : List (Char × String)) (args : List String) (pre : List Event),
      dmsample_main w opts args = Run.after pre (dmsample_prune w o source_mod dmpmsa) →
      ((dmsample_main w opts args).outcome =
          .died "ERROR: no match for leaves of tree in alignment (leaf names must match alignment names).\n" ↔
        (w.tm_prune source_mod dmpmsa.msa0).1.length = L)) := by
  have h1 : ((dmsample_prune w o source_mod dmpmsa).outcome =
        .died "ERROR: no match for leaves of tree in alignment (leaf names must match alignment names).\n" ↔
      (w.tm_prune source_mod dmpmsa.msa0).1.length = L) := by
    rw [dmsample_prune_eq w o source_mod dmpmsa L hL hn]
    by_cases hp : (w.tm_prune source_mod dmpmsa.msa0).1.length = L
    · simp [hp]
    · simp only [hp, if_false, Run.after_outcome, iff_false]
      exact dmsample_refcheck_outcome w o _ dmpmsa
  refine ⟨leaves_of_nnodes L _ hL hn, h1, ?_, ?_⟩
  · rw [dmsProcessParallel_prune_eq w dpp source_mod dmpmsa hash_files L hL hn]
    by_cases hp : (w.tm_prune source_mod dmpmsa.msa0).1.length = L
    · simp [hp]
    · simp only [hp, if_false, Run.after_outcome, iff_false]
      exact dmsProcessParallel_refcheck_outcome w dpp _ dmpmsa hash_files
  · intro opts args pre hrun
    rw [hrun, Run.after_outcome]
    exact h1

/-- C8, at the scenario tree (5 leaves, 9 nodes) with 3 pruned leaves: no
error of that kind. -/
theorem C8_no_leaf_match_error_witness :
    1 ≤ 5 ∧ scenario_mod.nodes.length = 2 * 5 - 1 ∧
    Int.tdiv ((scenario_mod.nodes.length : Int) + 1) 2 = (5 : Nat) ∧
    ((dmsample_prune scenario_world (dmsample_defaults scenario_world) scenario_mod
        scenario_dmpmsa).outcome =
        .died "ERROR: no match for leaves of tree in alignment (leaf names must match alignment names).\n" ↔
      (scenario_world.tm_prune scenario_mod scenario_dmpmsa.msa0).1.length = 5) :=
  ⟨by decide, by decide,
   (C8_no_leaf_match_error scenario_world (dmsample_defaults scenario_world)
      dmsProcessParallel_defaults scenario_mod scenario_dmpmsa [] 5 (by decide) (by decide)).1,
   (C8_no_leaf_match_error scenario_world (dmsample_defaults scenario_world)
      dmsProcessParallel_defaults scenario_mod scenario_dmpmsa [] 5 (by decide) (by decide)).2.1⟩

/-- C9, as stated, fails: on the scenario tree of 5 leaves, pruning removes
3 of them, a majority, and both drivers go on past the pruning step, through
the sampler or the merge, and return 0. -/
theorem C9_majority_pruned_counterexample :
    scenario_mod.nodes.length = 2 * 5 - 1 ∧
    2 * (scenario_world.tm_prune scenario_mod scenario_dmpmsa.msa0).1.length > 5 ∧
    Event.tr_name_ancestors ∈ (dmsample_main scenario_world [] scenario_args).trace ∧
    Event.dms_sample_paths_pthr ∈ (dmsample_main scenario_world [] scenario_args).trace ∧
    (dmsample_main scenario_world [] scenario_args).outcome = .returned 0 ∧
    Event.dms_uncache ["B", "A"] 10000 8 0 ∈
      (dmsProcessParallel_main scenario_world [] scenario_dpp_args).trace ∧
    (dmsProcessParallel_main scenario_world [] scenario_dpp_args).outcome = .returned 0 := by
  refine ⟨by decide, by decide, by decide, by decide, by decide, by decide, by decide⟩

/-- C9, amended: pruning is fatal only when it would remove every leaf.  For
a tree with `L` leaves (`2L - 1` nodes) and `p` pruned leaf names, a run
of either driver that has come to the pruning step ends there, with the 'no
match for leaves' error, when `p = L`; when `p < L`, also when `2p > L`, it
goes on with the pruned tree to the reference check, after the warning that
names the pruned leaves when `p > 0`. -/
theorem C9_pruning_fatal_only_for_all_leaves (w : World) (o : DmsOptions) (dpp : DppOptions)
    (source_mod : TreeModel) (dmpmsa : DMotifPmsaStruct) (hash_files : List CacheFile)
    (L : Nat) (hL : 1 ≤ L) (hn : source_mod.nodes.length = 2 * L - 1) :
    ((w.tm_prune source_mod dmpmsa.msa0).1.length = L →
      dmsample_prune w o source_mod dmpmsa =
        ⟨[Event.tm_prune],
          .died "ERROR: no match for leaves of tree in alignment (leaf names must match alignment names).\n"⟩ ∧
      dmsProcessParallel_prune w dpp source_mod dmpmsa hash_files =
        ⟨[Event.tm_prune],
          .died "ERROR: no match for leaves of tree in alignment (leaf names must match alignment names).\n"⟩) ∧
    ((w.tm_prune source_mod dmpmsa.msa0).1.length < L →
      dmsample_prune w o source_mod dmpmsa =
        Run.after
          ([Event.tm_prune] ++ pruned_warning_events (w.tm_prune source_mod dmpmsa.msa0).1 ++
            [Event.tr_name_ancestors])
          (dmsample_refcheck w o (w.tr_name_ancestors (w.tm_prune source_mod dmpmsa.msa0).2)
            dmpmsa) ∧
      dmsProcessParallel_prune w dpp source_mod dmpmsa hash_files =
        Run.after
          ([Event.tm_prune] ++ pruned_warning_events (w.tm_prune source_mod dmpmsa.msa0).1 ++
            [Event.tr_name_ancestors])
          (dmsProcessParallel_refcheck w dpp
            (w.tr_name_ancestors (w.tm_prune source_mod dmpmsa.msa0).2) dmpmsa hash_files)) := by
  rw [dmsample_prune_eq w o source_mod dmpmsa L hL hn,
    dmsProcessParallel_prune_eq w dpp source_mod dmpmsa hash_files L hL hn]
  constructor
  · intro h
    simp [h]
  · intro h
    have h' : ¬ (w.tm_prune source_mod dmpmsa.msa0).1.length = L := by omega
    simp [h']

/-- C9, amended, at the scenario: 3 of 5 leaves pruned, and the run goes on
to the reference check. -/
theorem C9_pruning_fatal_only_for_all_leaves_witness :
    1 ≤ 5 ∧ scenario_mod.nodes.length = 2 * 5 - 1 ∧
    (scenario_world.tm_prune scenario_mod scenario_dmpmsa.msa0).1.length < 5 ∧
    dmsample_prune scenario_world (dmsample_defaults scenario_world) scenario_mod
        scenario_dmpmsa =
      Run.after
        ([Event.tm_prune] ++
          pruned_warning_events (scenario_world.tm_prune scenario_mod scenario_dmpmsa.msa0).1 ++
          [Event.tr_name_ancestors])
        (dmsample_refcheck scenario_world (dmsample_defaults scenario_world)
          (scenario_world.tr_name_ancestors
            (scenario_world.tm_prune scenario_mod scenario_dmpmsa.msa0).2) scenario_dmpmsa) :=
  ⟨by decide, by decide, by decide,
   ((C9_pruning_fatal_only_for_all_leaves scenario_world (dmsample_defaults scenario_world)
      dmsProcessParallel_defaults scenario_mod scenario_dmpmsa [] 5 (by decide)
      (by decide)).2 (by decide)).1⟩

/-- C10, where the claim fails: `--refidx 5` on the scenario, whose first
alignment block has the two sequences `human` and `mouse`.  There is no
sequence 4, so no node of the pruned tree bears its name; yet the run does
not end with 'no match for reference sequence in tree': neither driver
compares `refidx` with the number of sequences, the loop reads `names[4]`
beyond the two names, and the outcome of the run is undefined. -/
theorem C10_reference_in_tree_counterexample :
    scenario_dmpmsa.msa0.names = ["human", "mouse"] ∧
    scenario_dmpmsa.msa0.names[((5 : Int) - 1).toNat]? = none ∧
    dmsample_refcheck scenario_world { dmsample_defaults scenario_world with refidx := 5 }
        [⟨"human"⟩, ⟨"mouse"⟩, ⟨"human-mouse"⟩] scenario_dmpmsa = ⟨[], .undefined⟩ ∧
    (dmsample_main scenario_world_refidx5 [('r', "5")] scenario_args).outcome = .undefined ∧
    (dmsProcessParallel_main scenario_world_refidx5 [('r', "5")] scenario_dpp_args).outcome =
      .undefined :=
  ⟨by decide, by decide, by decide, by decide, by decide⟩

/-- C10, amended: the reference sequence must be in the tree.  With
`refidx > 0` no greater than the number of sequences of the first alignment
block and `refname` the name of sequence `refidx - 1` of that block, a run
of either driver that has come to the reference check goes on to the
rest of the run if some node of the pruned tree is named `refname`, and
otherwise ends there with 'no match for reference sequence in tree'; it
passes the check if and only if such a node exists.  With `refidx = 0` the
check is skipped.  A whole run that dies with that error has called neither
the sampler, nor the emission computation, nor the merge or read step, nor
the feature emitter. -/
theorem C10_reference_in_tree (w : World) (o : DmsOptions) (dpp : DppOptions)
    (nodes : List TreeNode) (dmpmsa : DMotifPmsaStruct) (hash_files : List CacheFile)
    (refname refname' : String)
    (hpos : o.refidx > 0)
    (hname : dmpmsa.msa0.names[(o.refidx - 1).toNat]? = some refname)
    (hpos' : dpp.refidx > 0)
    (hname' : dmpmsa.msa0.names[(dpp.refidx - 1).toNat]? = some refname') :
    (((∃ n ∈ nodes, n.name = refname) →
        dmsample_refcheck w o nodes dmpmsa = dmsample_pipeline w o dmpmsa) ∧
      ((¬ ∃ n ∈ nodes, n.name = refname) →
        dmsample_refcheck w o nodes dmpmsa =
          ⟨[], .died "ERROR: no match for reference sequence in tree.\n"⟩) ∧
      ((dmsample_refcheck w o nodes dmpmsa).outcome = .returned 0 ↔
        ∃ n ∈ nodes, n.name = refname)) ∧
    (((∃ n ∈ nodes, n.name = refname') →
        dmsProcessParallel_refcheck w dpp nodes dmpmsa hash_files =
          dmsProcessParallel_pipeline w dpp hash_files) ∧
      ((¬ ∃ n ∈ nodes, n.name = refname') →
        dmsProcessParallel_refcheck w dpp nodes dmpmsa hash_files =
          ⟨[], .died "ERROR: no match for reference sequence in tree.\n"⟩) ∧
      ((dmsProcessParallel_refcheck w dpp nodes dmpmsa hash_files).outcome = .returned 0 ↔
        ∃ n ∈ nodes, n.name = refname')) ∧
    (∀ o0 : DmsOptions, o0.refidx = 0 →
      dmsample_refcheck w o0 nodes dmpmsa = dmsample_pipeline w o0 dmpmsa) ∧
    (∀ d0 : DppOptions, d0.refidx = 0 →
      dmsProcessParallel_refcheck w d0 nodes dmpmsa hash_files =
        dmsProcessParallel_pipeline w d0 hash_files) ∧
    (∀ (opts : List (Char × String)) (args : List String),
      (dmsample_main w opts args).outcome =
          .died "ERROR: no match for reference sequence in tree.\n" →
        ∀ e ∈ (dmsample_main w opts args).trace,
          e.isSampler = false ∧ e.isEmissions = false ∧ e.isMergeOrRead = false ∧
            e.isEmit = false) ∧
    (∀ (opts : List (Char × String)) (args : List String),
      (dmsProcessParallel_main w opts args).outcome =
          .died "ERROR: no match for reference sequence in tree.\n" →
        ∀ e ∈ (dmsProcessParallel_main w opts args).trace,
          e.isSampler = false ∧ e.isEmissions = false ∧ e.isMergeOrRead = false ∧
            e.isEmit = false) := by
  have hany : ∀ name : String,
      (nodes.any (fun n => decide (n.name = name)) = true ↔ ∃ n ∈ nodes, n.name = name) := by
    intro name
    simp [List.any_eq_true]
  refine ⟨⟨?_, ?_, ?_⟩, ⟨?_, ?_, ?_⟩, ?_, ?_, ?_, ?_⟩
  · intro h
    rw [dmsample_refcheck_eq w o nodes dmpmsa refname hpos hname, if_pos ((hany refname).2 h)]
  · intro h
    rw [dmsample_refcheck_eq w o nodes dmpmsa refname hpos hname,
      if_neg (fun h' => h ((hany refname).1 h'))]
  · rw [dmsample_refcheck_eq w o nodes dmpmsa refname hpos hname, ← hany refname]
    by_cases h : nodes.any (fun n => decide (n.name = refname)) = true
    · simp only [h, if_true, dmsample_pipeline_outcome]
    · simp [h]
  · intro h
    rw [dmsProcessParallel_refcheck_eq w dpp nodes dmpmsa hash_files refname' hpos' hname',
      if_pos ((hany refname').2 h)]
  · intro h
    rw [dmsProcessParallel_refcheck_eq w dpp nodes dmpmsa hash_files refname' hpos' hname',
      if_neg (fun h' => h ((hany refname').1 h'))]
  · rw [dmsProcessParallel_refcheck_eq w dpp nodes dmpmsa hash_files refname' hpos' hname',
      ← hany refname']
    by_cases h : nodes.any (fun n => decide (n.name = refname')) = true
    · simp only [h, if_true, dmsProcessParallel_pipeline_outcome]
    · simp [h]
  · intro o0 h0
    unfold dmsample_refcheck
    simp [h0]
  · intro d0 h0
    unfold dmsProcessParallel_refcheck
    simp [h0]
  · intro opts args hdied e he
    rcases dmsample_main_cases_pipeline w opts args with ⟨h1, _⟩ | ⟨pre, o1, d1, _, hrun⟩
    · have := isSetup_class e (h1 e he)
      exact ⟨this.2.2.1, this.2.2.2, this.1, this.2.1⟩
    · rw [hrun, Run.after_outcome, dmsample_pipeline_outcome] at hdied
      cases hdied
  · intro opts args hdied e he
    rcases dmsProcessParallel_main_cases_pipeline w opts args with
      ⟨h1, _⟩ | ⟨pre, o1, hf1, _, hrun⟩
    · have := isSetup_class e (h1 e he)
      exact ⟨this.2.2.1, this.2.2.2, this.1, this.2.1⟩
    · rw [hrun, Run.after_outcome, dmsProcessParallel_pipeline_outcome] at hdied
      cases hdied

/-- C10, amended, at an alignment whose first sequence `chimp` is not in the
tree: the reference check ends the run, and whole runs of both drivers with
`refidx = 1` die with the reference error; with `human` first the merger
returns. -/
theorem C10_reference_in_tree_witness :
    scenario_refidx1.refidx > 0 ∧
    (["chimp", "human", "mouse"] : List String)[(scenario_refidx1.refidx - 1).toNat]? =
      some "chimp" ∧
    dmsample_refcheck scenario_world_noref scenario_refidx1
        [⟨"human"⟩, ⟨"mouse"⟩, ⟨"human-mouse"⟩] ⟨⟨["chimp", "human", "mouse"]⟩, 1, 7, 100⟩ =
      ⟨[], .died "ERROR: no match for reference sequence in tree.\n"⟩ ∧
    (dmsample_main scenario_world_noref [('r', "1")] scenario_args).outcome =
      .died "ERROR: no match for reference sequence in tree.\n" ∧
    (dmsProcessParallel_main scenario_world_noref [] scenario_dpp_args).outcome =
      .died "ERROR: no match for reference sequence in tree.\n" ∧
    (dmsProcessParallel_main scenario_world [] scenario_dpp_args).outcome = .returned 0 :=
  ⟨by decide, by decide,
   (C10_reference_in_tree scenario_world_noref scenario_refidx1 dmsProcessParallel_defaults
      [⟨"human"⟩, ⟨"mouse"⟩, ⟨"human-mouse"⟩] ⟨⟨["chimp", "human", "mouse"]⟩, 1, 7, 100⟩ []
      "chimp" "chimp" (by decide) (by decide) (by decide) (by decide)).1.2.1 (by decide),
   by decide, by decide, by decide⟩

/-- C11: warnings are non-fatal.  In both drivers, a supported tree model
that is non-reversible adds the reversibility warning on stderr and the run
goes on with the same next step (reading the data in `dmsample`, pruning in
`dmsProcessParallel`) on the same option variables and model as without the
warning, and a number `p` of pruned leaves with
`0 < p < (old_nnodes + 1) / 2` adds the pruning warning on stderr and the run
goes on with naming the ancestors and the reference check; in each case the
run ends as that next step ends.  The next step does not read the
reversibility flag: it is the same run for the model with the flag set,
wherever `tm_prune` returns the same for both. -/
theorem C11_warnings_nonfatal (w : World) (o : DmsOptions) (dpp : DppOptions)
    (source_mod : TreeModel) (dmpmsa : DMotifPmsaStruct) (hash_files : List CacheFile)
    (msa_fname mod_fname motif_fname prior_fname : String)
    (hmod : w.tm_new_from_file mod_fname = .ok source_mod)
    (hrate : ¬ source_mod.nratecats > 1) (horder : ¬ source_mod.order > 0) :
    (dmsample_read_model w o msa_fname mod_fname motif_fname prior_fname =
        Run.after
          ([Event.print_stderr ("Reading tree model from " ++ mod_fname ++ "...\n"),
            Event.tm_new_from_file] ++
            (if source_mod.reversible = false then
              [Event.print_stderr
                "WARNING: p-value computation assumes reversibility and your model is non-reversible.\n"]
             else []))
          (dmsample_read_data w o source_mod msa_fname motif_fname prior_fname) ∧
      (dmsample_read_model w o msa_fname mod_fname motif_fname prior_fname).outcome =
        (dmsample_read_data w o source_mod msa_fname motif_fname prior_fname).outcome) ∧
    (dmsProcessParallel_check_model w dpp source_mod dmpmsa hash_files =
        Run.after
          (if source_mod.reversible = false then
            [Event.print_stderr
              "WARNING: p-value computation assumes reversibility and your model is non-reversible.\n"]
           else [])
          (dmsProcessParallel_prune w dpp source_mod dmpmsa hash_files) ∧
      (dmsProcessParallel_check_model w dpp source_mod dmpmsa hash_files).outcome =
        (dmsProcessParallel_prune w dpp source_mod dmpmsa hash_files).outcome) ∧
    (w.tm_prune source_mod dmpmsa.msa0 =
        w.tm_prune { source_mod with reversible := true } dmpmsa.msa0 →
      dmsample_prune w o source_mod dmpmsa =
        dmsample_prune w o { source_mod with reversible := true } dmpmsa ∧
      dmsProcessParallel_prune w dpp source_mod dmpmsa hash_files =
        dmsProcessParallel_prune w dpp { source_mod with reversible := true } dmpmsa
          hash_files) ∧
    (0 < (w.tm_prune source_mod dmpmsa.msa0).1.length →
      ((w.tm_prune source_mod dmpmsa.msa0).1.length : Int) <
        Int.tdiv ((source_mod.nodes.length : Int) + 1) 2 →
      (dmsample_prune w o source_mod dmpmsa =
          Run.after
            [Event.tm_prune,
             Event.print_stderr (pruned_warning (w.tm_prune source_mod dmpmsa.msa0).1),
             Event.tr_name_ancestors]
            (dmsample_refcheck w o (w.tr_name_ancestors (w.tm_prune source_mod dmpmsa.msa0).2)
              dmpmsa) ∧
        (dmsample_prune w o source_mod dmpmsa).outcome =
          (dmsample_refcheck w o (w.tr_name_ancestors (w.tm_prune source_mod dmpmsa.msa0).2)
            dmpmsa).outcome) ∧
      (dmsProcessParallel_prune w dpp source_mod dmpmsa hash_files =
          Run.after
            [Event.tm_prune,
             Event.print_stderr (pruned_warning (w.tm_prune source_mod dmpmsa.msa0).1),
             Event.tr_name_ancestors]
            (dmsProcessParallel_refcheck w dpp
              (w.tr_name_ancestors (w.tm_prune source_mod dmpmsa.msa0).2) dmpmsa hash_files) ∧
        (dmsProcessParallel_prune w dpp source_mod dmpmsa hash_files).outcome =
          (dmsProcessParallel_refcheck w dpp
            (w.tr_name_ancestors (w.tm_prune source_mod dmpmsa.msa0).2) dmpmsa
            hash_files).outcome)) ∧
    ((w.tm_prune source_mod dmpmsa.msa0).1.length = 0 →
      0 < Int.tdiv ((source_mod.nodes.length : Int) + 1) 2 →
      dmsample_prune w o source_mod dmpmsa =
          Run.after [Event.tm_prune, Event.tr_name_ancestors]
            (dmsample_refcheck w o (w.tr_name_ancestors (w.tm_prune source_mod dmpmsa.msa0).2)
              dmpmsa) ∧
      dmsProcessParallel_prune w dpp source_mod dmpmsa hash_files =
          Run.after [Event.tm_prune, Event.tr_name_ancestors]
            (dmsProcessParallel_refcheck w dpp
              (w.tr_name_ancestors (w.tm_prune source_mod dmpmsa.msa0).2) dmpmsa hash_files)) := by
  have h1 : dmsample_read_model w o msa_fname mod_fname motif_fname prior_fname =
      Run.after
        ([Event.print_stderr ("Reading tree model from " ++ mod_fname ++ "...\n"),
          Event.tm_new_from_file] ++
          (if source_mod.reversible = false then
            [Event.print_stderr
              "WARNING: p-value computation assumes reversibility and your model is non-reversible.\n"]
           else []))
        (dmsample_read_data w o source_mod msa_fname motif_fname prior_fname) := by
    unfold dmsample_read_model
    rw [hmod]
    simp only [hrate, horder, if_false, reversibility_warning]
  have h2 : dmsProcessParallel_check_model w dpp source_mod dmpmsa hash_files =
      Run.after
        (if source_mod.reversible = false then
          [Event.print_stderr
            "WARNING: p-value computation assumes reversibility and your model is non-reversible.\n"]
         else [])
        (dmsProcessParallel_prune w dpp source_mod dmpmsa hash_files) := by
    unfold dmsProcessParallel_check_model
    simp only [hrate, horder, if_false, reversibility_warning]
  refine ⟨⟨h1, ?_⟩, ⟨h2, ?_⟩, ?_, ?_, ?_⟩
  · rw [h1, Run.after_outcome]
  · rw [h2, Run.after_outcome]
  · intro hp
    constructor
    · unfold dmsample_prune
      simp only [← hp]
    · unfold dmsProcessParallel_prune
      simp only [← hp]
  · intro hpos hlt
    have hne : ¬ ((w.tm_prune source_mod dmpmsa.msa0).1.length : Int) =
        Int.tdiv ((source_mod.nodes.length : Int) + 1) 2 := by omega
    have hwarn : pruned_warning_events (w.tm_prune source_mod dmpmsa.msa0).1 =
        [Event.print_stderr (pruned_warning (w.tm_prune source_mod dmpmsa.msa0).1)] := by
      unfold pruned_warning_events
      simp only [gt_iff_lt, hpos, if_true]
    have e1 : dmsample_prune w o source_mod dmpmsa =
        Run.after
          [Event.tm_prune,
           Event.print_stderr (pruned_warning (w.tm_prune source_mod dmpmsa.msa0).1),
           Event.tr_name_ancestors]
          (dmsample_refcheck w o (w.tr_name_ancestors (w.tm_prune source_mod dmpmsa.msa0).2)
            dmpmsa) := by
      unfold dmsample_prune
      simp only [hne, if_false, hwarn]
      rfl
    have e2 : dmsProcessParallel_prune w dpp source_mod dmpmsa hash_files =
        Run.after
          [Event.tm_prune,
           Event.print_stderr (pruned_warning (w.tm_prune source_mod dmpmsa.msa0).1),
           Event.tr_name_ancestors]
          (dmsProcessParallel_refcheck w dpp
            (w.tr_name_ancestors (w.tm_prune source_mod dmpmsa.msa0).2) dmpmsa hash_files) := by
      unfold dmsProcessParallel_prune
      simp only [hne, if_false, hwarn]
      rfl
    refine ⟨⟨e1, ?_⟩, ⟨e2, ?_⟩⟩
    · rw [e1, Run.after_outcome]
    · rw [e2, Run.after_outcome]
  · intro hzero hpos
    have hne : ¬ ((w.tm_prune source_mod dmpmsa.msa0).1.length : Int) =
        Int.tdiv ((source_mod.nodes.length : Int) + 1) 2 := by omega
    have hwarn : pruned_warning_events (w.tm_prune source_mod dmpmsa.msa0).1 = [] := by
      unfold pruned_warning_events
      simp only [gt_iff_lt, hzero, lt_self_iff_false, if_false]
    constructor
    · unfold dmsample_prune
      simp only [hne, if_false, hwarn]
      rfl
    · unfold dmsProcessParallel_prune
      simp only [hne, if_false, hwarn]
      rfl

/-- C11, at the scenario with a non-reversible model and 3 of 5 leaves
pruned: both warnings are written and both drivers return 0. -/
theorem C11_warnings_nonfatal_witness :
    scenario_world_nonrev.tm_new_from_file "tree.mod" =
      .ok { scenario_mod with reversible := false } ∧
    (dmsample_read_model scenario_world_nonrev (dmsample_defaults scenario_world_nonrev)
        "blocks.ss" "tree.mod" "motif.pssm" "priors.txt").outcome =
      (dmsample_read_data scenario_world_nonrev (dmsample_defaults scenario_world_nonrev)
        { scenario_mod with reversible := false } "blocks.ss" "motif.pssm"
        "priors.txt").outcome ∧
    Event.print_stderr
        "WARNING: p-value computation assumes reversibility and your model is non-reversible.\n" ∈
      (dmsample_main scenario_world_nonrev [] scenario_args).trace ∧
    Event.print_stderr
        "WARNING: pruned away leaves of tree with no match in alignment (rat, dog, cow).\n" ∈
      (dmsample_main scenario_world_nonrev [] scenario_args).trace ∧
    (dmsample_main scenario_world_nonrev [] scenario_args).outcome = .returned 0 ∧
    (dmsProcessParallel_main scenario_world_nonrev [] scenario_dpp_args).outcome =
      .returned 0 ∧
    (dmsample_main scenario_world_nonrev [] scenario_args).trace.filter
        (fun e => decide (e ≠ Event.print_stderr
          "WARNING: p-value computation assumes reversibility and your model is non-reversible.\n")) =
      (dmsample_main scenario_world [] scenario_args).trace :=
  ⟨rfl,
   (C11_warnings_nonfatal scenario_world_nonrev (dmsample_defaults scenario_world_nonrev)
      dmsProcessParallel_defaults { scenario_mod with reversible := false } scenario_dmpmsa []
      "blocks.ss" "tree.mod" "motif.pssm" "priors.txt" rfl (by decide) (by decide)).1.2,
   by decide, by decide, by decide, by decide, by decide⟩

/-- C12: cache-file retention.  The pipeline of `dmsample` deletes (by
`system("rm <name>")`, the command being built by `snprintf` in the buffer of
`STR_MED_LEN` characters) every cache file of the list the sampler returned,
once each and in list order, when the run sampled (`precomputed_hash` clear)
and `hash_debug` is off, and deletes nothing in precomputed-hash mode or with
`hash_debug` on; the command is exactly `rm <name>` whenever that text fits
the buffer.  A whole run deletes nothing before its pipeline, and nothing
before the first call of `dms_uncache`. -/
theorem C12_cache_file_retention (w : World) (o : DmsOptions) (dmpmsa : DMotifPmsaStruct)
    (opts : List (Char × String)) (args : List String) :
    ((dmsample_pipeline w o dmpmsa).trace.filter Event.isSystem =
      if o.precomputed_hash = false ∧ o.hash_debug = false then
        w.dms_sample_paths_pthr.map (rm_command w)
      else []) ∧
    (∀ f : CacheFile, ("rm " ++ f.name).length < w.STR_MED_LEN →
      rm_command w f = Event.system ("rm " ++ f.name)) ∧
    ((dmsample_main w opts args).trace.filter Event.isSystem = [] ∨
      ∃ pre o' d', (∀ e ∈ pre, e.isSystem = false) ∧
        dmsample_main w opts args = Run.after pre (dmsample_pipeline w o' d')) ∧
    (∀ e ∈ before_first Event.isUncache (dmsample_main w opts args).trace,
      e.isSystem = false) := by
  refine ⟨dmsample_pipeline_systems w o dmpmsa, ?_, ?_,
    dmsample_main_no_system_before_uncache w opts args⟩
  · intro f hf
    unfold rm_command
    rw [snprintf_fits _ _ hf]
  · rcases dmsample_main_cases_pipeline w opts args with ⟨h1, _⟩ | ⟨pre, o', d', hpre, hrun⟩
    · left
      rw [List.filter_eq_nil_iff]
      intro e he
      simp [(isSetup_not_system e (h1 e he)).1]
    · exact Or.inr ⟨pre, o', d', fun e he => (isSetup_not_system e (hpre e he)).1, hrun⟩

/-- C13, as stated, fails: the minimum allowable number of columns,
`GFF_MIN_NCOLS`, is 5, not the total number of columns, `GFF_NCOLS` = 9. -/
theorem C13_min_columns_counterexample :
    GFF_MIN_NCOLS ≠ GFF_NCOLS ∧ GFF_MIN_NCOLS ≠ 9 := by
  decide

/-- C13, amended: the total number of columns of a feature-record line is 9
and the minimum allowable number of columns is 5, which is smaller. -/
theorem C13_min_columns :
    GFF_NCOLS = 9 ∧ GFF_MIN_NCOLS = 5 ∧ GFF_MIN_NCOLS < GFF_NCOLS := by
  decide

/-- C15: recorded-sample count of a worker.  The option `--sample-interval`
stores the value `get_arg_int_bounds` accepts between 0 and `INFTY`.  For
every `burn_in`, `n_samples` and accepted `sample_interval` (natural
numbers), a worker that runs `burn_in + n_samples` iterations, discards the
first `burn_in` and keeps every `sample_interval`-th iteration thereafter
records exactly `n_samples / sample_interval` (rounded down) samples whenever
it runs without failure: with `sample_interval >= 1` it does run and records
that number; with `sample_interval = 0` and `n_samples >= 1` it fails at the
first iteration after the burn-in, and with `n_samples = 0` it records
nothing.  At 10, 100 and 5 the number is 20. -/
theorem C15_recorded_sample_count (w : World) (o : DmsOptions) (optarg : String)
    (burn_in n_samples sample_interval : Nat)
    (hacc : w.get_arg_int_bounds optarg 0 w.INFTY = .ok (sample_interval : Int)) :
    dmsample_option w o 'v' optarg =
      ([], .ok { o with sample_interval := (sample_interval : Int) }) ∧
    (1 ≤ sample_interval →
      worker_recorded burn_in n_samples sample_interval =
        some (n_samples / sample_interval)) ∧
    (sample_interval = 0 → 1 ≤ n_samples →
      worker_recorded burn_in n_samples sample_interval = none) ∧
    (n_samples = 0 → worker_recorded burn_in n_samples sample_interval = some 0) ∧
    (∀ r, worker_recorded burn_in n_samples sample_interval = some r →
      r = n_samples / sample_interval) := by
  refine ⟨?_, worker_recorded_count burn_in n_samples sample_interval, ?_, ?_, ?_⟩
  · unfold dmsample_option
    simp only [hacc]
    rfl
  · intro h0 hn
    subst h0
    exact worker_recorded_fails burn_in n_samples hn
  · intro hn
    subst hn
    exact worker_loop_burn_in_only burn_in sample_interval _ 0 0
  · intro r hr
    by_cases hsi : 1 ≤ sample_interval
    · rw [worker_recorded_count burn_in n_samples sample_interval hsi] at hr
      exact (Option.some.inj hr).symm
    · have h0 : sample_interval = 0 := by omega
      subst h0
      by_cases hn : 1 ≤ n_samples
      · rw [worker_recorded_fails burn_in n_samples hn] at hr
        cases hr
      · have hn0 : n_samples = 0 := by omega
        subst hn0
        have := worker_loop_burn_in_only burn_in 0 (burn_in + 0) 0 0
        unfold worker_recorded at hr
        rw [this] at hr
        simpa using (Option.some.inj hr).symm

/-- C15, at `--sample-interval 5`, `burn_in = 10`, `n_samples = 100`: 20
samples. -/
theorem C15_recorded_sample_count_witness :
    scenario_world_bounds.get_arg_int_bounds "5" 0 scenario_world_bounds.INFTY =
      .ok ((5 : Nat) : Int) ∧
    worker_recorded 10 100 5 = some 20 :=
  ⟨rfl,
   (C15_recorded_sample_count scenario_world_bounds (dmsample_defaults scenario_world_bounds)
      "5" 10 100 5 rfl).2.1 (by decide)⟩

/-- C17: emission barrier.  In the pipeline of a sampling run of `dmsample`
the events of the tuple-wise emission table and the sampler call are, in this
order and each once: the table is allocated, computed
(`dms_compute_emissions`), adjusted (`dm_handle_missing_data`), the sampler
`dms_sample_paths_pthr` is called, the table is released.  So the table is
built and adjusted strictly before the sampler is called, `main` does nothing
to it between the call and the release, and it is released after the sampler
has returned.  A run with a precomputed hash has none of these events, and a
whole run has none or those of its sampling pipeline. -/
theorem C17_emission_barrier (w : World) (o : DmsOptions) (dmpmsa : DMotifPmsaStruct)
    (opts : List (Char × String)) (args : List String) :
    ((dmsample_pipeline w o dmpmsa).trace.filter Event.isTable =
      if o.precomputed_hash = false then
        [Event.tuple_scores_alloc w.nstates dmpmsa.ntuples, Event.dms_compute_emissions,
         Event.dm_handle_missing_data, Event.dms_sample_paths_pthr, Event.tuple_scores_free]
      else []) ∧
    ((dmsample_main w opts args).trace.filter Event.isTable = [] ∨
      ∃ d' : DMotifPmsaStruct, (dmsample_main w opts args).trace.filter Event.isTable =
        [Event.tuple_scores_alloc w.nstates d'.ntuples, Event.dms_compute_emissions,
         Event.dm_handle_missing_data, Event.dms_sample_paths_pthr,
         Event.tuple_scores_free]) ∧
    (∀ e ∈ before_first Event.isSampler (dmsample_main w opts args).trace,
      e ≠ Event.tuple_scores_free) ∧
    (∀ e ∈ (from_first Event.isSampler (dmsample_main w opts args).trace).tail,
      e.isEmissions = false ∧ e.isSampler = false ∧
        ∀ nstates ntuples, e ≠ Event.tuple_scores_alloc nstates ntuples) := by
  have hmain : (dmsample_main w opts args).trace.filter Event.isTable = [] ∨
      ∃ d' : DMotifPmsaStruct, (dmsample_main w opts args).trace.filter Event.isTable =
        [Event.tuple_scores_alloc w.nstates d'.ntuples, Event.dms_compute_emissions,
         Event.dm_handle_missing_data, Event.dms_sample_paths_pthr,
         Event.tuple_scores_free] := by
    rcases dmsample_main_cases_pipeline w opts args with ⟨h1, _⟩ | ⟨pre, o', d', hpre, hrun⟩
    · left
      rw [List.filter_eq_nil_iff]
      intro e he
      simp [isSetup_not_table e (h1 e he)]
    · have hpre' : pre.filter Event.isTable = [] := by
        rw [List.filter_eq_nil_iff]
        intro e he
        simp [isSetup_not_table e (hpre e he)]
      rw [hrun, Run.after_trace, List.filter_append, hpre', List.nil_append,
        dmsample_pipeline_table]
      by_cases hp : o'.precomputed_hash = false
      · exact Or.inr ⟨d', by rw [if_pos hp]⟩
      · exact Or.inl (by rw [if_neg hp])
  have key : ∀ l : List Event,
      (l.filter Event.isTable = [] ∨
        ∃ a b : Nat, l.filter Event.isTable =
          [Event.tuple_scores_alloc a b, Event.dms_compute_emissions,
           Event.dm_handle_missing_data, Event.dms_sample_paths_pthr,
           Event.tuple_scores_free]) →
      (∀ e ∈ before_first Event.isSampler l, e ≠ Event.tuple_scores_free) ∧
      (∀ e ∈ (from_first Event.isSampler l).tail,
        e.isEmissions = false ∧ e.isSampler = false ∧
          ∀ nstates ntuples, e ≠ Event.tuple_scores_alloc nstates ntuples) := by
    intro l hl
    have hsplit : l = before_first Event.isSampler l ++ from_first Event.isSampler l := by
      unfold before_first from_first
      exact (List.takeWhile_append_dropWhile _ l).symm
    have hbefore : ∀ e ∈ before_first Event.isSampler l, e.isSampler = false := by
      intro e he
      unfold before_first at he
      have := List.mem_takeWhile_imp he
      simpa using this
    have hfilter : l.filter Event.isTable =
        (before_first Event.isSampler l).filter Event.isTable ++
          (from_first Event.isSampler l).filter Event.isTable := by
      conv_lhs => rw [hsplit]
      rw [List.filter_append]
    cases hfrom : from_first Event.isSampler l with
    | nil =>
      rw [hfrom, List.filter_nil, List.append_nil] at hfilter
      refine ⟨?_, by simp⟩
      intro e he heq
      subst heq
      have hmem : Event.tuple_scores_free ∈ l.filter Event.isTable := by
        rw [hfilter]
        exact List.mem_filter.mpr ⟨he, rfl⟩
      have hsam : Event.dms_sample_paths_pthr ∈ l.filter Event.isTable := by
        rcases hl with hl | ⟨a, b, hl⟩
        · rw [hl] at hmem
          simp at hmem
        · rw [hl]
          simp
      rw [hfilter] at hsam
      have := hbefore _ (List.mem_filter.mp hsam).1
      simp [Event.isSampler] at this
    | cons s rest =>
      have hs : s.isSampler = true := by
        have : s ∈ from_first Event.isSampler l := by rw [hfrom]; exact List.mem_cons_self _ _
        unfold from_first at hfrom
        have h := List.head_dropWhile_not (fun e => !Event.isSampler e) l
        simp only [hfrom] at h
        simpa using h (by simp)
      have hs' : s = Event.dms_sample_paths_pthr := by
        cases s <;> first | rfl | (simp [Event.isSampler] at hs)
      subst hs'
      rw [hfrom] at hfilter
      rcases hl with hl | ⟨a, b, hl⟩
      · rw [hl] at hfilter
        have : Event.dms_sample_paths_pthr ∈ ([] : List Event) := by
          rw [hfilter]
          simp [Event.isTable]
        simp at this
      · rw [hl] at hfilter
        have hb : ∀ e ∈ (before_first Event.isSampler l).filter Event.isTable,
            e ≠ Event.dms_sample_paths_pthr := by
          intro e he heq
          subst heq
          have := hbefore _ (List.mem_filter.mp he).1
          simp [Event.isSampler] at this
        have hfs : List.filter Event.isTable (Event.dms_sample_paths_pthr :: rest) =
            Event.dms_sample_paths_pthr :: rest.filter Event.isTable := by
          simp [List.filter_cons, Event.isTable]
        rw [hfs] at hfilter
        -- the sampler of the right-hand side is the fourth of the five events
        have hparts : (before_first Event.isSampler l).filter Event.isTable =
              [Event.tuple_scores_alloc a b, Event.dms_compute_emissions,
               Event.dm_handle_missing_data] ∧
            rest.filter Event.isTable = [Event.tuple_scores_free] := by
          generalize (before_first Event.isSampler l).filter Event.isTable = B at hfilter hb
          generalize rest.filter Event.isTable = R at hfilter
          match B, hfilter, hb with
          | [], h, _ => simp at h
          | [_], h, _ => simp at h
          | [_, _], h, _ => simp at h
          | [x, y, z], h, _ =>
            simp only [List.cons_append, List.nil_append, List.cons.injEq] at h
            obtain ⟨rfl, rfl, rfl, _, hR⟩ := h
            exact ⟨rfl, hR.symm⟩
          | x :: y :: z :: u :: rest', h, hb =>
            simp only [List.cons_append, List.cons.injEq] at h
            obtain ⟨_, _, _, hu, _⟩ := h
            exact absurd hu.symm (hb u (by simp))
        refine ⟨?_, ?_⟩
        · intro e he heq
          subst heq
          have : Event.tuple_scores_free ∈
              (before_first Event.isSampler l).filter Event.isTable :=
            List.mem_filter.mpr ⟨he, rfl⟩
          rw [hparts.1] at this
          simp at this
        · intro e he
          simp only [List.tail_cons] at he
          by_cases ht : e.isTable = true
          · have : e ∈ rest.filter Event.isTable := List.mem_filter.mpr ⟨he, ht⟩
            rw [hparts.2, List.mem_singleton] at this
            subst this
            exact ⟨rfl, rfl, fun _ _ h => by cases h⟩
          · cases e <;>
              first
              | exact absurd rfl ht
              | exact ⟨rfl, rfl, fun _ _ h => by cases h⟩
  refine ⟨dmsample_pipeline_table w o dmpmsa, hmain, ?_⟩
  apply key
  rcases hmain with h | ⟨d', h⟩
  · exact Or.inl h
  · exact Or.inr ⟨_, _, h⟩

/-- C18: dump and feature output are mutually exclusive.  Of the results a
run can write, the pipeline of `dmsample` writes exactly the dump of the
merged table (`dms_write_hash`) when a hash file was given and the run is not
in precomputed-hash mode, and exactly the feature output (the set is created,
one record is built per key, the set is printed) otherwise; the pipeline of
`dmsProcessParallel` with a dump file merges, writes the dump and returns
without building a feature record, and without one it writes the feature
output and no dump.  In both programs the dump is written with the key length
`2k + 2` the merge step was given. -/
theorem C18_dump_or_features (w : World) (o : DmsOptions) (dmpmsa : DMotifPmsaStruct)
    (dpp : DppOptions) (hash_files : List CacheFile) :
    ((dmsample_pipeline w o dmpmsa).trace.filter Event.isResult =
      if o.hash_f ≠ none ∧ o.precomputed_hash = false then
        [Event.dms_write_hash (dmsample_acquire w o dmpmsa).2.path_counts (2 * w.dm_k + 2)
          (dmsample_acquire w o dmpmsa).2.nsamples]
      else
        [Event.gff_new_set] ++
          (hsh_keys (dmsample_acquire w o dmpmsa).2.path_counts).map (fun key =>
            Event.dms_motif_as_gff_feat key
              (hsh_get (dmsample_acquire w o dmpmsa).2.path_counts key)
              (dmsample_acquire w o dmpmsa).2.nsamples o.sample_interval o.refidx) ++
          [Event.gff_print_set
            ((hsh_keys (dmsample_acquire w o dmpmsa).2.path_counts).map (fun key =>
              w.feat key (hsh_get (dmsample_acquire w o dmpmsa).2.path_counts key)
                (dmsample_acquire w o dmpmsa).2.nsamples o.sample_interval o.refidx))]) ∧
    (∀ e ∈ (dmsample_pipeline w o dmpmsa).trace, ∀ n, e.nbases = some n →
      n = 2 * w.dm_k + 2) ∧
    (∀ fname, dpp.dump_f = some fname →
      dmsProcessParallel_pipeline w dpp hash_files =
        ⟨[Event.dm_new,
          Event.dms_uncache (hash_files.map CacheFile.name) 10000 (2 * w.dm_k + 2) 0,
          Event.dms_write_hash (dms_uncache hash_files 0 0).1 (2 * w.dm_k + 2)
            (dms_uncache hash_files 0 0).2], .returned 0⟩) ∧
    (dpp.dump_f = none →
      (dmsProcessParallel_pipeline w dpp hash_files).trace.filter
          (fun e => e.isMergeOrRead || e.isResult) =
        [Event.dms_uncache (hash_files.map CacheFile.name) 10000 (2 * w.dm_k + 2) 0,
         Event.gff_new_set] ++
          (hsh_keys (dms_uncache hash_files 0 0).1).map (fun key =>
            Event.dms_motif_as_gff_feat key (hsh_get (dms_uncache hash_files 0 0).1 key)
              (dms_uncache hash_files 0 0).2 dpp.sample_interval dpp.refidx) ++
          [Event.gff_print_set ((hsh_keys (dms_uncache hash_files 0 0).1).map (fun key =>
            w.feat key (hsh_get (dms_uncache hash_files 0 0).1 key) (dms_uncache hash_files 0 0).2
              dpp.sample_interval dpp.refidx))]) := by
  refine ⟨?_, dmsample_pipeline_nbases w o dmpmsa, ?_, ?_⟩
  · rw [dmsample_pipeline_results, dmsample_output_results]
  · intro fname h
    exact dmsProcessParallel_pipeline_dump w dpp hash_files fname h
  · intro h
    exact dmsProcessParallel_pipeline_features w dpp hash_files h

/-- C19, where the claim fails: an argument of `--indel-model` whose four
values are NaN.  No value of the list is a number strictly between 0 and 1,
yet both comparisons of the test of lines 156-159 are false on each, the
option is accepted and the eight parameters are NaN. -/
theorem C19_indel_model_counterexample :
    scenario_world_indel_nan.get_arg_list_dbl "nan,nan,nan,nan" =
      .ok [.nan, .nan, .nan, .nan] ∧
    ¬ strictly_in_unit (lst_get_dbl [.nan, .nan, .nan, .nan] 0) ∧
    dmsample_option scenario_world_indel_nan (dmsample_defaults scenario_world_indel_nan) 'I'
        "nan,nan,nan,nan" =
      ([], .ok { dmsample_defaults scenario_world_indel_nan with
        alpha_n := .nan, beta_n := .nan, tau_n := .nan, epsilon_n := .nan,
        alpha_c := .nan, beta_c := .nan, tau_c := .nan, epsilon_c := .nan,
        do_ih := 1 }) :=
  ⟨rfl, fun h => h, rfl⟩

/-- C19: the option `--indel-model` of `dmsample`.  For the list of doubles
its argument stands for, the option is accepted if and only if the list has
4 or 8 values and each of its first four values is a number strictly between
0 and 1 or is NaN; it dies with 'bad argument to --indel-model' otherwise.
When accepted, both the non-conserved parameters `alpha_n`, `beta_n`,
`tau_n`, `epsilon_n` and the conserved ones `alpha_c`, `beta_c`, `tau_c`,
`epsilon_c` are the first four values, and `do_ih` is set; two accepted lists
with the same first four values give the same option variables, so values 5
to 8 have no influence.  On a list of numbers, accepted is: 4 or 8 values,
each of the first four strictly between 0 and 1. -/
theorem C19_indel_model (w : World) (o : DmsOptions) (optarg optarg' : String)
    (tmpl tmpl' : List double)
    (hlist : w.get_arg_list_dbl optarg = .ok tmpl)
    (hlist' : w.get_arg_list_dbl optarg' = .ok tmpl') :
    (indel_accepted tmpl →
      dmsample_option w o 'I' optarg =
        ([], .ok { o with
          alpha_n := lst_get_dbl tmpl 0, beta_n := lst_get_dbl tmpl 1,
          tau_n := lst_get_dbl tmpl 2, epsilon_n := lst_get_dbl tmpl 3,
          alpha_c := lst_get_dbl tmpl 0, beta_c := lst_get_dbl tmpl 1,
          tau_c := lst_get_dbl tmpl 2, epsilon_c := lst_get_dbl tmpl 3,
          do_ih := 1 })) ∧
    (¬ indel_accepted tmpl →
      dmsample_option w o 'I' optarg =
        ([], .error (.died "ERROR: bad argument to --indel-model.\n"))) ∧
    (indel_accepted tmpl → indel_accepted tmpl' → tmpl.take 4 = tmpl'.take 4 →
      dmsample_option w o 'I' optarg = dmsample_option w o 'I' optarg') ∧
    (∀ xs : List Rat, tmpl = xs.map double.num →
      (indel_accepted tmpl ↔
        (xs.length = 4 ∨ xs.length = 8) ∧
        (0 < xs.getD 0 0 ∧ xs.getD 0 0 < 1) ∧ (0 < xs.getD 1 0 ∧ xs.getD 1 0 < 1) ∧
        (0 < xs.getD 2 0 ∧ xs.getD 2 0 < 1) ∧ (0 < xs.getD 3 0 ∧ xs.getD 3 0 < 1))) := by
  have hr : ∀ x : double, in_unit_or_nan x ↔ indel_out_of_range x = false := by
    intro x
    cases x with
    | num v =>
      simp only [in_unit_or_nan, indel_out_of_range, double.le, double.ge, Bool.or_eq_false_iff,
        decide_eq_false_iff_not, not_le, ge_iff_le]
    | nan => simp [in_unit_or_nan, indel_out_of_range, double.le, double.ge]
  have hacc : ∀ (arg : String) (l : List double), w.get_arg_list_dbl arg = .ok l →
      indel_accepted l →
      dmsample_option w o 'I' arg =
        ([], .ok { o with
          alpha_n := lst_get_dbl l 0, beta_n := lst_get_dbl l 1,
          tau_n := lst_get_dbl l 2, epsilon_n := lst_get_dbl l 3,
          alpha_c := lst_get_dbl l 0, beta_c := lst_get_dbl l 1,
          tau_c := lst_get_dbl l 2, epsilon_c := lst_get_dbl l 3,
          do_ih := 1 }) := by
    intro arg l hl ⟨hlen, h0, h1, h2, h3⟩
    have h6 : ¬ l.length = 6 := by omega
    have hne : ¬ (l.length ≠ 4 ∧ l.length ≠ 8) := by omega
    unfold dmsample_option
    simp only [hl, hne, h6, if_false, (hr _).1 h0, (hr _).1 h1, (hr _).1 h2, (hr _).1 h3,
      Bool.or_self, Bool.false_eq_true]
    rfl
  refine ⟨hacc optarg tmpl hlist, ?_, ?_, ?_⟩
  · intro hnot
    unfold dmsample_option
    simp only [hlist]
    by_cases hlen : tmpl.length = 4 ∨ tmpl.length = 8
    · have h6 : ¬ tmpl.length = 6 := by omega
      have hne : ¬ (tmpl.length ≠ 4 ∧ tmpl.length ≠ 8) := by omega
      have hbad : (indel_out_of_range (lst_get_dbl tmpl 0) ||
          indel_out_of_range (lst_get_dbl tmpl 1) ||
          indel_out_of_range (lst_get_dbl tmpl 2) ||
          indel_out_of_range (lst_get_dbl tmpl 3) ||
          indel_out_of_range (lst_get_dbl tmpl 0) ||
          indel_out_of_range (lst_get_dbl tmpl 1) ||
          indel_out_of_range (lst_get_dbl tmpl 2) ||
          indel_out_of_range (lst_get_dbl tmpl 3)) = true := by
        by_contra hcon
        apply hnot
        simp only [Bool.or_eq_true, not_or, Bool.not_eq_true] at hcon
        exact ⟨hlen, (hr _).2 hcon.1.1.1.1.1.1.1, (hr _).2 hcon.1.1.1.1.1.1.2,
          (hr _).2 hcon.1.1.1.1.1.2, (hr _).2 hcon.1.1.1.1.2⟩
      simp only [hne, h6, if_false, hbad, if_true]
      rfl
    · have hne : tmpl.length ≠ 4 ∧ tmpl.length ≠ 8 := by omega
      rw [if_pos hne]
      rfl
  · intro ha ha' htake
    have hget : ∀ i, i < 4 → lst_get_dbl tmpl i = lst_get_dbl tmpl' i := by
      intro i hi
      have h1 : (tmpl.take 4).getD i (.num 0) = tmpl.getD i (.num 0) := by
        simp [List.getD_eq_getElem?_getD, List.getElem?_take, hi]
      have h2 : (tmpl'.take 4).getD i (.num 0) = tmpl'.getD i (.num 0) := by
        simp [List.getD_eq_getElem?_getD, List.getElem?_take, hi]
      unfold lst_get_dbl
      rw [← h1, ← h2, htake]
    rw [hacc optarg tmpl hlist ha, hacc optarg' tmpl' hlist' ha',
      hget 0 (by omega), hget 1 (by omega), hget 2 (by omega), hget 3 (by omega)]
  · intro xs hxs
    have hg : ∀ i, lst_get_dbl (xs.map double.num) i = .num (xs.getD i 0) := by
      intro i
      unfold lst_get_dbl
      simp only [List.getD_eq_getElem?_getD, List.getElem?_map]
      cases xs[i]? <;> rfl
    subst hxs
    simp only [indel_accepted, hg, in_unit_or_nan, List.length_map]

/-- C19, at an argument of eight values whose last four lie outside the unit
interval: it is accepted, and the conserved parameters are the first four
values. -/
theorem C19_indel_model_witness :
    scenario_world_indel8.get_arg_list_dbl "0.1,0.2,0.3,0.4,5,6,7,8" =
      .ok scenario_indel8 ∧
    indel_accepted scenario_indel8 ∧
    dmsample_option scenario_world_indel8 (dmsample_defaults scenario_world_indel8) 'I'
        "0.1,0.2,0.3,0.4,5,6,7,8" =
      ([], .ok { dmsample_defaults scenario_world_indel8 with
        alpha_n := .num (1 / 10), beta_n := .num (2 / 10), tau_n := .num (3 / 10),
        epsilon_n := .num (4 / 10),
        alpha_c := .num (1 / 10), beta_c := .num (2 / 10), tau_c := .num (3 / 10),
        epsilon_c := .num (4 / 10),
        do_ih := 1 }) :=
  ⟨rfl, by norm_num [indel_accepted, scenario_indel8, lst_get_dbl, in_unit_or_nan],
   (C19_indel_model scenario_world_indel8 (dmsample_defaults scenario_world_indel8)
      "0.1,0.2,0.3,0.4,5,6,7,8" "0.1,0.2,0.3,0.4,5,6,7,8"
      scenario_indel8 scenario_indel8 rfl rfl).1
      (by norm_num [indel_accepted, scenario_indel8, lst_get_dbl, in_unit_or_nan])⟩

/-- C20: the prior table is accessed in bounds.  With `rows` the number of
rows allocated (4 when `xi_mode` is off, 5 when it is on), a run of
`dmsample` that is not in precomputed-hash mode allocates the table, touches
in its initialisation loop the rows 0 to `rows - 1`, each once and no other,
and calls `dms_read_priors` on a table whose `rows` rows all hold `[0, 0]`;
its release loop touches the rows 0 to `rows - 1`, each once and no other,
before the table is released.  In precomputed-hash mode the table is neither
allocated nor released.  The scenario run shows the events of the table in a
whole run, with `xi_mode` on, with it off, and in precomputed-hash mode. -/
theorem C20_prior_table_in_bounds (w : World) (o : DmsOptions) (m : Merged)
    (prior_fname : String) :
    (dmsample_priors o prior_fname =
      if o.precomputed_hash = false then
        [Event.print_stderr
          ("Reading transition parameter priors from " ++ prior_fname ++ "...\n"),
         Event.priors_alloc (priors_rows o.xi_mode)] ++
          (List.range (priors_rows o.xi_mode)).map Event.priors_row_init ++
          [Event.dms_read_priors (List.replicate (priors_rows o.xi_mode) (some [0, 0]))
            o.xi_mode]
      else []) ∧
    ((dmsample_output w o m).trace.filter Event.isPriors =
      if o.precomputed_hash = false then
        (List.range (priors_rows o.xi_mode)).map Event.priors_row_free ++ [Event.priors_free]
      else []) ∧
    (∀ i, Event.priors_row_init i ∈ dmsample_priors o prior_fname →
      i < priors_rows o.xi_mode) ∧
    (∀ i, Event.priors_row_free i ∈ (dmsample_output w o m).trace →
      i < priors_rows o.xi_mode) ∧
    (o.precomputed_hash = false → ∀ i, i < priors_rows o.xi_mode →
      (dmsample_priors o prior_fname).count (Event.priors_row_init i) = 1 ∧
        (dmsample_output w o m).trace.count (Event.priors_row_free i) = 1) ∧
    (dmsample_main scenario_world [] scenario_args).trace.filter Event.isPriors =
      [Event.priors_alloc 5, Event.priors_row_init 0, Event.priors_row_init 1,
       Event.priors_row_init 2, Event.priors_row_init 3, Event.priors_row_init 4,
       Event.dms_read_priors
         [some [0, 0], some [0, 0], some [0, 0], some [0, 0], some [0, 0]] true,
       Event.priors_row_free 0, Event.priors_row_free 1, Event.priors_row_free 2,
       Event.priors_row_free 3, Event.priors_row_free 4, Event.priors_free] ∧
    (dmsample_main scenario_world [('F', "")] scenario_args).trace.filter Event.isPriors =
      [Event.priors_alloc 4, Event.priors_row_init 0, Event.priors_row_init 1,
       Event.priors_row_init 2, Event.priors_row_init 3,
       Event.dms_read_priors [some [0, 0], some [0, 0], some [0, 0], some [0, 0]] false,
       Event.priors_row_free 0, Event.priors_row_free 1, Event.priors_row_free 2,
       Event.priors_row_free 3, Event.priors_free] ∧
    (dmsample_main scenario_world [('T', "tmp.lst")] scenario_args).trace.filter
      Event.isPriors = [] := by
  have hp := dmsample_priors_eq o prior_fname
  have hout := dmsample_output_priors w o m
  have hcount : ∀ l : List Event, ∀ i,
      l.count (Event.priors_row_free i) = (l.filter Event.isPriors).count
        (Event.priors_row_free i) :=
    fun l i => (List.count_filter rfl).symm
  refine ⟨hp, hout, ?_, ?_, ?_, by decide, by decide, by decide⟩
  · intro i hi
    rw [hp] at hi
    split at hi
    · simp only [List.mem_append, List.mem_cons, List.mem_singleton, List.mem_map,
        List.mem_range, List.not_mem_nil, or_false] at hi
      rcases hi with ((h | h) | ⟨j, hj, h⟩) | h
      · cases h
      · cases h
      · cases h
        exact hj
      · cases h
    · simp at hi
  · intro i hi
    have hmem : Event.priors_row_free i ∈ (dmsample_output w o m).trace.filter Event.isPriors :=
      List.mem_filter.mpr ⟨hi, rfl⟩
    rw [hout] at hmem
    split at hmem
    · simp only [List.mem_append, List.mem_singleton, List.mem_map, List.mem_range] at hmem
      rcases hmem with ⟨j, hj, h⟩ | h
      · cases h
        exact hj
      · cases h
    · simp at hmem
  · intro hprec i hi
    rw [hcount, hp, hout, if_pos hprec, if_pos hprec]
    cases hx : o.xi_mode
    · rw [hx] at hi
      have hi' : i < 4 := hi
      interval_cases i <;>
        exact ⟨by simp [priors_rows, List.range_succ, List.count_cons], by decide⟩
    · rw [hx] at hi
      have hi' : i < 5 := hi
      interval_cases i <;>
        exact ⟨by simp [priors_rows, List.range_succ, List.count_cons], by decide⟩

end Phast
